import Mathlib

/-! # netb: socket wrappers, buffer-mediated I/O and the bounded-timeout connect

A shallow embedding of `src/netb/Error.cpp`, `src/netb/Socket.cpp` and
`src/netb/TcpSocket.cpp`.

The operating system is an explicit `World`: a script of the outcomes the
kernel will give to the next system calls (in the order they are issued), the
current `errno`, and the trace of the system calls issued so far.  Every
system call consumes one script entry; a function whose script runs out has no
modelled outcome (`none`).  A nullable `Error*` output is an `Option Error`.
-/

namespace netb

/-! ## Platform constants (POSIX / Linux values) -/

/-- The descriptor value of a handle that owns nothing (`INVALID_SOCKET`). -/
def INVALID_SOCKET : Int := -1
/-- The failure return of a system call (`SOCKET_ERROR`). -/
def SOCKET_ERROR : Int := -1
/-- errno: bad file descriptor. -/
def EBADF : Int := 9
/-- errno: interrupted system call. -/
def EINTR : Int := 4
/-- errno: operation would block (`EAGAIN`). -/
def EWOULDBLOCK : Int := 11
/-- errno: operation now in progress. -/
def EINPROGRESS : Int := 115
/-- errno: connection refused. -/
def ECONNREFUSED : Int := 111
/-- errno: no buffer space available. -/
def ENOBUFS : Int := 105
/-- File status flag of `fcntl`: non-blocking mode (bit 11). -/
def O_NONBLOCK : Int := 2048
/-- Address family of an unset address. -/
def AF_UNSPEC : Int := 0
/-- Socket type of a stream socket. -/
def SOCK_STREAM : Int := 1
/-- Protocol number of TCP. -/
def IPPROTO_TCP : Int := 6
/-- Selector interest: readable. -/
def SOCKET_EVENT_READ : Int := 1
/-- Selector interest: writable. -/
def SOCKET_EVENT_WRITE : Int := 2
/-- Socket option level `SOL_SOCKET`. -/
def SOL_SOCKET : Int := 1
/-- Socket option `SO_ERROR`: the pending error of the socket. -/
def SO_ERROR : Int := 4

/-! ## Error value (`Error.cpp`) -/

/-- The error classes an `Error` can point to. -/
inductive ErrorClassId where
  | NoError
  | ErrorClass
  | LogicError
  | RuntimeError
  | SocketError
  deriving DecidableEq, Repr

/-- The class `Error`: `_class` is a nullable pointer to an error class. -/
structure Error where
  _class : Option ErrorClassId
  _message : String
  _code : Int
  deriving DecidableEq, Repr

/-- `Error::Error()`: no error. -/
def Error.new : Error := { _class := none, _message := "", _code := 0 }

/-- `Error::Class()`. -/
def Error.Class (e : Error) : ErrorClassId :=
  match e._class with
  | some c => c
  | none => ErrorClassId.NoError

/-- `Error::Reset()`. -/
def Error.Reset (_e : Error) : Error := { _class := none, _message := "", _code := 0 }

/-- `Error::Set(const ErrorClass&, const std::string&, int)`. -/
def Error.Set (_e : Error) (cls : ErrorClassId) (msg : String) (code : Int) : Error :=
  { _class := some cls, _message := msg, _code := code }

/-! ## Socket address -/

/-- Modelled from the spec: the socket address value type of `netb`
(`SocketAddress.hpp` of `netb` is absent): a family, the host bytes and a port. -/
structure SocketAddress where
  family : Int
  host : List Nat
  port : Nat
  deriving DecidableEq, Repr

/-- Modelled from the spec: `SocketAddress::Empty()`, the address is unset
(family `AF_UNSPEC`). -/
def SocketAddress.Empty (a : SocketAddress) : Bool := a.family == AF_UNSPEC

/-- Modelled from the spec: `SocketAddress::Any()`, the host part is the
wildcard (all host bytes zero). -/
def SocketAddress.Any (a : SocketAddress) : Bool := a.host.all (fun b => b == 0)

/-- `SocketAddress::Family()`. -/
def SocketAddress.Family (a : SocketAddress) : Int := a.family

/-! ## The operating system -/

/-- A system call as it is issued, with the arguments that matter. -/
inductive Call where
  | socket (domain type protocol : Int)
  | close (fd : Int)
  | shutdown (fd : Int) (how : Int)
  | bind (fd : Int) (addr : SocketAddress)
  | listen (fd : Int) (backlog : Int)
  | accept (fd : Int)
  | connect (fd : Int) (addr : SocketAddress)
  | getfl (fd : Int)
  | setfl (fd : Int) (flags : Int)
  | select (fd : Int) (events : Int) (timeout : Int)
  | send (fd : Int) (bytes : List Nat) (flags : Int)
  | recv (fd : Int) (n : Nat) (flags : Int)
  | getsockopt (fd : Int) (level name : Int)
  | getpeername (fd : Int)
  | getsockname (fd : Int)
  | bindRaw (fd : Int) (sockaddr : List Nat) (len : Nat)
  deriving DecidableEq, Repr

/-- The outcome the kernel gives to one system call: the return value, the
`errno` it leaves, and (for `recv`) the bytes it delivers. -/
structure SysRes where
  ret : Int
  errno : Int
  data : List Nat
  deriving DecidableEq, Repr

/-- One issued system call with its outcome. -/
structure Event where
  call : Call
  ret : Int
  errno : Int
  deriving DecidableEq, Repr

/-- The state of the operating system as the program sees it. -/
structure World where
  script : List SysRes
  errno : Int
  trace : List Event
  deriving DecidableEq, Repr

/-- The record of the call `c` answered with `r`. -/
def Event.of (c : Call) (r : SysRes) : Event := { call := c, ret := r.ret, errno := r.errno }

/-- The world after the call `c` was answered with `r`. -/
def World.step (c : Call) (r : SysRes) (tr : List Event) (rest : List SysRes) : World :=
  { script := rest, errno := r.errno, trace := tr ++ [Event.of c r] }

/-- Issue one system call: the next script entry is its outcome. -/
def syscall (c : Call) (w : World) : Option (SysRes × World) :=
  match w.script with
  | [] => none
  | r :: rest => some (r, World.step c r w.trace rest)

/-- The value a call returns, the `Error*` output after it, and the world after it. -/
structure Res (α : Type) where
  val : α
  err : Option Error
  world : World
  deriving DecidableEq, Repr

/-- Modelled from the spec: `SocketError::Interrupted()` (`SocketError.hpp` is
absent), the last system call failed with "interrupted by signal". -/
def SocketError.Interrupted (w : World) : Bool := w.errno == EINTR

/-- Modelled from the spec: `SocketError::InProgress()` (`SocketError.hpp` is
absent), the last system call reported "in progress". -/
def SocketError.InProgress (w : World) : Bool := w.errno == EINPROGRESS

/-- Modelled from the spec: `SocketError::WouldBlock()` (`SocketError.hpp` is
absent), the last system call reported "would block". -/
def SocketError.WouldBlock (w : World) : Bool := w.errno == EWOULDBLOCK

/-- Modelled from the spec: the `SET_SOCKET_*_ERROR(e, msg)` macros
(`SocketError.hpp` is absent): a non-null error output receives the socket
error class, the message and the current `errno`; a null output stays null. -/
def SET_SOCKET_ERROR (e : Option Error) (msg : String) (w : World) : Option Error :=
  e.map (fun er => er.Set ErrorClassId.SocketError msg w.errno)

/-- Modelled from the spec: `SET_LOGIC_ERROR(e, msg, code)` (`Error.hpp` is absent). -/
def SET_LOGIC_ERROR (e : Option Error) (msg : String) (code : Int) : Option Error :=
  e.map (fun er => er.Set ErrorClassId.LogicError msg code)

/-- Modelled from the spec: `SET_RUNTIME_ERROR(e, msg, code)` (`Error.hpp` is absent). -/
def SET_RUNTIME_ERROR (e : Option Error) (msg : String) (code : Int) : Option Error :=
  e.map (fun er => er.Set ErrorClassId.RuntimeError msg code)

/-- Modelled from the spec: `RESET_ERROR(e)` (`Error.hpp` is absent): a
non-null error output is reset to "no error". -/
def RESET_ERROR (e : Option Error) : Option Error := e.map Error.Reset

/-- Modelled from the spec: `ErrorCode::NOBUFS` (`ErrorCode.hpp` is absent). -/
def ErrorCode.NOBUFS : Int := ENOBUFS

/-! ## Socket handle (`Socket.cpp`) -/

/-- The class `Socket`: one descriptor, `INVALID_SOCKET` when absent. -/
structure Socket where
  _fd : Int
  deriving DecidableEq, Repr

/-- Modelled from the spec: `Socket::Valid()` (`Socket.hpp` is absent), the
handle owns a descriptor. -/
def Socket.Valid (s : Socket) : Bool := s._fd != INVALID_SOCKET

/-- `CloseSocket(SOCKET& s, Error* e)`: the descriptor is reset whatever the
`close` call returns; the value is the success flag and the new descriptor. -/
def CloseSocket (fd : Int) (e : Option Error) (w : World) : Option (Res (Bool × Int)) :=
  match syscall (Call.close fd) w with
  | none => none
  | some (r, w1) =>
    if r.ret = SOCKET_ERROR then
      some { val := (false, INVALID_SOCKET),
             err := SET_SOCKET_ERROR e ("ClsoeSocket [" ++ toString INVALID_SOCKET ++ "]") w1,
             world := w1 }
    else some { val := (true, INVALID_SOCKET), err := e, world := w1 }

/-- `Socket::Close(Error* e)`. -/
def Socket.Close (s : Socket) (e : Option Error) (w : World) : Option (Res (Bool × Socket)) :=
  if s._fd = INVALID_SOCKET then some { val := (true, s), err := e, world := w }
  else
    match CloseSocket s._fd e w with
    | none => none
    | some r => some { val := (r.val.1, { _fd := r.val.2 }), err := r.err, world := r.world }

/-- `Socket::InitSocket(int domain, int type, int protocol, Error* e)`. -/
def Socket.InitSocket (_s : Socket) (domain type protocol : Int) (e : Option Error) (w : World) :
    Option (Res (Bool × Socket)) :=
  match syscall (Call.socket domain type protocol) w with
  | none => none
  | some (r, w1) =>
    if r.ret = INVALID_SOCKET then
      some { val := (false, { _fd := r.ret }), err := SET_SOCKET_ERROR e "Socket::InitSocket" w1, world := w1 }
    else some { val := (true, { _fd := r.ret }), err := e, world := w1 }

/-- `Socket::Create(int domain, int type, int protocol, Error* e)`: an open
descriptor is closed first (with a null error output), then a new one is opened. -/
def Socket.Create (s : Socket) (domain type protocol : Int) (e : Option Error) (w : World) :
    Option (Res (Bool × Socket)) :=
  if s._fd ≠ INVALID_SOCKET then
    match Socket.Close s none w with
    | none => none
    | some r => Socket.InitSocket r.val.2 domain type protocol e r.world
  else Socket.InitSocket s domain type protocol e w

/-- `Socket::Bind(const SocketAddress& addr, Error* e)`. -/
def Socket.Bind (s : Socket) (addr : SocketAddress) (e : Option Error) (w : World) : Option (Res Bool) :=
  match syscall (Call.bind s._fd addr) w with
  | none => none
  | some (r, w1) =>
    if r.ret = SOCKET_ERROR then
      some { val := false, err := SET_SOCKET_ERROR e ("Socket::Bind [" ++ toString s._fd ++ "]") w1, world := w1 }
    else some { val := true, err := e, world := w1 }

/-- `Socket::Block(bool block, Error* e)`, the POSIX branch: read the file
status flags, clear or set `O_NONBLOCK`, write them back. -/
def Socket.Block (s : Socket) (block : Bool) (e : Option Error) (w : World) : Option (Res Bool) :=
  match syscall (Call.getfl s._fd) w with
  | none => none
  | some (g, w1) =>
    let flags : Int := if block then Int.land g.ret (Int.lnot O_NONBLOCK) else Int.lor g.ret O_NONBLOCK
    match syscall (Call.setfl s._fd flags) w1 with
    | none => none
    | some (r, w2) =>
      if r.ret = SOCKET_ERROR then
        some { val := false, err := SET_SOCKET_ERROR e ("Socket::Block [" ++ toString s._fd ++ "]") w2, world := w2 }
      else some { val := true, err := e, world := w2 }

/-- The loop of `Socket::Accept(Error* e)` over the outcomes of `::accept`. -/
def Socket.AcceptLoop (s : Socket) (e : Option Error) : List SysRes → List Event → Option (Res Int)
  | [], _ => none
  | r :: rest, tr =>
    let w1 := World.step (Call.accept s._fd) r tr rest
    if r.ret = INVALID_SOCKET then
      if !SocketError.Interrupted w1 then
        some { val := INVALID_SOCKET, err := SET_SOCKET_ERROR e ("Socke::Accept [" ++ toString s._fd ++ "]") w1, world := w1 }
      else Socket.AcceptLoop s e rest w1.trace
    else some { val := r.ret, err := e, world := w1 }

/-- `Socket::Accept(Error* e)`. -/
def Socket.Accept (s : Socket) (e : Option Error) (w : World) : Option (Res Int) :=
  Socket.AcceptLoop s e w.script w.trace

/-- The loop of `Socket::Connect(const SocketAddress& addr, Error* e)` over the
outcomes of `::connect`. -/
def Socket.ConnectLoop (s : Socket) (addr : SocketAddress) (e : Option Error) :
    List SysRes → List Event → Option (Res Bool)
  | [], _ => none
  | r :: rest, tr =>
    let w1 := World.step (Call.connect s._fd addr) r tr rest
    if r.ret = SOCKET_ERROR then
      if !SocketError.Interrupted w1 then
        some { val := false, err := SET_SOCKET_ERROR e ("Socket::Connect [" ++ toString s._fd ++ "]") w1, world := w1 }
      else Socket.ConnectLoop s addr e rest w1.trace
    else some { val := true, err := e, world := w1 }

/-- `Socket::Connect(const SocketAddress& addr, Error* e)`. -/
def Socket.Connect (s : Socket) (addr : SocketAddress) (e : Option Error) (w : World) : Option (Res Bool) :=
  Socket.ConnectLoop s addr e w.script w.trace

/-- The loop of `Socket::Send` over the outcomes of `::send`. -/
def Socket.SendLoop (s : Socket) (p : List Nat) (n : Nat) (flags : Int) (e : Option Error) :
    List SysRes → List Event → Option (Res Int)
  | [], _ => none
  | r :: rest, tr =>
    let w1 := World.step (Call.send s._fd (p.take n) flags) r tr rest
    if r.ret = SOCKET_ERROR then
      if !SocketError.Interrupted w1 then
        some { val := r.ret, err := SET_SOCKET_ERROR e ("Socket::Send [" ++ toString s._fd ++ "]") w1, world := w1 }
      else Socket.SendLoop s p n flags e rest w1.trace
    else some { val := r.ret, err := e, world := w1 }

/-- `Socket::Send(const void* p, size_t n, int flags, Error* e)`: `p` is the
memory at the pointer, of which the first `n` bytes are offered. -/
def Socket.Send (s : Socket) (p : List Nat) (n : Nat) (flags : Int) (e : Option Error) (w : World) :
    Option (Res Int) :=
  Socket.SendLoop s p n flags e w.script w.trace

/-- The memory at a pointer after the kernel stored `d` at its start. -/
def storeAt (mem d : List Nat) : List Nat := d ++ mem.drop d.length

/-- The loop of `Socket::Receive` over the outcomes of `::recv`; every call
stores at most `n` delivered bytes at `p`.  The value is the return value
together with the memory at `p` afterwards. -/
def Socket.ReceiveLoop (s : Socket) (n : Nat) (flags : Int) (e : Option Error) :
    List Nat → List SysRes → List Event → Option (Res (Int × List Nat))
  | _, [], _ => none
  | p, r :: rest, tr =>
    let w1 := World.step (Call.recv s._fd n flags) r tr rest
    let p1 := storeAt p (r.data.take n)
    if r.ret = SOCKET_ERROR then
      if !SocketError.Interrupted w1 then
        some { val := (r.ret, p1), err := SET_SOCKET_ERROR e ("Socket::Receive [" ++ toString s._fd ++ "]") w1, world := w1 }
      else Socket.ReceiveLoop s n flags e p1 rest w1.trace
    else some { val := (r.ret, p1), err := e, world := w1 }

/-- `Socket::Receive(void* p, size_t n, int flags, Error* e)`. -/
def Socket.Receive (s : Socket) (p : List Nat) (n : Nat) (flags : Int) (e : Option Error) (w : World) :
    Option (Res (Int × List Nat)) :=
  Socket.ReceiveLoop s n flags e p w.script w.trace

/-- Modelled from the spec: the loop of `SocketSelector::Select`
(`SocketSelector.hpp` is absent) over the outcomes of the platform wait: an
interrupted wait is silently retried, any other failure is an error (-1), and
otherwise the number of ready descriptors is returned (0: the timeout elapsed). -/
def SocketSelector.SelectLoop (fd events timeout : Int) (e : Option Error) :
    List SysRes → List Event → Option (Res Int)
  | [], _ => none
  | r :: rest, tr =>
    let w1 := World.step (Call.select fd events timeout) r tr rest
    if r.ret < 0 then
      if !SocketError.Interrupted w1 then
        some { val := -1, err := SET_SOCKET_ERROR e "SocketSelector::Select" w1, world := w1 }
      else SocketSelector.SelectLoop fd events timeout e rest w1.trace
    else some { val := r.ret, err := e, world := w1 }

/-- Modelled from the spec: `SocketSelector(fd, events).Select(sockets, timeout, e)`
(`SocketSelector.hpp` is absent): the readiness multiplexer on one descriptor. -/
def SocketSelector.Select (fd events timeout : Int) (e : Option Error) (w : World) : Option (Res Int) :=
  SocketSelector.SelectLoop fd events timeout e w.script w.trace

/-- `Socket::WaitForRead(int timeout, Error* e)`. -/
def Socket.WaitForRead (s : Socket) (timeout : Int) (e : Option Error) (w : World) : Option (Res Bool) :=
  match SocketSelector.Select s._fd SOCKET_EVENT_READ timeout e w with
  | none => none
  | some r => if r.val ≤ 0 then some { val := false, err := r.err, world := r.world }
              else some { val := true, err := r.err, world := r.world }

/-- `Socket::WaitForWrite(int timeout, Error* e)`. -/
def Socket.WaitForWrite (s : Socket) (timeout : Int) (e : Option Error) (w : World) : Option (Res Bool) :=
  match SocketSelector.Select s._fd SOCKET_EVENT_WRITE timeout e w with
  | none => none
  | some r => if r.val ≤ 0 then some { val := false, err := r.err, world := r.world }
              else some { val := true, err := r.err, world := r.world }

/-- `Socket::GetOption(int level, int name, void* val, socklen_t* len, Error* e)`:
the value is the success flag and the bytes stored at `val`. -/
def Socket.GetOption (s : Socket) (level name : Int) (e : Option Error) (w : World) :
    Option (Res (Bool × List Nat)) :=
  match syscall (Call.getsockopt s._fd level name) w with
  | none => none
  | some (r, w1) =>
    if r.ret < 0 then
      some { val := (false, r.data), err := SET_SOCKET_ERROR e ("Socket::GetOption [" ++ toString s._fd ++ "]") w1,
             world := w1 }
    else some { val := (true, r.data), err := e, world := w1 }

/-! ## Byte buffer -/

/-- Modelled from the spec: the byte buffer `StreamBuffer` (`StreamBuffer.hpp`
is absent): a storage of bytes with a read cursor and a write cursor; the
bytes between the cursors are readable (unconsumed), the bytes from the write
cursor to the end of the storage are writable (spare capacity), and the
storage may grow up to a limit. -/
structure StreamBuffer where
  _bytes : List Nat
  _read_index : Nat
  _write_index : Nat
  _limit : Nat
  deriving DecidableEq, Repr

/-- The cursors of a buffer are ordered and inside its storage. -/
def StreamBuffer.WF (b : StreamBuffer) : Prop :=
  b._read_index ≤ b._write_index ∧ b._write_index ≤ b._bytes.length

instance (b : StreamBuffer) : Decidable b.WF := by
  unfold StreamBuffer.WF
  infer_instance

/-- Modelled from the spec: `StreamBuffer::Readable()`, the number of readable bytes. -/
def StreamBuffer.Readable (b : StreamBuffer) : Nat := b._write_index - b._read_index

/-- Modelled from the spec: `StreamBuffer::Read()`, the memory at the read cursor. -/
def StreamBuffer.Read (b : StreamBuffer) : List Nat := b._bytes.drop b._read_index

/-- The readable content: the `Readable()` bytes at the read cursor. -/
def StreamBuffer.content (b : StreamBuffer) : List Nat := b.Read.take b.Readable

/-- Modelled from the spec: `StreamBuffer::Read(size_t n)`, advance the read
cursor by `n`; refused when fewer than `n` bytes are readable. -/
def StreamBuffer.ReadN (b : StreamBuffer) (n : Nat) : Bool × StreamBuffer :=
  if b.Readable < n then (false, b)
  else (true, { b with _read_index := b._read_index + n })

/-- Modelled from the spec: `StreamBuffer::Writable()`, the number of writable bytes. -/
def StreamBuffer.Writable (b : StreamBuffer) : Nat := b._bytes.length - b._write_index

/-- Modelled from the spec: `StreamBuffer::Write()`, the memory at the write cursor. -/
def StreamBuffer.Write (b : StreamBuffer) : List Nat := b._bytes.drop b._write_index

/-- Modelled from the spec: `StreamBuffer::Writable(size_t n)`, ensure at least
`n` bytes of writable capacity, growing the storage if necessary; refused when
the growth would pass the limit. -/
def StreamBuffer.WritableN (b : StreamBuffer) (n : Nat) : Bool × StreamBuffer :=
  if n ≤ b.Writable then (true, b)
  else if b._write_index + n ≤ b._limit then
    (true, { b with _bytes := b._bytes ++ List.replicate (b._write_index + n - b._bytes.length) 0 })
  else (false, b)

/-- Modelled from the spec: `StreamBuffer::Write(size_t n)`, advance the write
cursor by `n`; refused when fewer than `n` bytes are writable. -/
def StreamBuffer.WriteN (b : StreamBuffer) (n : Nat) : Bool × StreamBuffer :=
  if b.Writable < n then (false, b)
  else (true, { b with _write_index := b._write_index + n })

/-- The buffer after an I/O call left `mem` as the memory at the write cursor. -/
def StreamBuffer.stored (b : StreamBuffer) (mem : List Nat) : StreamBuffer :=
  { b with _bytes := b._bytes.take b._write_index ++ mem }

/-! ## TCP socket (`TcpSocket.cpp`) -/

/-- The class `TcpSocket`: a `Socket` with the local address, the connected
address and the two reuse options. -/
structure TcpSocket extends Socket where
  _address : SocketAddress
  _connected_address : SocketAddress
  _reuse_addr : Bool
  _reuse_port : Bool
  deriving DecidableEq, Repr

/-- `TcpSocket::DoConnect(const SocketAddress& addr, bool block, Error* e)`:
create the socket when none is open, bind a fixed non-wildcard local address,
switch the I/O mode, connect.  The value is the result and the socket after. -/
def TcpSocket.DoConnect (s : TcpSocket) (addr : SocketAddress) (block : Bool) (e : Option Error)
    (w : World) : Option (Res (Bool × TcpSocket)) :=
  match (if !s.toSocket.Valid then
           Socket.Create s.toSocket (if s._address.Empty then addr.Family else s._address.Family)
             SOCK_STREAM IPPROTO_TCP e w
         else some { val := (true, s.toSocket), err := e, world := w }) with
  | none => none
  | some r1 =>
    let s1 : TcpSocket := { s with toSocket := r1.val.2 }
    if !r1.val.1 then some { val := (false, s1), err := r1.err, world := r1.world }
    else
      match (if !s._address.Empty && !s._address.Any then Socket.Bind s1.toSocket s._address r1.err r1.world
             else some { val := true, err := r1.err, world := r1.world }) with
      | none => none
      | some r2 =>
        if !r2.val then some { val := (false, s1), err := r2.err, world := r2.world }
        else
          match Socket.Block s1.toSocket block r2.err r2.world with
          | none => none
          | some r3 =>
            if !r3.val then some { val := (false, s1), err := r3.err, world := r3.world }
            else
              match Socket.Connect s1.toSocket addr r3.err r3.world with
              | none => none
              | some r4 => some { val := (r4.val, s1), err := r4.err, world := r4.world }

/-- `TcpSocket::Connect(const SocketAddress& addr, Error* e)`: connect in block mode. -/
def TcpSocket.Connect (s : TcpSocket) (addr : SocketAddress) (e : Option Error) (w : World) :
    Option (Res (Bool × TcpSocket)) :=
  TcpSocket.DoConnect s addr true e w

/-- `TcpSocket::Connect(const SocketAddress& addr, int timeout, Error* e)`. -/
def TcpSocket.ConnectTimeout (s : TcpSocket) (addr : SocketAddress) (timeout : Int) (e : Option Error)
    (w : World) : Option (Res (Bool × TcpSocket)) :=
  if timeout < 0 then TcpSocket.Connect s addr e w
  else
    match TcpSocket.DoConnect s addr false e w with
    | none => none
    | some r =>
      if !r.val.1 then
        if timeout > 0 then
          if SocketError.InProgress r.world then
            match Socket.WaitForWrite r.val.2.toSocket timeout r.err r.world with
            | none => none
            | some rw =>
              if rw.val then some { val := (true, r.val.2), err := RESET_ERROR rw.err, world := rw.world }
              else some { val := (false, r.val.2), err := rw.err, world := rw.world }
          else some { val := (false, r.val.2), err := r.err, world := r.world }
        else some { val := (false, r.val.2), err := r.err, world := r.world }
      else some { val := (true, r.val.2), err := r.err, world := r.world }

/-- `TcpSocket::Send(const void* p, size_t n, Error* e)`: send in block mode. -/
def TcpSocket.Send (s : TcpSocket) (p : List Nat) (n : Nat) (e : Option Error) (w : World) :
    Option (Res Int) :=
  match Socket.Block s.toSocket true e w with
  | none => none
  | some rb =>
    if !rb.val then some { val := -1, err := rb.err, world := rb.world }
    else Socket.Send s.toSocket p n 0 rb.err rb.world

/-- `TcpSocket::Send(StreamBuffer& buf, Error* e)`.  The value is the return
value and the buffer after the call. -/
def TcpSocket.SendBuffer (s : TcpSocket) (buf : StreamBuffer) (e : Option Error) (w : World) :
    Option (Res (Int × StreamBuffer)) :=
  match TcpSocket.Send s buf.Read buf.Readable e w with
  | none => none
  | some r =>
    if r.val > 0 then some { val := (r.val, (buf.ReadN r.val.toNat).2), err := r.err, world := r.world }
    else some { val := (r.val, buf), err := r.err, world := r.world }

/-- `TcpSocket::Send(const void* p, size_t n, int timeout, Error* e)`. -/
def TcpSocket.SendTimeout (s : TcpSocket) (p : List Nat) (n : Nat) (timeout : Int) (e : Option Error)
    (w : World) : Option (Res Int) :=
  if timeout < 0 then TcpSocket.Send s p n e w
  else
    match Socket.Block s.toSocket false e w with
    | none => none
    | some rb =>
      if !rb.val then some { val := -1, err := rb.err, world := rb.world }
      else if timeout > 0 then
        match Socket.WaitForWrite s.toSocket timeout rb.err rb.world with
        | none => none
        | some rw =>
          if !rw.val then some { val := -1, err := rw.err, world := rw.world }
          else Socket.Send s.toSocket p n 0 rw.err rw.world
      else Socket.Send s.toSocket p n 0 rb.err rb.world

/-- `TcpSocket::Send(StreamBuffer& buf, int timeout, Error* e)`. -/
def TcpSocket.SendBufferTimeout (s : TcpSocket) (buf : StreamBuffer) (timeout : Int)
    (e : Option Error) (w : World) : Option (Res (Int × StreamBuffer)) :=
  match TcpSocket.SendTimeout s buf.Read buf.Readable timeout e w with
  | none => none
  | some r =>
    if r.val > 0 then some { val := (r.val, (buf.ReadN r.val.toNat).2), err := r.err, world := r.world }
    else some { val := (r.val, buf), err := r.err, world := r.world }

/-- `TcpSocket::Receive(void* p, size_t n, Error* e)`: receive in block mode.
The value is the return value and the memory at `p` afterwards. -/
def TcpSocket.Receive (s : TcpSocket) (p : List Nat) (n : Nat) (e : Option Error) (w : World) :
    Option (Res (Int × List Nat)) :=
  match Socket.Block s.toSocket true e w with
  | none => none
  | some rb =>
    if !rb.val then some { val := (-1, p), err := rb.err, world := rb.world }
    else Socket.Receive s.toSocket p n 0 rb.err rb.world

/-- `TcpSocket::Receive(StreamBuffer* buf, Error* e)`. -/
def TcpSocket.ReceiveBuffer (s : TcpSocket) (buf : StreamBuffer) (e : Option Error) (w : World) :
    Option (Res (Int × StreamBuffer)) :=
  let rs := buf.WritableN 2048
  if !rs.1 then
    some { val := (-1, rs.2),
           err := SET_RUNTIME_ERROR e "TcpSocket::Receive : Prepare buffer failed." ErrorCode.NOBUFS,
           world := w }
  else
    match TcpSocket.Receive s rs.2.Write rs.2.Writable e w with
    | none => none
    | some r =>
      let b1 := rs.2.stored r.val.2
      if r.val.1 > 0 then some { val := (r.val.1, (b1.WriteN r.val.1.toNat).2), err := r.err, world := r.world }
      else some { val := (r.val.1, b1), err := r.err, world := r.world }

/-- `TcpSocket::Receive(void* p, size_t n, int timeout, Error* e)`. -/
def TcpSocket.ReceiveTimeout (s : TcpSocket) (p : List Nat) (n : Nat) (timeout : Int)
    (e : Option Error) (w : World) : Option (Res (Int × List Nat)) :=
  if timeout < 0 then TcpSocket.Receive s p n e w
  else
    match Socket.Block s.toSocket false e w with
    | none => none
    | some rb =>
      if !rb.val then some { val := (-1, p), err := rb.err, world := rb.world }
      else if timeout > 0 then
        match Socket.WaitForRead s.toSocket timeout rb.err rb.world with
        | none => none
        | some rw =>
          if !rw.val then some { val := (-1, p), err := rw.err, world := rw.world }
          else Socket.Receive s.toSocket p n 0 rw.err rw.world
      else Socket.Receive s.toSocket p n 0 rb.err rb.world

/-- `TcpSocket::Receive(StreamBuffer* buf, int timeout, Error* e)`. -/
def TcpSocket.ReceiveBufferTimeout (s : TcpSocket) (buf : StreamBuffer) (timeout : Int)
    (e : Option Error) (w : World) : Option (Res (Int × StreamBuffer)) :=
  let rs := buf.WritableN 2048
  if !rs.1 then
    some { val := (-1, rs.2),
           err := SET_RUNTIME_ERROR e "TcpSocket::Receive : Prepare buffer failed." ErrorCode.NOBUFS,
           world := w }
  else
    match TcpSocket.ReceiveTimeout s rs.2.Write rs.2.Writable timeout e w with
    | none => none
    | some r =>
      let b1 := rs.2.stored r.val.2
      if r.val.1 > 0 then some { val := (r.val.1, (b1.WriteN r.val.1.toNat).2), err := r.err, world := r.world }
      else some { val := (r.val.1, b1), err := r.err, world := r.world }

/-! ## Reading a trace -/

/-- The system calls issued between the world `w` and a later world `w'`. -/
def issued (w w' : World) : List Event := w'.trace.drop w.trace.length

/-- The call is a readiness wait. -/
def Call.isSelect : Call → Bool
  | Call.select _ _ _ => true
  | _ => false

/-- The call is a data transfer (`send` or `recv`). -/
def Call.isTransfer : Call → Bool
  | Call.send _ _ _ => true
  | Call.recv _ _ _ => true
  | _ => false

/-- The call failed with "interrupted by signal". -/
def Event.interrupted (ev : Event) : Bool := ev.ret == SOCKET_ERROR && ev.errno == EINTR

/-- The I/O calls of a trace that ran to an outcome other than "interrupted". -/
def completedTransfers (d : List Event) : List Event :=
  d.filter (fun ev => ev.call.isTransfer && !ev.interrupted)

/-- The outcome "interrupted by signal" of a system call. -/
def interruptedRes : SysRes := { ret := SOCKET_ERROR, errno := EINTR, data := [] }

/-- What the caller of a wrapper observes: the return value, the error output,
and the state the operating system is left in (pending outcomes and `errno`);
the trace of the system calls issued is not part of it. -/
def Res.observed {α : Type} (r : Res α) : α × Option Error × List SysRes × Int :=
  (r.val, r.err, r.world.script, r.world.errno)

/-! ## Sample values -/

/-- A sample open TCP socket on descriptor 3 without a fixed local address. -/
def sampleSocket : TcpSocket :=
  { _fd := 3, _address := ⟨0, [], 0⟩, _connected_address := ⟨0, [], 0⟩,
    _reuse_addr := false, _reuse_port := false }

/-- A sample peer address. -/
def sampleAddress : SocketAddress := { family := 2, host := [127, 0, 0, 1], port := 9000 }

/-- A sample buffer: seven bytes of storage, the four bytes `2, 3, 4, 5` readable. -/
def sampleBuffer : StreamBuffer :=
  { _bytes := [1, 2, 3, 4, 5, 0, 0], _read_index := 1, _write_index := 5, _limit := 4096 }

/-- The sample buffer after it was asked for 2048 writable bytes. -/
def sampleGrown : StreamBuffer :=
  { _bytes := [1, 2, 3, 4, 5, 0, 0] ++ List.replicate 2046 0, _read_index := 1, _write_index := 5,
    _limit := 4096 }

/-- A system call outcome: success with return value 0. -/
def okRes : SysRes := { ret := 0, errno := 0, data := [] }

/-- The outcome of the blocking pointer-level receive of the three bytes
`7, 8, 9` into the writable region of the grown sample buffer. -/
def sampleReceived : Res (Int × List Nat) :=
  { val := (3, storeAt sampleGrown.Write (List.take sampleGrown.Writable [7, 8, 9])),
    err := some Error.new,
    world := { script := [], errno := 0,
               trace := [Event.of (Call.getfl 3) okRes,
                         Event.of (Call.setfl 3 (Int.land 0 (Int.lnot O_NONBLOCK))) okRes,
                         Event.of (Call.recv 3 sampleGrown.Writable 0) ⟨3, 0, [7, 8, 9]⟩] } }

/-- The outcome of the blocking pointer-level receive on the grown sample
buffer when the peer has shut down: `recv` returns 0. -/
def sampleShutdown : Res (Int × List Nat) :=
  { val := (0, storeAt sampleGrown.Write (List.take sampleGrown.Writable [])),
    err := some Error.new,
    world := { script := [], errno := 0,
               trace := [Event.of (Call.getfl 3) okRes,
                         Event.of (Call.setfl 3 (Int.land 0 (Int.lnot O_NONBLOCK))) okRes,
                         Event.of (Call.recv 3 sampleGrown.Writable 0) okRes] } }

/-- The shape of the system calls `d` issued by one timeout-bounded transfer
on the descriptor `fd` (`events`: the readiness waited for, `io`: the transfer
call) that returned `val`: the switch to non-blocking mode comes first; when it
fails nothing else is issued and the value is -1; otherwise readiness waits
`sel` precede the transfer calls `tx`, there is a wait exactly when the timeout
is positive, a wait that does not report ready leaves no transfer and the value
-1, and in every other case exactly one transfer call runs to an outcome other
than "interrupted". -/
def SingleAttempt (fd timeout events : Int) (io : Call) (d : List Event) (val : Int) : Prop :=
  ∃ (g f : SysRes) (sel tx : List Event),
    d = [Event.of (Call.getfl fd) g, Event.of (Call.setfl fd (Int.lor g.ret O_NONBLOCK)) f] ++ sel ++ tx ∧
    Int.testBit (Int.lor g.ret O_NONBLOCK) 11 = true ∧
    (∀ ev ∈ sel, ev.call = Call.select fd events timeout) ∧
    (∀ ev ∈ tx, ev.call = io) ∧
    (completedTransfers tx).length ≤ 1 ∧
    (f.ret = SOCKET_ERROR → sel = [] ∧ tx = [] ∧ val = -1) ∧
    (f.ret ≠ SOCKET_ERROR → 0 < timeout →
      ∃ last, sel.getLast? = some last ∧
        (last.ret ≤ 0 → tx = [] ∧ val = -1) ∧
        (0 < last.ret → (completedTransfers tx).length = 1)) ∧
    (f.ret ≠ SOCKET_ERROR → timeout = 0 → sel = [] ∧ (completedTransfers tx).length = 1)

/-- A TCP socket that was never opened. -/
def unopenedSocket : TcpSocket :=
  { _fd := INVALID_SOCKET, _address := ⟨0, [], 0⟩, _connected_address := ⟨0, [], 0⟩,
    _reuse_addr := false, _reuse_port := false }

/-- A system call outcome: failure on a descriptor that is not open. -/
def badfRes : SysRes := { ret := -1, errno := EBADF, data := [] }

/-- The call is a `connect`. -/
def Call.isConnect : Call → Bool
  | Call.connect _ _ => true
  | _ => false

/-- Between `w` and `w'` only system calls satisfying `P` were issued. -/
def Issues (P : Event → Prop) (w w' : World) : Prop :=
  ∃ d, w'.trace = w.trace ++ d ∧ ∀ ev ∈ d, P ev

/-- A system call of the steps of `DoConnect` that come before the connect
call: it is neither a readiness wait nor a connect, and a mode switch asks for
blocking mode exactly when `block` is set. -/
def Prelim (block : Bool) (ev : Event) : Prop :=
  ev.call.isSelect = false ∧ ev.call.isConnect = false ∧
    ∀ fd flags, ev.call = Call.setfl fd flags → Int.testBit flags 11 = !block

/-- A system call outcome: `connect` reports "in progress". -/
def inProgressRes : SysRes := { ret := -1, errno := EINPROGRESS, data := [] }

/-- A system call outcome: one descriptor is ready. -/
def readyRes : SysRes := { ret := 1, errno := 0, data := [] }

/-- The outcome a pending-error query (`getsockopt` with `SO_ERROR`) gets on a
socket whose connect was refused: success, delivering `ECONNREFUSED` (111). -/
def refusedRes : SysRes := { ret := 0, errno := 0, data := [111] }

/-! ## Socket handle: ownership, shutdown and listen (`Socket.cpp`) -/

/-- The platform maximum of the listen backlog (`SOMAXCONN`). -/
def SOMAXCONN : Int := 128

/-- Direction of `shutdown`: both (`SHUT_RDWR`). -/
def SHUT_RDWR : Int := 2

/-- `Socket::~Socket()`: an open descriptor is closed, errors are ignored (the
error output is null).  The value is the world after. -/
def Socket.Destroy (s : Socket) (w : World) : Option World :=
  if s._fd ≠ INVALID_SOCKET then
    match Socket.Close s none w with
    | none => none
    | some r => some r.world
  else some w

/-- `Socket::Attach(SOCKET s)`: a different open descriptor is closed first
(with a null error output, its result ignored).  The value is the result and
the handle after, with the world after. -/
def Socket.Attach (s : Socket) (fd : Int) (w : World) : Option ((Bool × Socket) × World) :=
  if s._fd ≠ INVALID_SOCKET ∧ s._fd ≠ fd then
    match Socket.Close s none w with
    | none => none
    | some r => some ((fd != INVALID_SOCKET, { _fd := fd }), r.world)
  else some ((fd != INVALID_SOCKET, { _fd := fd }), w)

/-- `Socket::Detach()`: the descriptor is handed to the caller and the handle
forgets it; the function issues no system call, the world passes through. -/
def Socket.Detach (s : Socket) (w : World) : (Int × Socket) × World :=
  ((s._fd, { _fd := INVALID_SOCKET }), w)

/-- `Socket::Shutdown(int how, Error* e)`. -/
def Socket.Shutdown (s : Socket) (how : Int) (e : Option Error) (w : World) : Option (Res Bool) :=
  if s._fd = INVALID_SOCKET then some { val := true, err := e, world := w }
  else
    match syscall (Call.shutdown s._fd how) w with
    | none => none
    | some (r, w1) =>
      if r.ret = SOCKET_ERROR then
        some { val := false, err := SET_SOCKET_ERROR e ("Socket::Shutdown [" ++ toString s._fd ++ "]") w1,
               world := w1 }
      else some { val := true, err := e, world := w1 }

/-- `Socket::Listen(int backlog, Error* e)`. -/
def Socket.Listen (s : Socket) (backlog : Int) (e : Option Error) (w : World) : Option (Res Bool) :=
  let backlog1 : Int := if backlog < 0 then SOMAXCONN else backlog
  match syscall (Call.listen s._fd backlog1) w with
  | none => none
  | some (r, w1) =>
    if r.ret < 0 then
      some { val := false, err := SET_SOCKET_ERROR e ("Socket::Listen [" ++ toString s._fd ++ "]") w1,
             world := w1 }
    else some { val := true, err := e, world := w1 }

/-- `TcpSocket::Close(Error* e)`. -/
def TcpSocket.Close (s : TcpSocket) (e : Option Error) (w : World) : Option (Res (Bool × TcpSocket)) :=
  match Socket.Close s.toSocket e w with
  | none => none
  | some r => some { val := (r.val.1, { s with toSocket := r.val.2 }), err := r.err, world := r.world }

/-! ## Error value: the setters (`Error.cpp`) -/

/-- `Error::Set(const std::string&, int)`: message and code are stored; an
error without a class gets the base class `ErrorClass`. -/
def Error.SetMsgCode (e : Error) (msg : String) (code : Int) : Error :=
  { _class := if e._class = none then some ErrorClassId.ErrorClass else e._class,
    _message := msg, _code := code }

/-- `Error::SetClass(const ErrorClass&)`. -/
def Error.SetClass (e : Error) (cls : ErrorClassId) : Error := { e with _class := some cls }

/-- `Error::SetMessage(const std::string&)`. -/
def Error.SetMessage (e : Error) (msg : String) : Error :=
  { e with _message := msg,
           _class := if e._class = none then some ErrorClassId.ErrorClass else e._class }

/-- `Error::SetCode(int)`. -/
def Error.SetCode (e : Error) (code : Int) : Error :=
  { e with _code := code,
           _class := if e._class = none then some ErrorClassId.ErrorClass else e._class }

/-- One call of a mutating member function of `Error`, with its arguments. -/
inductive ErrorCall where
  | Reset
  | Set (cls : ErrorClassId) (msg : String) (code : Int)
  | SetMsgCode (msg : String) (code : Int)
  | SetClass (cls : ErrorClassId)
  | SetMessage (msg : String)
  | SetCode (code : Int)
  deriving DecidableEq, Repr

/-- The error after one call. -/
def Error.call (e : Error) : ErrorCall → Error
  | ErrorCall.Reset => e.Reset
  | ErrorCall.Set cls msg code => e.Set cls msg code
  | ErrorCall.SetMsgCode msg code => e.SetMsgCode msg code
  | ErrorCall.SetClass cls => e.SetClass cls
  | ErrorCall.SetMessage msg => e.SetMessage msg
  | ErrorCall.SetCode code => e.SetCode code

/-- The error after a sequence of calls, in order. -/
def Error.calls (e : Error) (cs : List ErrorCall) : Error := cs.foldl Error.call e

/-- The call is one of the setters (anything but `Reset`). -/
def ErrorCall.isSetter : ErrorCall → Bool
  | ErrorCall.Reset => false
  | _ => true

/-- The call passes the class `NoError` as its class argument. -/
def ErrorCall.passesNoError : ErrorCall → Bool
  | ErrorCall.Set cls _ _ => cls == ErrorClassId.NoError
  | ErrorCall.SetClass cls => cls == ErrorClassId.NoError
  | _ => false

/-! ## Socket handle: type and addresses (`Socket.cpp`) -/

/-- Size of `struct sockaddr_storage`. -/
def SOCKADDR_STORAGE_SIZE : Nat := 128
/-- Socket option `SO_TYPE`: the type of the socket. -/
def SO_TYPE : Int := 3
/-- errno: the socket is not connected. -/
def ENOTCONN : Int := 107
/-- errno: protocol wrong type for socket. -/
def EPROTOTYPE : Int := 91
/-- errno: invalid argument. -/
def EINVAL : Int := 22

/-- Modelled from the spec: `ErrorCode::BADF` (`ErrorCode.hpp` is absent). -/
def ErrorCode.BADF : Int := EBADF
/-- Modelled from the spec: `ErrorCode::PROTOTYPE` (`ErrorCode.hpp` is absent). -/
def ErrorCode.PROTOTYPE : Int := EPROTOTYPE
/-- Modelled from the spec: `ErrorCode::INVAL` (`ErrorCode.hpp` is absent). -/
def ErrorCode.INVAL : Int := EINVAL

/-- The `int` stored at the start of a memory region (four bytes, little
endian, two's complement); bytes that are missing count as zero. -/
def intAt (mem : List Nat) : Int :=
  let u : Nat := mem.getD 0 0 + 256 * mem.getD 1 0 + 65536 * mem.getD 2 0 + 16777216 * mem.getD 3 0
  if u < 2147483648 then (u : Int) else (u : Int) - 4294967296

/-- Modelled from the spec: the conversion of a `sockaddr_storage` to the
socket address value of `netb` (`SocketAddress.hpp` of `netb` is absent): the
family is the field `ss_family` (the first two bytes, little endian); an IPv4
address (family 2) has its port in bytes 2 and 3 (network order) and its host
in bytes 4 to 7, an IPv6 address (family 10) has its host in bytes 8 to 23;
any other storage is the unset address of its family. -/
def SocketAddress.ofStorage (b : List Nat) : SocketAddress :=
  let fam : Nat := b.getD 0 0 + 256 * b.getD 1 0
  if fam = 2 then { family := 2, host := (b.drop 4).take 4, port := 256 * b.getD 2 0 + b.getD 3 0 }
  else if fam = 10 then { family := 10, host := (b.drop 8).take 16, port := 256 * b.getD 2 0 + b.getD 3 0 }
  else { family := fam, host := [], port := 0 }

/-- `Socket::Type(Error* e)`: the socket option `SO_TYPE`, -1 when the query fails. -/
def Socket.Type (s : Socket) (e : Option Error) (w : World) : Option (Res Int) :=
  match Socket.GetOption s SOL_SOCKET SO_TYPE e w with
  | none => none
  | some r =>
    if !r.val.1 then some { val := -1, err := r.err, world := r.world }
    else some { val := intAt r.val.2, err := r.err, world := r.world }

/-- `Socket::Address(Error* e)`: the local address reported by `getsockname`
into a zeroed storage; a failure sets the error and the storage is returned
as the call left it. -/
def Socket.Address (s : Socket) (e : Option Error) (w : World) : Option (Res SocketAddress) :=
  match syscall (Call.getsockname s._fd) w with
  | none => none
  | some (r, w1) =>
    let addr := storeAt (List.replicate SOCKADDR_STORAGE_SIZE 0) (r.data.take SOCKADDR_STORAGE_SIZE)
    if r.ret = SOCKET_ERROR then
      some { val := SocketAddress.ofStorage addr,
             err := SET_SOCKET_ERROR e ("Socket::Address [" ++ toString s._fd ++ "]") w1, world := w1 }
    else some { val := SocketAddress.ofStorage addr, err := e, world := w1 }

/-- `Socket::Family(Error* e)`: the family of the local address. -/
def Socket.Family (s : Socket) (e : Option Error) (w : World) : Option (Res Int) :=
  match Socket.Address s e w with
  | none => none
  | some r => some { val := r.val.Family, err := r.err, world := r.world }

/-- `Socket::ConnectedAddress(Error* e)`: the peer address reported by
`getpeername` into a zeroed storage; a failure sets the error and the storage
is returned as the call left it. -/
def Socket.ConnectedAddress (s : Socket) (e : Option Error) (w : World) : Option (Res SocketAddress) :=
  match syscall (Call.getpeername s._fd) w with
  | none => none
  | some (r, w1) =>
    let addr := storeAt (List.replicate SOCKADDR_STORAGE_SIZE 0) (r.data.take SOCKADDR_STORAGE_SIZE)
    if r.ret = SOCKET_ERROR then
      some { val := SocketAddress.ofStorage addr,
             err := SET_SOCKET_ERROR e ("Socket::ConnectedAddress [" ++ toString s._fd ++ "]") w1,
             world := w1 }
    else some { val := SocketAddress.ofStorage addr, err := e, world := w1 }

/-! ## TCP socket: the connected status (`TcpSocket.cpp`) -/

/-- `TcpSocket::Connected(Error* e)`: the handle must be open, of stream type
(`Socket::Type()` is called without an error output) and, when a connected
address was given, connected to that address; an empty peer address ends the
check with false only when the error output is not null. -/
def TcpSocket.Connected (s : TcpSocket) (e : Option Error) (w : World) : Option (Res Bool) :=
  if !s.toSocket.Valid then
    some { val := false,
           err := SET_LOGIC_ERROR e "TcpSocket::Connected : Socket is not opened yet." ErrorCode.BADF,
           world := w }
  else
    match Socket.Type s.toSocket none w with
    | none => none
    | some rt =>
      if rt.val != SOCK_STREAM then
        some { val := false,
               err := SET_LOGIC_ERROR e "TcpSocket::Connected : Not TCP socket." ErrorCode.PROTOTYPE,
               world := rt.world }
      else
        match Socket.ConnectedAddress s.toSocket e rt.world with
        | none => none
        | some ra =>
          if ra.val.Empty && e.isSome then some { val := false, err := ra.err, world := ra.world }
          else if !s._connected_address.Empty && s._connected_address != ra.val then
            some { val := false,
                   err := SET_LOGIC_ERROR ra.err "TcpSocket::Connected : Connected address is incorrect."
                            ErrorCode.INVAL,
                   world := ra.world }
          else some { val := true, err := ra.err, world := ra.world }

/-- `TcpSocket::Connected(SOCKET s, const SocketAddress* addr, Error* e)`:
attach the descriptor, store the connected address when one is given, then
check.  The value is the result and the socket after. -/
def TcpSocket.ConnectedTo (s : TcpSocket) (fd : Int) (addr : Option SocketAddress) (e : Option Error)
    (w : World) : Option (Res (Bool × TcpSocket)) :=
  match Socket.Attach s.toSocket fd w with
  | none => none
  | some (a, w1) =>
    let s1 : TcpSocket :=
      { s with toSocket := a.2,
               _connected_address := match addr with
                                     | some x => x
                                     | none => s._connected_address }
    match TcpSocket.Connected s1 e w1 with
    | none => none
    | some r => some { val := (r.val, s1), err := r.err, world := r.world }

/-- A system call outcome: the option query delivers the `int` 1 (`SOCK_STREAM`). -/
def streamTypeRes : SysRes := { ret := 0, errno := 0, data := [1, 0, 0, 0] }

/-- A system call outcome: `getpeername` fails, the socket is not connected. -/
def notConnectedRes : SysRes := { ret := -1, errno := ENOTCONN, data := [] }

end netb

/-! # netbase: the listener (`netbase/TcpListener.cpp`)

The listener of the older `netbase` library, running on the same model of the
operating system.  Its collaborators whose sources are absent (the socket
handle, the connection, the event handler) are modelled from the spec.
-/

namespace netbase

open netb (World SysRes Event Call syscall issued INVALID_SOCKET SOCKET_ERROR SOMAXCONN SHUT_RDWR)

/-! ## Socket address (`netbase/SocketAddress.hpp`) -/

/-- Size of `struct sockaddr_storage`. -/
def STORAGE_SIZE : Nat := 128
/-- Size of `struct sockaddr_in`. -/
def SOCKADDR_IN_SIZE : Nat := 16
/-- Size of `struct sockaddr_in6`. -/
def SOCKADDR_IN6_SIZE : Nat := 28
/-- Address family of an unset address. -/
def AF_UNSPEC : Nat := 0
/-- Address family IPv4. -/
def AF_INET : Nat := 2
/-- Address family IPv6. -/
def AF_INET6 : Nat := 10

/-- The class `SocketAddress`: the bytes of its `sockaddr_storage mAddress`. -/
structure SocketAddress where
  mAddress : List Nat
  deriving DecidableEq, Repr

/-- `SocketAddress::SocketAddress()`: all bytes zero. -/
def SocketAddress.new : SocketAddress := { mAddress := List.replicate STORAGE_SIZE 0 }

/-- `SocketAddress::Family()`: the field `ss_family`, the first two bytes of the
storage (little endian). -/
def SocketAddress.Family (a : SocketAddress) : Nat :=
  a.mAddress.getD 0 0 + 256 * a.mAddress.getD 1 0

/-- `SocketAddress::Empty()`. -/
def SocketAddress.Empty (a : SocketAddress) : Bool := a.Family == AF_UNSPEC

/-- `SocketAddress::SockAddr()`: the storage seen as a `sockaddr`. -/
def SocketAddress.SockAddr (a : SocketAddress) : List Nat := a.mAddress

/-- Modelled from the spec: the length of the address (`SocketAddress::Length`,
defined in the absent `SocketAddress.cpp`): determined by the family, the
whole storage for an empty address. -/
def SocketAddress.SockAddrLen (a : SocketAddress) : Nat :=
  if a.Family = AF_INET then SOCKADDR_IN_SIZE
  else if a.Family = AF_INET6 then SOCKADDR_IN6_SIZE
  else STORAGE_SIZE

/-- The address is the wildcard ("any") address of its family: an IPv4 address
whose `sin_addr` (bytes 4 to 7) is zero, or an IPv6 address whose `sin6_addr`
(bytes 8 to 23) is zero. -/
def SocketAddress.Wildcard (a : SocketAddress) : Bool :=
  (a.Family == AF_INET && ((a.mAddress.drop 4).take 4).all (fun b => b == 0)) ||
  (a.Family == AF_INET6 && ((a.mAddress.drop 8).take 16).all (fun b => b == 0))

/-! ## Collaborators of the listener -/

/-- Modelled from the spec: the socket handle of `netbase` (`Socket.hpp` is
absent): one descriptor. -/
structure Socket where
  mSocket : Int
  deriving DecidableEq, Repr

/-- Modelled from the spec: `Socket::Bind(const sockaddr*, socklen_t)` of
`netbase` (absent): one `bind` call, true when it succeeds. -/
def Socket.Bind (s : Socket) (addr : List Nat) (len : Nat) (w : World) : Option (Bool × World) :=
  match syscall (Call.bindRaw s.mSocket addr len) w with
  | none => none
  | some (r, w1) => some (r.ret != SOCKET_ERROR, w1)

/-- Modelled from the spec: `Socket::Listen(int backlog)` of `netbase`
(absent): one `listen` call, a negative backlog maps to the platform maximum,
true when the call succeeds. -/
def Socket.Listen (s : Socket) (backlog : Int) (w : World) : Option (Bool × World) :=
  match syscall (Call.listen s.mSocket (if backlog < 0 then SOMAXCONN else backlog)) w with
  | none => none
  | some (r, w1) => some (r.ret != SOCKET_ERROR, w1)

/-- Modelled from the spec: `Socket::Block(bool)` of `netbase` (absent): the
mode switch of the handle, as `netb` does it, without an error output. -/
def Socket.Block (s : Socket) (block : Bool) (w : World) : Option (Bool × World) :=
  match netb.Socket.Block { _fd := s.mSocket } block none w with
  | none => none
  | some r => some (r.val, r.world)

/-- Modelled from the spec: `Socket::Shutdown()` of `netbase` (absent): one
`shutdown` call in both directions, true when it succeeds. -/
def Socket.Shutdown (s : Socket) (w : World) : Option (Bool × World) :=
  match syscall (Call.shutdown s.mSocket SHUT_RDWR) w with
  | none => none
  | some (r, w1) => some (r.ret != SOCKET_ERROR, w1)

/-- Modelled from the spec: `Socket::Accept()` of `netbase` (absent): accept
one connection, looping past "interrupted"; the accepted descriptor, or
`INVALID_SOCKET` on any other failure (would-block included). -/
def Socket.Accept (s : Socket) (w : World) : Option (Int × World) :=
  match netb.Socket.Accept { _fd := s.mSocket } none w with
  | none => none
  | some r => some (r.val, r.world)

/-- Modelled from the spec: the states of a Connection. -/
inductive ConnectionState where
  | Connecting
  | Connected
  | Closing
  | Closed
  deriving DecidableEq, Repr

/-- Modelled from the spec: the connection object `TcpConnection`
(`TcpConnection.hpp` is absent): the descriptor it wraps and its state. -/
structure TcpConnection where
  mSocket : Int
  mState : ConnectionState
  deriving DecidableEq, Repr

/-- Modelled from the spec: `new TcpConnection(loop, sock)`, a connection
around the descriptor, not yet marked connected. -/
def TcpConnection.new (sock : Int) : TcpConnection :=
  { mSocket := sock, mState := ConnectionState.Connecting }

/-- Modelled from the spec: `TcpConnection::Connected()`: the connection is
marked Connected (and the connected-callback is invoked with it, which the
caller of this function records). -/
def TcpConnection.Connected (c : TcpConnection) : TcpConnection :=
  { c with mState := ConnectionState.Connected }

/-- Modelled from the spec: `TcpConnection::Close()`: the underlying handle is
closed (one `close` call when it holds a descriptor) and the connection is
Closed whatever the call returned; the value is the success flag. -/
def TcpConnection.Close (c : TcpConnection) (w : World) : Option ((Bool × TcpConnection) × World) :=
  match netb.Socket.Close { _fd := c.mSocket } none w with
  | none => none
  | some r => some ((r.val.1, { mSocket := r.val.2._fd, mState := ConnectionState.Closed }), r.world)

/-- Modelled from the spec: `delete conn`, the destructor of a connection:
a handle that still holds a descriptor is shut down and closed, failures are
tolerated; a closed connection is discarded without any system call. -/
def TcpConnection.Destroy (c : TcpConnection) (w : World) : Option World :=
  if c.mSocket = INVALID_SOCKET then some w
  else
    match syscall (Call.shutdown c.mSocket SHUT_RDWR) w with
    | none => none
    | some (_, w1) => netb.Socket.Destroy { _fd := c.mSocket } w1

/-! ## The listener -/

/-- The class `TcpListener` (`TcpListener.hpp` is absent, the members are those
the source file uses): the bound address, the listening socket, the read
interest of its event handler, the listening flag and the owned connections,
a `std::vector<TcpConnection*>` (the type the destructor iterates it with),
each pointer given as the connection it points to. -/
structure TcpListener where
  mAddress : SocketAddress
  mSocket : Socket
  mReading : Bool
  mListening : Bool
  mConnections : List TcpConnection
  deriving DecidableEq, Repr

/-- The statement `mConnections[sock] = conn` on the `std::vector`: an
unchecked write to the slot whose index is `sock` converted to an unsigned
index.  It is defined only when the index is inside the vector (a negative
`sock` converts to an index beyond every vector); it overwrites that slot and
never changes the number of entries.  `none`: the write is outside the vector
and has no defined behaviour. -/
def vectorStore (v : List TcpConnection) (sock : Int) (conn : TcpConnection) :
    Option (List TcpConnection) :=
  if 0 ≤ sock ∧ sock.toNat < v.length then some (v.set sock.toNat conn) else none

/-- `TcpListener::Listen(int backlog)`.  The value is the result and the
listener after. -/
def TcpListener.Listen (l : TcpListener) (backlog : Int) (w : World) :
    Option ((Bool × TcpListener) × World) :=
  match (if !l.mAddress.Empty then Socket.Bind l.mSocket l.mAddress.SockAddr l.mAddress.SockAddrLen w
         else some (true, w)) with
  | none => none
  | some (bound, w1) =>
    if !bound then some ((false, l), w1)
    else
      match Socket.Listen l.mSocket backlog w1 with
      | none => none
      | some (listening, w2) =>
        if !listening then some ((false, l), w2)
        else
          match Socket.Block l.mSocket false w2 with
          | none => none
          | some (_, w3) => some ((true, { l with mReading := true, mListening := true }), w3)

/-- `TcpListener::OnRead(SOCKET s)`: one accept call (looping past
"interrupted" only); a connection is constructed around its result, which is
not tested; the pointer is written to the slot `sock` of the owned vector;
then the connection is handed the connected-callback and `Connected()` is
called on it.  The value is the connection as constructed, the world after
the accept and, when the write is inside the vector, the listener after it
together with the connections `Connected()` was called on; for a write
outside the vector nothing after it is defined (`none`). -/
def TcpListener.OnRead (l : TcpListener) (w : World) :
    Option (TcpConnection × World × Option (TcpListener × List TcpConnection)) :=
  match Socket.Accept l.mSocket w with
  | none => none
  | some (sock, w1) =>
    let conn := TcpConnection.new sock
    some (conn, w1,
      (vectorStore l.mConnections sock conn.Connected).map
        (fun v => ({ l with mConnections := v }, [conn.Connected])))

/-- The loop of `TcpListener::~TcpListener` over the owned connections: each
is closed and deleted, whatever its Close returns.  The value is the list of
the results of the Close calls, in order. -/
def TcpListener.closeAll : List TcpConnection → World → Option (List Bool × World)
  | [], w => some ([], w)
  | c :: rest, w =>
    match TcpConnection.Close c w with
    | none => none
    | some ((ok, c1), w1) =>
      match TcpConnection.Destroy c1 w1 with
      | none => none
      | some w2 =>
        match TcpListener.closeAll rest w2 with
        | none => none
        | some (oks, w3) => some (ok :: oks, w3)

/-- `TcpListener::~TcpListener()`, the body of the destructor: shut down the
listening socket, then close and delete every owned connection. -/
def TcpListener.Destroy (l : TcpListener) (w : World) : Option (List Bool × World) :=
  match Socket.Shutdown l.mSocket w with
  | none => none
  | some (_, w1) => TcpListener.closeAll l.mConnections w1

/-! ## Sample values of the listener -/

/-- A sample listener on descriptor 3 without an address and without connections. -/
def sampleListener : TcpListener :=
  { mAddress := SocketAddress.new, mSocket := { mSocket := 3 }, mReading := false,
    mListening := false, mConnections := [] }

/-- The IPv4 wildcard address with port 8080: family `AF_INET`, port bytes
`0x1F 0x90`, address `0.0.0.0`. -/
def wildcardAddress : SocketAddress :=
  { mAddress := [2, 0, 31, 144, 0, 0, 0, 0] ++ List.replicate 120 0 }

/-- A system call outcome: `accept` returns the descriptor `fd`. -/
def acceptedRes (fd : Int) : SysRes := { ret := fd, errno := 0, data := [] }

/-- A system call outcome: `accept` reports "would block". -/
def wouldBlockRes : SysRes := { ret := -1, errno := netb.EWOULDBLOCK, data := [] }

/-- A system call outcome: `accept` fails, the process is out of descriptors (`EMFILE`). -/
def emfileRes : SysRes := { ret := -1, errno := 24, data := [] }

/-- The call is a `bind`. -/
def isBind : Call → Bool
  | Call.bind _ _ => true
  | Call.bindRaw _ _ _ => true
  | _ => false

/-- The connection still holds a descriptor. -/
def TcpConnection.isOpen (c : TcpConnection) : Bool := c.mSocket != INVALID_SOCKET

/-- A sample listener on descriptor 3 that owns two connected connections, on
descriptors 5 and 6. -/
def busyListener : TcpListener :=
  { mAddress := SocketAddress.new, mSocket := { mSocket := 3 }, mReading := true,
    mListening := true,
    mConnections := [⟨5, ConnectionState.Connected⟩, ⟨6, ConnectionState.Connected⟩] }

/-! ## Socket address: assignment from a `sockaddr` (`netbase/SocketAddress.hpp`) -/

/-- `SocketAddress::Reset()`: all bytes zero. -/
def SocketAddress.Reset (_a : SocketAddress) : SocketAddress :=
  { mAddress := List.replicate STORAGE_SIZE 0 }

/-- The destination after `memcpy(dst, src, n)`: the first `n` bytes of the
memory at `src` replace the first `n` bytes of the destination. -/
def memcpy (dst src : List Nat) (n : Nat) : List Nat := src.take n ++ dst.drop n

/-- The field `sa_family` of the `sockaddr` at the start of the memory `sa`
(its first two bytes, little endian). -/
def sa_family (sa : List Nat) : Nat := sa.getD 0 0 + 256 * sa.getD 1 0

/-- `SocketAddress::operator=(const struct sockaddr& sa)`: `sa` is the memory
at the address of the source, `same` tells whether that address is the address
of the storage of the object itself.  A distinct source zeroes the storage and
then copies as many leading bytes as the family of the source says. -/
def SocketAddress.assign (a : SocketAddress) (sa : List Nat) (same : Bool) : SocketAddress :=
  if !same then
    let zeroed : List Nat := List.replicate STORAGE_SIZE 0
    if sa_family sa = AF_INET then { mAddress := memcpy zeroed sa SOCKADDR_IN_SIZE }
    else if sa_family sa = AF_INET6 then { mAddress := memcpy zeroed sa SOCKADDR_IN6_SIZE }
    else { mAddress := zeroed }
  else a

/-! ## The listener: listening on a given address -/

/-- Modelled from the spec: `Socket::Family()` of `netbase` (absent): the
family of the socket, queried as `netb` does it (the family of the local
address reported by `getsockname`), without an error output. -/
def Socket.Family (s : Socket) (w : World) : Option (Int × World) :=
  match netb.Socket.Family { _fd := s.mSocket } none w with
  | none => none
  | some r => some (r.val, r.world)

/-- `TcpListener::Listen(const SocketAddress& addr, int backlog)`: the family
of the socket is queried only for a non-empty address. -/
def TcpListener.ListenAddr (l : TcpListener) (addr : SocketAddress) (backlog : Int) (w : World) :
    Option ((Bool × TcpListener) × World) :=
  if addr.Empty then TcpListener.Listen { l with mAddress := addr } backlog w
  else
    match Socket.Family l.mSocket w with
    | none => none
    | some (fam, w1) =>
      if (addr.Family : Int) != fam then some ((false, l), w1)
      else TcpListener.Listen { l with mAddress := addr } backlog w1

/-- The call is a `listen`. -/
def isListen : Call → Bool
  | Call.listen _ _ => true
  | _ => false

/-- The IPv6 loopback address with port 8080: family `AF_INET6`, port bytes
`0x1F 0x90`, flow information zero, address `::1`, scope zero. -/
def loopback6Address : SocketAddress :=
  { mAddress := [10, 0, 31, 144, 0, 0, 0, 0] ++ List.replicate 15 0 ++ [1] ++ List.replicate 104 0 }

/-- A system call outcome: `getsockname` on an unbound IPv4 socket delivers the
family `AF_INET` with a zero port and address. -/
def inetNameRes : SysRes :=
  { ret := 0, errno := 0, data := [2, 0, 0, 0, 0, 0, 0, 0, 0, 0, 0, 0, 0, 0, 0, 0] }

/-- The memory of a `sockaddr_in` for 192.168.1.2:8080 followed by two bytes
that do not belong to it. -/
def inetSockaddr : List Nat := [2, 0, 31, 144, 192, 168, 1, 2, 0, 0, 0, 0, 0, 0, 0, 0, 77, 78]

/-- The memory of a `sockaddr` of the family `AF_UNIX` (1). -/
def unixSockaddr : List Nat := [1, 0, 47, 116, 109, 112, 47, 115, 0, 0, 0, 0, 0, 0, 0, 0]

end netbase

namespace netb

/-! ## The stream Connection of the spec -/

/-- Modelled from the spec: a stream Connection (the Connection that owns a TCP
socket and reacts to its reads is not under `src`): the socket, the state, one
of Connecting, Connected, Closing and Closed, and the inbound buffer. -/
structure Connection where
  socket : TcpSocket
  state : netbase.ConnectionState
  inbound : StreamBuffer
  deriving DecidableEq, Repr

/-- Modelled from the spec: the state of a Connection after a receive that
returned `r`.  "A return of zero bytes from receive, on a stream socket,
signals orderly peer shutdown (not an error) and must transition the
connection toward Closing": Connected goes to Closing on 0.  "A negative/error
return signals an unrecoverable error", and an unrecoverable I/O error takes
Connected or Closing to Closed.  A positive return leaves the state. -/
def Connection.afterReceive (st : netbase.ConnectionState) (r : Int) : netbase.ConnectionState :=
  if r = 0 then
    (if st = netbase.ConnectionState.Connected then netbase.ConnectionState.Closing else st)
  else if r < 0 then
    (if st = netbase.ConnectionState.Connected ∨ st = netbase.ConnectionState.Closing then
       netbase.ConnectionState.Closed
     else st)
  else st

/-- Modelled from the spec: the Connection receives from its socket into its
inbound buffer, through `TcpSocket::Receive(StreamBuffer*, Error*)` or, with a
timeout `t`, `TcpSocket::Receive(StreamBuffer*, int, Error*)`, and moves its
state by what the receive returned.  The value is the return value and the
Connection after. -/
def Connection.Receive (c : Connection) (t : Option Int) (e : Option Error) (w : World) :
    Option (Res (Int × Connection)) :=
  match (match t with
         | none => TcpSocket.ReceiveBuffer c.socket c.inbound e w
         | some timeout => TcpSocket.ReceiveBufferTimeout c.socket c.inbound timeout e w) with
  | none => none
  | some r =>
    some { val := (r.val.1, { c with inbound := r.val.2,
                                     state := Connection.afterReceive c.state r.val.1 }),
           err := r.err, world := r.world }

/-- A sample Connected Connection on the sample socket, with the sample buffer
as its inbound buffer. -/
def sampleConnection : Connection :=
  { socket := sampleSocket, state := netbase.ConnectionState.Connected, inbound := sampleBuffer }

/-! # Theorems -/

/-! ## Trace lemmas -/

theorem issued_of_append (w w' : World) (d : List Event) (h : w'.trace = w.trace ++ d) :
    issued w w' = d := by
  simp [issued, h]

theorem completedTransfers_cons_interrupted (ev : Event) (d : List Event) (h : ev.interrupted = true) :
    completedTransfers (ev :: d) = completedTransfers d := by
  simp [completedTransfers, h]

theorem completedTransfers_single (ev : Event) (h1 : ev.call.isTransfer = true) (h2 : ev.interrupted = false) :
    completedTransfers [ev] = [ev] := by
  simp [completedTransfers, h1, h2]

theorem Socket.SendLoop_shape (s : Socket) (p : List Nat) (n : Nat) (flags : Int) (e : Option Error) :
    ∀ (script : List SysRes) (tr : List Event) (r : Res Int),
      Socket.SendLoop s p n flags e script tr = some r →
      ∃ d, r.world.trace = tr ++ d ∧ (∀ ev ∈ d, ev.call = Call.send s._fd (p.take n) flags) ∧
        (completedTransfers d).length = 1 ∧ (r.val ≠ SOCKET_ERROR → r.err = e) := by
  intro script
  induction script with
  | nil => intro tr r h; simp [Socket.SendLoop] at h
  | cons x rest ih =>
    intro tr r h
    simp only [Socket.SendLoop] at h
    split at h
    · split at h
      · simp only [Option.some.injEq] at h
        subst h
        rename_i h1 h2
        refine ⟨[_], rfl, ?_, ?_, ?_⟩
        · simp [Event.of]
        · rw [completedTransfers_single]
          · rfl
          · rfl
          · simpa [Event.of, Event.interrupted, SocketError.Interrupted, World.step, h1] using h2
        · intro hne; exact absurd h1 hne
      · rename_i h1 h2
        obtain ⟨d, hd1, hd2, hd3, hd4⟩ := ih _ r h
        refine ⟨Event.of (Call.send s._fd (p.take n) flags) x :: d, ?_, ?_, ?_, hd4⟩
        · rw [hd1]; simp [World.step]
        · intro ev hev
          rcases List.mem_cons.mp hev with rfl | hm
          · rfl
          · exact hd2 ev hm
        · rw [completedTransfers_cons_interrupted]
          · exact hd3
          · simpa [Event.of, Event.interrupted, SocketError.Interrupted, World.step, h1] using h2
    · simp only [Option.some.injEq] at h
      subst h
      rename_i h1
      refine ⟨[_], rfl, ?_, ?_, ?_⟩
      · simp [Event.of]
      · rw [completedTransfers_single]
        · rfl
        · rfl
        · simp [Event.of, Event.interrupted, h1]
      · intro _; rfl
theorem storeAt_length (mem d : List Nat) (h : d.length ≤ mem.length) :
    (storeAt mem d).length = mem.length := by
  simp [storeAt]; omega

theorem Socket.ReceiveLoop_shape (s : Socket) (n : Nat) (flags : Int) (e : Option Error) :
    ∀ (script : List SysRes) (p : List Nat) (tr : List Event) (r : Res (Int × List Nat)),
      Socket.ReceiveLoop s n flags e p script tr = some r →
      ∃ d, r.world.trace = tr ++ d ∧ (∀ ev ∈ d, ev.call = Call.recv s._fd n flags) ∧
        (completedTransfers d).length = 1 ∧ (r.val.1 ≠ SOCKET_ERROR → r.err = e) ∧
        (n ≤ p.length → r.val.2.length = p.length) := by
  intro script
  induction script with
  | nil => intro p tr r h; simp [Socket.ReceiveLoop] at h
  | cons x rest ih =>
    intro p tr r h
    have hlen : n ≤ p.length → (storeAt p (x.data.take n)).length = p.length := by
      intro hn
      apply storeAt_length
      simp only [List.length_take]
      omega
    simp only [Socket.ReceiveLoop] at h
    split at h
    · split at h
      · simp only [Option.some.injEq] at h
        subst h
        rename_i h1 h2
        refine ⟨[_], rfl, ?_, ?_, ?_, hlen⟩
        · simp [Event.of]
        · rw [completedTransfers_single]
          · rfl
          · rfl
          · simpa [Event.of, Event.interrupted, SocketError.Interrupted, World.step, h1] using h2
        · intro hne; exact absurd h1 hne
      · rename_i h1 h2
        obtain ⟨d, hd1, hd2, hd3, hd4, hd5⟩ := ih _ _ r h
        refine ⟨Event.of (Call.recv s._fd n flags) x :: d, ?_, ?_, ?_, hd4, ?_⟩
        · rw [hd1]; simp [World.step]
        · intro ev hev
          rcases List.mem_cons.mp hev with rfl | hm
          · rfl
          · exact hd2 ev hm
        · rw [completedTransfers_cons_interrupted]
          · exact hd3
          · simpa [Event.of, Event.interrupted, SocketError.Interrupted, World.step, h1] using h2
        · intro hn
          rw [hd5 (by rw [hlen hn]; exact hn), hlen hn]
    · simp only [Option.some.injEq] at h
      subst h
      rename_i h1
      refine ⟨[_], rfl, ?_, ?_, ?_, hlen⟩
      · simp [Event.of]
      · rw [completedTransfers_single]
        · rfl
        · rfl
        · simp [Event.of, Event.interrupted, h1]
      · intro _; rfl

theorem Socket.Block_shape (s : Socket) (block : Bool) (e : Option Error) (w : World) (r : Res Bool)
    (h : Socket.Block s block e w = some r) :
    ∃ g f : SysRes,
      r.world.trace = w.trace ++
        [Event.of (Call.getfl s._fd) g,
         Event.of (Call.setfl s._fd
           (if block then Int.land g.ret (Int.lnot O_NONBLOCK) else Int.lor g.ret O_NONBLOCK)) f] ∧
      (f.ret = SOCKET_ERROR → r.val = false) ∧
      (f.ret ≠ SOCKET_ERROR → r.val = true ∧ r.err = e) := by
  unfold Socket.Block at h
  cases hs : w.script with
  | nil => simp [syscall, hs] at h
  | cons g rest =>
    cases rest with
    | nil => simp [syscall, hs, World.step] at h
    | cons f rest2 =>
      simp only [syscall, hs, World.step] at h
      refine ⟨g, f, ?_⟩
      split at h <;> simp only [Option.some.injEq] at h <;> subst h <;> rename_i h1
      · exact ⟨by simp, fun _ => rfl, fun hne => absurd h1 hne⟩
      · exact ⟨by simp, fun heq => absurd heq h1, fun _ => ⟨rfl, rfl⟩⟩

theorem SocketSelector.SelectLoop_shape (fd events timeout : Int) (e : Option Error) :
    ∀ (script : List SysRes) (tr : List Event) (r : Res Int),
      SocketSelector.SelectLoop fd events timeout e script tr = some r →
      ∃ d last, r.world.trace = tr ++ d ∧ (∀ ev ∈ d, ev.call = Call.select fd events timeout) ∧
        d.getLast? = some last ∧ (last.ret ≤ 0 → r.val ≤ 0) ∧
        (0 < last.ret → 0 < r.val ∧ r.err = e) := by
  intro script
  induction script with
  | nil => intro tr r h; simp [SocketSelector.SelectLoop] at h
  | cons x rest ih =>
    intro tr r h
    simp only [SocketSelector.SelectLoop] at h
    split at h
    · split at h
      · simp only [Option.some.injEq] at h
        subst h
        rename_i h1 h2
        refine ⟨[Event.of (Call.select fd events timeout) x], Event.of (Call.select fd events timeout) x, rfl, ?_, rfl, ?_, ?_⟩
        · simp [Event.of]
        · intro _; show (-1 : Int) ≤ 0; decide
        · intro hpos
          have hneg : x.ret < 0 := h1
          have hpos' : 0 < x.ret := hpos
          omega
      · rename_i h1 h2
        obtain ⟨d, last, hd1, hd2, hd3, hd4, hd5⟩ := ih _ r h
        refine ⟨Event.of (Call.select fd events timeout) x :: d, last, ?_, ?_, ?_, hd4, hd5⟩
        · rw [hd1]; simp [World.step]
        · intro ev hev
          rcases List.mem_cons.mp hev with rfl | hm
          · rfl
          · exact hd2 ev hm
        · cases d with
          | nil => simp at hd3
          | cons a d' => simpa [List.getLast?_cons_cons] using hd3
    · simp only [Option.some.injEq] at h
      subst h
      rename_i h1
      refine ⟨[Event.of (Call.select fd events timeout) x], Event.of (Call.select fd events timeout) x, rfl, ?_, rfl, ?_, ?_⟩
      · simp [Event.of]
      · intro h; exact h
      · intro h; exact ⟨h, rfl⟩

/-! ## Buffer lemmas -/

theorem StreamBuffer.content_advance (b : StreamBuffer) (k : Nat) :
    ({ b with _read_index := b._read_index + k } : StreamBuffer).content = b.content.drop k := by
  simp only [StreamBuffer.content, StreamBuffer.Read, StreamBuffer.Readable]
  rw [List.drop_take, List.drop_drop]
  congr 1
  omega

theorem StreamBuffer.content_length (b : StreamBuffer) (h : b.WF) : b.content.length = b.Readable := by
  obtain ⟨h1, h2⟩ := h
  simp only [StreamBuffer.content, StreamBuffer.Read, StreamBuffer.Readable, List.length_take,
    List.length_drop]
  omega

/-- C1: for an outbound buffer with `n` readable bytes and a result `r <= n` of
the pointer-level send (with or without a timeout, `t`), the buffer-level send
returns `r` with the same error output and world; for `r > 0` the read cursor
advances by exactly `r`, `n - r` bytes stay readable and they are the original
readable content without its first `r` bytes; for `r <= 0` the buffer is unchanged. -/
theorem send_buffer_advances_read_cursor (s : TcpSocket) (buf : StreamBuffer) (t : Option Int)
    (e : Option Error) (w : World) (r : Res Int)
    (h : (match t with
          | none => TcpSocket.Send s buf.Read buf.Readable e w
          | some timeout => TcpSocket.SendTimeout s buf.Read buf.Readable timeout e w) = some r)
    (hr : r.val ≤ buf.Readable) :
    ∃ b' : StreamBuffer,
      (match t with
       | none => TcpSocket.SendBuffer s buf e w
       | some timeout => TcpSocket.SendBufferTimeout s buf timeout e w)
        = some { val := (r.val, b'), err := r.err, world := r.world } ∧
      (0 < r.val →
        b'._read_index = buf._read_index + r.val.toNat ∧
        b'._write_index = buf._write_index ∧
        b'._bytes = buf._bytes ∧
        b'.Readable = buf.Readable - r.val.toNat ∧
        b'.content = buf.content.drop r.val.toNat ∧
        (buf.WF → b'.WF ∧ b'.content.length = buf.Readable - r.val.toNat)) ∧
      (r.val ≤ 0 → b' = buf) := by
  by_cases hpos : 0 < r.val
  · have hk : ¬ buf.Readable < r.val.toNat := by omega
    refine ⟨{ buf with _read_index := buf._read_index + r.val.toNat }, ?_, ?_, ?_⟩
    · cases t <;> simp only [TcpSocket.SendBuffer, TcpSocket.SendBufferTimeout] at h ⊢ <;>
        rw [h] <;> simp [hpos, StreamBuffer.ReadN, hk]
    · intro _
      refine ⟨rfl, rfl, rfl, ?_, StreamBuffer.content_advance buf _, ?_⟩
      · simp only [StreamBuffer.Readable]; omega
      · intro hwf
        have hwf' : ({ buf with _read_index := buf._read_index + r.val.toNat } : StreamBuffer).WF := by
          obtain ⟨h1, h2⟩ := hwf
          simp only [StreamBuffer.Readable] at hk
          exact ⟨by show buf._read_index + r.val.toNat ≤ buf._write_index; omega, h2⟩
        refine ⟨hwf', ?_⟩
        rw [StreamBuffer.content_length _ hwf']
        simp only [StreamBuffer.Readable]; omega
    · intro h0; omega
  · refine ⟨buf, ?_, ?_, ?_⟩
    · cases t <;> simp only [TcpSocket.SendBuffer, TcpSocket.SendBufferTimeout] at h ⊢ <;>
        rw [h] <;> simp [hpos]
    · intro h0; exact absurd h0 hpos
    · intro _; rfl

/-- C1 at a sample input: three of the four readable bytes are accepted by a
non-blocking send with timeout 0; one byte, `5`, stays readable. -/
theorem send_buffer_advances_read_cursor_witness :
    (TcpSocket.SendTimeout sampleSocket sampleBuffer.Read sampleBuffer.Readable 0 (some Error.new)
        { script := [okRes, okRes, ⟨3, 0, []⟩], errno := 0, trace := [] }
      = some { val := 3, err := some Error.new,
               world := { script := [], errno := 0,
                          trace := [Event.of (Call.getfl 3) okRes,
                                    Event.of (Call.setfl 3 (Int.lor 0 O_NONBLOCK)) okRes,
                                    Event.of (Call.send 3 [2, 3, 4, 5] 0) ⟨3, 0, []⟩] } }) ∧
    ∃ b' : StreamBuffer,
      TcpSocket.SendBufferTimeout sampleSocket sampleBuffer 0 (some Error.new)
          { script := [okRes, okRes, ⟨3, 0, []⟩], errno := 0, trace := [] }
        = some { val := (3, b'), err := some Error.new,
                 world := { script := [], errno := 0,
                            trace := [Event.of (Call.getfl 3) okRes,
                                      Event.of (Call.setfl 3 (Int.lor 0 O_NONBLOCK)) okRes,
                                      Event.of (Call.send 3 [2, 3, 4, 5] 0) ⟨3, 0, []⟩] } } ∧
      b'._read_index = 4 ∧ b'.Readable = 1 ∧ b'.content = [5] := by
  refine ⟨rfl, ?_⟩
  obtain ⟨b', h1, h2, _⟩ := send_buffer_advances_read_cursor sampleSocket sampleBuffer (some 0)
    (some Error.new) { script := [okRes, okRes, ⟨3, 0, []⟩], errno := 0, trace := [] }
    { val := 3, err := some Error.new,
      world := { script := [], errno := 0,
                 trace := [Event.of (Call.getfl 3) okRes,
                           Event.of (Call.setfl 3 (Int.lor 0 O_NONBLOCK)) okRes,
                           Event.of (Call.send 3 [2, 3, 4, 5] 0) ⟨3, 0, []⟩] } }
    rfl (by decide)
  obtain ⟨h3, _, _, h4, h5, _⟩ := h2 (by decide)
  exact ⟨b', h1, h3, h4, h5⟩

theorem Socket.WaitForRead_ready (s : Socket) (timeout : Int) (e : Option Error) (w : World)
    (r : Res Bool) (h : Socket.WaitForRead s timeout e w = some r) (hv : r.val = true) : r.err = e := by
  unfold Socket.WaitForRead SocketSelector.Select at h
  cases hsel : SocketSelector.SelectLoop s._fd SOCKET_EVENT_READ timeout e w.script w.trace with
  | none => simp [hsel] at h
  | some rs =>
    obtain ⟨d, last, _, _, _, h4, h5⟩ := SocketSelector.SelectLoop_shape _ _ _ _ _ _ _ hsel
    simp only [hsel] at h
    split at h <;> simp only [Option.some.injEq] at h <;> subst h
    · simp at hv
    · rename_i hpos
      by_cases hl : last.ret ≤ 0
      · exact absurd (h4 hl) hpos
      · exact (h5 (by omega)).2

theorem Socket.WaitForWrite_ready (s : Socket) (timeout : Int) (e : Option Error) (w : World)
    (r : Res Bool) (h : Socket.WaitForWrite s timeout e w = some r) (hv : r.val = true) : r.err = e := by
  unfold Socket.WaitForWrite SocketSelector.Select at h
  cases hsel : SocketSelector.SelectLoop s._fd SOCKET_EVENT_WRITE timeout e w.script w.trace with
  | none => simp [hsel] at h
  | some rs =>
    obtain ⟨d, last, _, _, _, h4, h5⟩ := SocketSelector.SelectLoop_shape _ _ _ _ _ _ _ hsel
    simp only [hsel] at h
    split at h <;> simp only [Option.some.injEq] at h <;> subst h
    · simp at hv
    · rename_i hpos
      by_cases hl : last.ret ≤ 0
      · exact absurd (h4 hl) hpos
      · exact (h5 (by omega)).2

theorem Socket.Block_ok (s : Socket) (block : Bool) (e : Option Error) (w : World) (r : Res Bool)
    (h : Socket.Block s block e w = some r) (hv : r.val = true) : r.err = e := by
  obtain ⟨g, f, _, h2, h3⟩ := Socket.Block_shape s block e w r h
  by_cases hf : f.ret = SOCKET_ERROR
  · rw [h2 hf] at hv; exact absurd hv (by decide)
  · exact (h3 hf).2

theorem Socket.Receive_facts (s : Socket) (p : List Nat) (n : Nat) (flags : Int) (e : Option Error)
    (w : World) (r : Res (Int × List Nat)) (h : Socket.Receive s p n flags e w = some r) :
    (r.val.1 ≠ SOCKET_ERROR → r.err = e) ∧ (n ≤ p.length → r.val.2.length = p.length) := by
  obtain ⟨_, _, _, _, h4, h5⟩ := Socket.ReceiveLoop_shape s n flags e _ _ _ _ h
  exact ⟨h4, h5⟩

theorem TcpSocket.receive_pointer_facts (s : TcpSocket) (p : List Nat) (n : Nat) (t : Option Int)
    (e : Option Error) (w : World) (r : Res (Int × List Nat))
    (h : (match t with
          | none => TcpSocket.Receive s p n e w
          | some timeout => TcpSocket.ReceiveTimeout s p n timeout e w) = some r) :
    (r.val.1 ≠ -1 → r.err = e) ∧ (n ≤ p.length → r.val.2.length = p.length) := by
  have blocking : ∀ r : Res (Int × List Nat), TcpSocket.Receive s p n e w = some r →
      (r.val.1 ≠ -1 → r.err = e) ∧ (n ≤ p.length → r.val.2.length = p.length) := by
    intro r h
    unfold TcpSocket.Receive at h
    cases hb : Socket.Block s.toSocket true e w with
    | none => simp [hb] at h
    | some rb =>
      simp only [hb] at h
      split at h
      · simp only [Option.some.injEq] at h; subst h
        exact ⟨fun hne => absurd rfl hne, fun _ => rfl⟩
      · rename_i hv
        have hv' : rb.val = true := by simpa using hv
        have he := Socket.Block_ok _ _ _ _ _ hb hv'
        have := Socket.Receive_facts _ _ _ _ _ _ _ h
        rw [he] at this
        exact this
  cases t with
  | none => exact blocking r h
  | some timeout =>
    simp only at h
    unfold TcpSocket.ReceiveTimeout at h
    split at h
    · exact blocking r h
    · cases hb : Socket.Block s.toSocket false e w with
      | none => simp [hb] at h
      | some rb =>
        simp only [hb] at h
        split at h
        · simp only [Option.some.injEq] at h; subst h
          exact ⟨fun hne => absurd rfl hne, fun _ => rfl⟩
        · rename_i hv
          have hv' : rb.val = true := by simpa using hv
          have he := Socket.Block_ok _ _ _ _ _ hb hv'
          split at h
          · cases hw : Socket.WaitForRead s.toSocket timeout rb.err rb.world with
            | none => simp [hw] at h
            | some rw =>
              simp only [hw] at h
              split at h
              · simp only [Option.some.injEq] at h; subst h
                exact ⟨fun hne => absurd rfl hne, fun _ => rfl⟩
              · rename_i hwv
                have hwv' : rw.val = true := by simpa using hwv
                have he2 := Socket.WaitForRead_ready _ _ _ _ _ hw hwv'
                have := Socket.Receive_facts _ _ _ _ _ _ _ h
                rw [he2, he] at this
                exact this
          · have := Socket.Receive_facts _ _ _ _ _ _ _ h
            rw [he] at this
            exact this
theorem StreamBuffer.content_eq (b : StreamBuffer) (h : b.WF) :
    b.content = (b._bytes.take b._write_index).drop b._read_index := by
  obtain ⟨h1, h2⟩ := h
  simp only [StreamBuffer.content, StreamBuffer.Read, StreamBuffer.Readable]
  rw [List.take_drop]
  congr 2
  omega

theorem StreamBuffer.WritableN_ok (b b1 : StreamBuffer) (n : Nat) (hwf : b.WF)
    (h : b.WritableN n = (true, b1)) :
    n ≤ b1.Writable ∧ b1._read_index = b._read_index ∧ b1._write_index = b._write_index ∧
      b1.content = b.content ∧ b1.WF := by
  obtain ⟨h1, h2⟩ := hwf
  unfold StreamBuffer.WritableN at h
  split at h
  · simp only [Prod.mk.injEq, true_and] at h
    subst h
    rename_i hn
    exact ⟨hn, rfl, rfl, rfl, h1, h2⟩
  · split at h
    · simp only [Prod.mk.injEq, true_and] at h
      subst h
      rename_i hn hl
      refine ⟨?_, rfl, rfl, ?_, ?_⟩
      · simp only [StreamBuffer.Writable, List.length_append, List.length_replicate]
        omega
      · rw [StreamBuffer.content_eq _ ⟨h1, h2⟩, StreamBuffer.content_eq]
        · simp only
          rw [List.take_append_of_le_length h2]
        · exact ⟨h1, by simp only [List.length_append]; omega⟩
      · exact ⟨h1, by simp only [List.length_append]; omega⟩
    · simp at h

theorem StreamBuffer.WritableN_fail (b : StreamBuffer) (n : Nat) (h : (b.WritableN n).1 = false) :
    (b.WritableN n).2 = b := by
  unfold StreamBuffer.WritableN at h ⊢
  split
  · rename_i hn; simp [hn] at h
  · split
    · rename_i hn hl; simp [hn, hl] at h
    · rfl

theorem StreamBuffer.stored_content (b : StreamBuffer) (mem : List Nat) (hwf : b.WF) :
    (b.stored mem).content = b.content ∧ (b.stored mem).WF ∧
      (b.stored mem)._read_index = b._read_index ∧ (b.stored mem)._write_index = b._write_index ∧
      (b.stored mem).Writable = mem.length := by
  obtain ⟨h1, h2⟩ := hwf
  have hl : (b._bytes.take b._write_index).length = b._write_index := by
    simp only [List.length_take]; omega
  have hwf' : (b.stored mem).WF :=
    ⟨h1, by simp only [StreamBuffer.stored, List.length_append, hl]; omega⟩
  refine ⟨?_, hwf', rfl, rfl, ?_⟩
  · rw [StreamBuffer.content_eq _ hwf', StreamBuffer.content_eq _ ⟨h1, h2⟩]
    simp only [StreamBuffer.stored]
    rw [List.take_append_of_le_length (by omega), List.take_take]
    congr 2
    omega
  · simp only [StreamBuffer.Writable, StreamBuffer.stored, List.length_append, hl]
    omega

theorem StreamBuffer.stored_WriteN (b : StreamBuffer) (mem : List Nat) (k : Nat) (hwf : b.WF)
    (hk : k ≤ mem.length) :
    ((b.stored mem).WriteN k).2._read_index = b._read_index ∧
      ((b.stored mem).WriteN k).2._write_index = b._write_index + k ∧
      ((b.stored mem).WriteN k).2.Readable = b.Readable + k ∧
      ((b.stored mem).WriteN k).2.content = b.content ++ mem.take k ∧
      ((b.stored mem).WriteN k).2.WF := by
  obtain ⟨hc, hwf', hr, hw, hcap⟩ := StreamBuffer.stored_content b mem hwf
  obtain ⟨h1, h2⟩ := hwf
  have hl : (b._bytes.take b._write_index).length = b._write_index := by
    simp only [List.length_take]; omega
  have hnot : ¬ (b.stored mem).Writable < k := by omega
  simp only [StreamBuffer.WriteN, hnot, if_false]
  have hwf2 : ({ b.stored mem with _write_index := (b.stored mem)._write_index + k } : StreamBuffer).WF := by
    refine ⟨?_, ?_⟩
    · show b._read_index ≤ b._write_index + k
      omega
    · show b._write_index + k ≤ (b._bytes.take b._write_index ++ mem).length
      simp only [List.length_append, hl]; omega
  refine ⟨rfl, rfl, ?_, ?_, hwf2⟩
  · show b._write_index + k - b._read_index = b._write_index - b._read_index + k
    omega
  · rw [StreamBuffer.content_eq _ hwf2, StreamBuffer.content_eq _ ⟨h1, h2⟩]
    show ((b._bytes.take b._write_index ++ mem).take (b._write_index + k)).drop b._read_index
      = (b._bytes.take b._write_index).drop b._read_index ++ mem.take k
    rw [List.take_append_eq_append_take, hl]
    rw [List.take_of_length_le (by omega : (b._bytes.take b._write_index).length ≤ b._write_index + k)]
    rw [List.drop_append_of_le_length (by omega)]
    congr 2
    omega
/-- C2: the buffer-level receive (with or without a timeout, `t`) first asks
the inbound buffer for 2048 writable bytes.  If that fails it returns -1 with
a NOBUFS runtime error, the world (so the trace: no read) and the buffer (so
every cursor) unchanged.  Otherwise the prepared buffer has at least 2048
writable bytes and the same cursors and content, the pointer-level receive is
performed once on its writable region, and for a positive result `r` that fits
the region the write cursor advances by exactly `r`, the readable count grows
by exactly `r`, and the readable content is the previous content followed by
the first `r` received bytes. -/
theorem receive_buffer_reserves_then_appends (s : TcpSocket) (buf : StreamBuffer) (t : Option Int)
    (e : Option Error) (w : World) (hwf : buf.WF) :
    ((buf.WritableN 2048).1 = false →
      (match t with
       | none => TcpSocket.ReceiveBuffer s buf e w
       | some timeout => TcpSocket.ReceiveBufferTimeout s buf timeout e w)
        = some { val := (-1, buf),
                 err := SET_RUNTIME_ERROR e "TcpSocket::Receive : Prepare buffer failed." ErrorCode.NOBUFS,
                 world := w }) ∧
    (∀ b1 : StreamBuffer, buf.WritableN 2048 = (true, b1) →
      2048 ≤ b1.Writable ∧ b1._read_index = buf._read_index ∧
      b1._write_index = buf._write_index ∧ b1.content = buf.content ∧
      ∀ r : Res (Int × List Nat),
        (match t with
         | none => TcpSocket.Receive s b1.Write b1.Writable e w
         | some timeout => TcpSocket.ReceiveTimeout s b1.Write b1.Writable timeout e w) = some r →
        ∃ b' : StreamBuffer,
          (match t with
           | none => TcpSocket.ReceiveBuffer s buf e w
           | some timeout => TcpSocket.ReceiveBufferTimeout s buf timeout e w)
            = some { val := (r.val.1, b'), err := r.err, world := r.world } ∧
          b'._read_index = buf._read_index ∧
          (0 < r.val.1 → r.val.1 ≤ b1.Writable →
            b'._write_index = buf._write_index + r.val.1.toNat ∧
            b'.Readable = buf.Readable + r.val.1.toNat ∧
            b'.content = buf.content ++ r.val.2.take r.val.1.toNat ∧
            b'.WF)) := by
  constructor
  · intro hf
    have hb := StreamBuffer.WritableN_fail buf 2048 hf
    cases t <;> simp [TcpSocket.ReceiveBuffer, TcpSocket.ReceiveBufferTimeout, hf, hb]
  · intro b1 hb1
    obtain ⟨hcap, hri, hwi, hcont, hwf1⟩ := StreamBuffer.WritableN_ok buf b1 2048 hwf hb1
    refine ⟨hcap, hri, hwi, hcont, ?_⟩
    intro r hr
    have hlen : r.val.2.length = b1.Write.length :=
      (TcpSocket.receive_pointer_facts s b1.Write b1.Writable t e w r hr).2
        (by simp [StreamBuffer.Write, StreamBuffer.Writable])
    have hlen' : r.val.2.length = b1.Writable := by
      rw [hlen]; simp [StreamBuffer.Write, StreamBuffer.Writable]
    by_cases hpos : 0 < r.val.1
    · refine ⟨((b1.stored r.val.2).WriteN r.val.1.toNat).2, ?_, ?_, ?_⟩
      · cases t <;> simp only [TcpSocket.ReceiveBuffer, TcpSocket.ReceiveBufferTimeout, hb1] at hr ⊢ <;>
          rw [hr] <;> simp [hpos]
      · by_cases hk : r.val.1.toNat ≤ r.val.2.length
        · rw [(StreamBuffer.stored_WriteN b1 r.val.2 _ hwf1 hk).1, hri]
        · have hw := (StreamBuffer.stored_content b1 r.val.2 hwf1).2.2.2.2
          have : (b1.stored r.val.2).Writable < r.val.1.toNat := by omega
          simp only [StreamBuffer.WriteN, this, if_true]
          exact hri
      · intro _ hle
        have hk : r.val.1.toNat ≤ r.val.2.length := by omega
        obtain ⟨_, h2, h3, h4, h5⟩ := StreamBuffer.stored_WriteN b1 r.val.2 _ hwf1 hk
        refine ⟨by rw [h2, hwi], ?_, by rw [h4, hcont], h5⟩
        rw [h3]
        simp only [StreamBuffer.Readable, hri, hwi]
    · refine ⟨b1.stored r.val.2, ?_, ?_, ?_⟩
      · cases t <;> simp only [TcpSocket.ReceiveBuffer, TcpSocket.ReceiveBufferTimeout, hb1] at hr ⊢ <;>
          rw [hr] <;> simp [hpos]
      · exact hri
      · intro h0; exact absurd h0 hpos

theorem TcpSocket.ReceiveBuffer_zero (s : TcpSocket) (buf b1 : StreamBuffer) (t : Option Int)
    (e : Option Error) (w : World) (r : Res (Int × List Nat)) (hwf : buf.WF)
    (hb1 : buf.WritableN 2048 = (true, b1))
    (hr : (match t with
           | none => TcpSocket.Receive s b1.Write b1.Writable e w
           | some timeout => TcpSocket.ReceiveTimeout s b1.Write b1.Writable timeout e w) = some r)
    (h0 : r.val.1 = 0) :
    ∃ b' : StreamBuffer,
      (match t with
       | none => TcpSocket.ReceiveBuffer s buf e w
       | some timeout => TcpSocket.ReceiveBufferTimeout s buf timeout e w)
        = some { val := (0, b'), err := e, world := r.world } ∧
      b'.content = buf.content ∧ b'.Readable = buf.Readable ∧
      b'._write_index = buf._write_index ∧ b'._read_index = buf._read_index := by
  obtain ⟨_, hri, hwi, hcont, hwf1⟩ := StreamBuffer.WritableN_ok buf b1 2048 hwf hb1
  have herr : r.err = e :=
    (TcpSocket.receive_pointer_facts s b1.Write b1.Writable t e w r hr).1 (by rw [h0]; decide)
  obtain ⟨hc, _, hr1, hw1, _⟩ := StreamBuffer.stored_content b1 r.val.2 hwf1
  refine ⟨b1.stored r.val.2, ?_, by rw [hc, hcont], ?_, by rw [hw1, hwi], by rw [hr1, hri]⟩
  · cases t <;> simp only [TcpSocket.ReceiveBuffer, TcpSocket.ReceiveBufferTimeout, hb1] at hr ⊢ <;>
      rw [hr] <;> simp [h0, herr]
  · simp only [StreamBuffer.Readable, hr1, hw1, hri, hwi]

/-- C3: receiving zero bytes on a Connected stream Connection moves it to
Closing and appends nothing to its inbound buffer.  When the pointer-level
receive on the prepared inbound buffer returns 0 (orderly shutdown of the
peer), the buffer-level receive (with or without a timeout, `t`) returns 0,
leaves the error output as it was, and leaves the readable content, the
readable count and both cursors exactly as they were; the Connection that
made the receive returns 0 with the same error output, holds that buffer and
is in the state Closing. -/
theorem receive_zero_appends_nothing (c : Connection) (b1 : StreamBuffer) (t : Option Int)
    (e : Option Error) (w : World) (r : Res (Int × List Nat)) (hwf : c.inbound.WF)
    (hst : c.state = netbase.ConnectionState.Connected)
    (hb1 : c.inbound.WritableN 2048 = (true, b1))
    (hr : (match t with
           | none => TcpSocket.Receive c.socket b1.Write b1.Writable e w
           | some timeout => TcpSocket.ReceiveTimeout c.socket b1.Write b1.Writable timeout e w)
          = some r)
    (h0 : r.val.1 = 0) :
    ∃ b' : StreamBuffer,
      (match t with
       | none => TcpSocket.ReceiveBuffer c.socket c.inbound e w
       | some timeout => TcpSocket.ReceiveBufferTimeout c.socket c.inbound timeout e w)
        = some { val := (0, b'), err := e, world := r.world } ∧
      Connection.Receive c t e w
        = some { val := (0, { socket := c.socket, state := netbase.ConnectionState.Closing,
                              inbound := b' }),
                 err := e, world := r.world } ∧
      b'.content = c.inbound.content ∧ b'.Readable = c.inbound.Readable ∧
      b'._write_index = c.inbound._write_index ∧ b'._read_index = c.inbound._read_index := by
  obtain ⟨b', hrecv, h1, h2, h3, h4⟩ :=
    TcpSocket.ReceiveBuffer_zero c.socket c.inbound b1 t e w r hwf hb1 hr h0
  refine ⟨b', hrecv, ?_, h1, h2, h3, h4⟩
  unfold Connection.Receive
  rw [hrecv]
  simp [Connection.afterReceive, hst]
theorem sampleGrown_Writable : sampleGrown.Writable = 2048 := by
  simp only [sampleGrown, StreamBuffer.Writable, List.length_append, List.length_replicate,
    List.length_cons, List.length_nil]

theorem sampleReceived_take : List.take 3 sampleReceived.val.2 = [7, 8, 9] := by
  have h : sampleReceived.val.2
      = storeAt sampleGrown.Write (List.take sampleGrown.Writable [7, 8, 9]) := rfl
  rw [h, sampleGrown_Writable]
  rfl

/-- C2 at a sample input: the buffer grows to 2048 writable bytes and a blocking
receive of three bytes appends them to the four readable ones. -/
theorem receive_buffer_reserves_then_appends_witness :
    sampleBuffer.WF ∧ sampleBuffer.WritableN 2048 = (true, sampleGrown) ∧
    TcpSocket.Receive sampleSocket sampleGrown.Write sampleGrown.Writable (some Error.new)
        { script := [okRes, okRes, ⟨3, 0, [7, 8, 9]⟩], errno := 0, trace := [] }
      = some sampleReceived ∧
    ∃ b' : StreamBuffer,
      TcpSocket.ReceiveBuffer sampleSocket sampleBuffer (some Error.new)
          { script := [okRes, okRes, ⟨3, 0, [7, 8, 9]⟩], errno := 0, trace := [] }
        = some { val := (3, b'), err := some Error.new, world := sampleReceived.world } ∧
      b'._read_index = 1 ∧ b'._write_index = 8 ∧ b'.Readable = 7 ∧
      b'.content = [2, 3, 4, 5, 7, 8, 9] := by
  refine ⟨by decide, rfl, rfl, ?_⟩
  obtain ⟨b', h1, h2, h3⟩ :=
    ((receive_buffer_reserves_then_appends sampleSocket sampleBuffer none (some Error.new)
      { script := [okRes, okRes, ⟨3, 0, [7, 8, 9]⟩], errno := 0, trace := [] } (by decide)).2
      sampleGrown rfl).2.2.2.2 sampleReceived rfl
  have hle : sampleReceived.val.1 ≤ (sampleGrown.Writable : Int) := by
    rw [sampleGrown_Writable]; decide
  obtain ⟨h4, h5, h6, _⟩ := h3 (by decide) hle
  refine ⟨b', h1, h2, h4, h5, ?_⟩
  rw [h6]
  show sampleBuffer.content ++ List.take 3 sampleReceived.val.2 = [2, 3, 4, 5, 7, 8, 9]
  rw [sampleReceived_take]
  rfl

/-- C3 at a sample input: the peer has shut down, `recv` returns 0, the four
readable bytes and both cursors stay as they were, and the Connection is in
the state Closing. -/
theorem receive_zero_appends_nothing_witness :
    sampleConnection.inbound.WF ∧
    sampleConnection.state = netbase.ConnectionState.Connected ∧
    sampleConnection.inbound.WritableN 2048 = (true, sampleGrown) ∧
    TcpSocket.Receive sampleSocket sampleGrown.Write sampleGrown.Writable (some Error.new)
        { script := [okRes, okRes, okRes], errno := 0, trace := [] }
      = some sampleShutdown ∧
    sampleShutdown.val.1 = 0 ∧
    ∃ b' : StreamBuffer,
      TcpSocket.ReceiveBuffer sampleSocket sampleBuffer (some Error.new)
          { script := [okRes, okRes, okRes], errno := 0, trace := [] }
        = some { val := (0, b'), err := some Error.new, world := sampleShutdown.world } ∧
      Connection.Receive sampleConnection none (some Error.new)
          { script := [okRes, okRes, okRes], errno := 0, trace := [] }
        = some { val := (0, { socket := sampleSocket, state := netbase.ConnectionState.Closing,
                              inbound := b' }),
                 err := some Error.new, world := sampleShutdown.world } ∧
      b'.content = [2, 3, 4, 5] ∧ b'.Readable = 4 ∧ b'._write_index = 5 ∧ b'._read_index = 1 := by
  refine ⟨by decide, rfl, rfl, rfl, rfl, ?_⟩
  exact receive_zero_appends_nothing sampleConnection sampleGrown none (some Error.new)
    { script := [okRes, okRes, okRes], errno := 0, trace := [] } sampleShutdown (by decide)
    rfl rfl rfl rfl

/-! ## Retry on interrupt -/

theorem Socket.SendLoop_trace_free (s : Socket) (p : List Nat) (n : Nat) (flags : Int) (e : Option Error) :
    ∀ (script : List SysRes) (tr tr' : List Event),
      (Socket.SendLoop s p n flags e script tr).map Res.observed
        = (Socket.SendLoop s p n flags e script tr').map Res.observed := by
  intro script
  induction script with
  | nil => intro tr tr'; rfl
  | cons x rest ih =>
    intro tr tr'
    by_cases h1 : x.ret = SOCKET_ERROR
    · by_cases h2 : x.errno = EINTR
      · simp only [Socket.SendLoop, SocketError.Interrupted, World.step, h1, h2, if_true,
          beq_self_eq_true, Bool.not_true, Bool.false_eq_true, if_false]
        exact ih _ _
      · simp [Socket.SendLoop, SocketError.Interrupted, World.step, h1, h2, Res.observed,
          SET_SOCKET_ERROR]
    · simp [Socket.SendLoop, h1, Res.observed, World.step]

theorem Socket.SendLoop_skip (s : Socket) (p : List Nat) (n : Nat) (flags : Int) (e : Option Error)
    (k : Nat) (script : List SysRes) (tr tr' : List Event) :
    (Socket.SendLoop s p n flags e (List.replicate k interruptedRes ++ script) tr).map Res.observed
      = (Socket.SendLoop s p n flags e script tr').map Res.observed := by
  induction k generalizing tr with
  | zero => exact Socket.SendLoop_trace_free s p n flags e script tr tr'
  | succ k ih =>
    rw [List.replicate_succ, List.cons_append]
    simp only [Socket.SendLoop, SocketError.Interrupted, World.step, interruptedRes, if_true,
      beq_self_eq_true, Bool.not_true, Bool.false_eq_true, if_false]
    exact ih _

theorem Socket.SendLoop_final (s : Socket) (p : List Nat) (n : Nat) (flags : Int) (e : Option Error)
    (x : SysRes) (rest : List SysRes) (tr : List Event)
    (hx : ¬ (x.ret = SOCKET_ERROR ∧ x.errno = EINTR)) :
    (Socket.SendLoop s p n flags e (x :: rest) tr).isSome = true := by
  by_cases h1 : x.ret = SOCKET_ERROR
  · have h2 : ¬ x.errno = EINTR := fun h => hx ⟨h1, h⟩
    simp [Socket.SendLoop, SocketError.Interrupted, World.step, h1, h2]
  · simp [Socket.SendLoop, h1]
theorem Socket.AcceptLoop_trace_free (s : Socket) (e : Option Error) :
    ∀ (script : List SysRes) (tr tr' : List Event),
      (Socket.AcceptLoop s e script tr).map Res.observed
        = (Socket.AcceptLoop s e script tr').map Res.observed := by
  intro script
  induction script with
  | nil => intro tr tr'; rfl
  | cons x rest ih =>
    intro tr tr'
    by_cases h1 : x.ret = INVALID_SOCKET
    · by_cases h2 : x.errno = EINTR
      · simp only [Socket.AcceptLoop, SocketError.Interrupted, World.step, h1, h2, if_true,
          beq_self_eq_true, Bool.not_true, Bool.false_eq_true, if_false]
        exact ih _ _
      · simp [Socket.AcceptLoop, SocketError.Interrupted, World.step, h1, h2, Res.observed,
          SET_SOCKET_ERROR]
    · simp [Socket.AcceptLoop, h1, Res.observed, World.step]

theorem Socket.AcceptLoop_skip (s : Socket) (e : Option Error)
    (k : Nat) (script : List SysRes) (tr tr' : List Event) :
    (Socket.AcceptLoop s e (List.replicate k interruptedRes ++ script) tr).map Res.observed
      = (Socket.AcceptLoop s e script tr').map Res.observed := by
  induction k generalizing tr with
  | zero => exact Socket.AcceptLoop_trace_free s e script tr tr'
  | succ k ih =>
    rw [List.replicate_succ, List.cons_append]
    simp only [Socket.AcceptLoop, SocketError.Interrupted, World.step, interruptedRes, if_true,
      beq_self_eq_true, Bool.not_true, Bool.false_eq_true, if_false]
    exact ih _

theorem Socket.AcceptLoop_final (s : Socket) (e : Option Error)
    (x : SysRes) (rest : List SysRes) (tr : List Event)
    (hx : ¬ (x.ret = SOCKET_ERROR ∧ x.errno = EINTR)) :
    (Socket.AcceptLoop s e (x :: rest) tr).isSome = true := by
  by_cases h1 : x.ret = INVALID_SOCKET
  · have h2 : ¬ x.errno = EINTR := fun h => hx ⟨h1, h⟩
    simp [Socket.AcceptLoop, SocketError.Interrupted, World.step, h1, h2]
  · simp [Socket.AcceptLoop, h1]

theorem Socket.ConnectLoop_trace_free (s : Socket) (addr : SocketAddress) (e : Option Error) :
    ∀ (script : List SysRes) (tr tr' : List Event),
      (Socket.ConnectLoop s addr e script tr).map Res.observed
        = (Socket.ConnectLoop s addr e script tr').map Res.observed := by
  intro script
  induction script with
  | nil => intro tr tr'; rfl
  | cons x rest ih =>
    intro tr tr'
    by_cases h1 : x.ret = SOCKET_ERROR
    · by_cases h2 : x.errno = EINTR
      · simp only [Socket.ConnectLoop, SocketError.Interrupted, World.step, h1, h2, if_true,
          beq_self_eq_true, Bool.not_true, Bool.false_eq_true, if_false]
        exact ih _ _
      · simp [Socket.ConnectLoop, SocketError.Interrupted, World.step, h1, h2, Res.observed,
          SET_SOCKET_ERROR]
    · simp [Socket.ConnectLoop, h1, Res.observed, World.step]

theorem Socket.ConnectLoop_skip (s : Socket) (addr : SocketAddress) (e : Option Error)
    (k : Nat) (script : List SysRes) (tr tr' : List Event) :
    (Socket.ConnectLoop s addr e (List.replicate k interruptedRes ++ script) tr).map Res.observed
      = (Socket.ConnectLoop s addr e script tr').map Res.observed := by
  induction k generalizing tr with
  | zero => exact Socket.ConnectLoop_trace_free s addr e script tr tr'
  | succ k ih =>
    rw [List.replicate_succ, List.cons_append]
    simp only [Socket.ConnectLoop, SocketError.Interrupted, World.step, interruptedRes, if_true,
      beq_self_eq_true, Bool.not_true, Bool.false_eq_true, if_false]
    exact ih _

theorem Socket.ConnectLoop_final (s : Socket) (addr : SocketAddress) (e : Option Error)
    (x : SysRes) (rest : List SysRes) (tr : List Event)
    (hx : ¬ (x.ret = SOCKET_ERROR ∧ x.errno = EINTR)) :
    (Socket.ConnectLoop s addr e (x :: rest) tr).isSome = true := by
  by_cases h1 : x.ret = SOCKET_ERROR
  · have h2 : ¬ x.errno = EINTR := fun h => hx ⟨h1, h⟩
    simp [Socket.ConnectLoop, SocketError.Interrupted, World.step, h1, h2]
  · simp [Socket.ConnectLoop, h1]

theorem storeAt_nothing (p : List Nat) (n : Nat) : storeAt p (List.take n []) = p := by
  simp [storeAt]

theorem Socket.ReceiveLoop_trace_free (s : Socket) (n : Nat) (flags : Int) (e : Option Error) :
    ∀ (script : List SysRes) (p : List Nat) (tr tr' : List Event),
      (Socket.ReceiveLoop s n flags e p script tr).map Res.observed
        = (Socket.ReceiveLoop s n flags e p script tr').map Res.observed := by
  intro script
  induction script with
  | nil => intro p tr tr'; rfl
  | cons x rest ih =>
    intro p tr tr'
    by_cases h1 : x.ret = SOCKET_ERROR
    · by_cases h2 : x.errno = EINTR
      · simp only [Socket.ReceiveLoop, SocketError.Interrupted, World.step, h1, h2, if_true,
          beq_self_eq_true, Bool.not_true, Bool.false_eq_true, if_false]
        exact ih _ _ _
      · simp [Socket.ReceiveLoop, SocketError.Interrupted, World.step, h1, h2, Res.observed,
          SET_SOCKET_ERROR]
    · simp [Socket.ReceiveLoop, h1, Res.observed, World.step]

theorem Socket.ReceiveLoop_skip (s : Socket) (n : Nat) (flags : Int) (e : Option Error) (p : List Nat)
    (k : Nat) (script : List SysRes) (tr tr' : List Event) :
    (Socket.ReceiveLoop s n flags e p (List.replicate k interruptedRes ++ script) tr).map Res.observed
      = (Socket.ReceiveLoop s n flags e p script tr').map Res.observed := by
  induction k generalizing tr with
  | zero => exact Socket.ReceiveLoop_trace_free s n flags e script p tr tr'
  | succ k ih =>
    rw [List.replicate_succ, List.cons_append]
    simp only [Socket.ReceiveLoop, SocketError.Interrupted, World.step, interruptedRes, if_true,
      beq_self_eq_true, Bool.not_true, Bool.false_eq_true, if_false, storeAt_nothing]
    exact ih _

theorem Socket.ReceiveLoop_final (s : Socket) (n : Nat) (flags : Int) (e : Option Error) (p : List Nat)
    (x : SysRes) (rest : List SysRes) (tr : List Event)
    (hx : ¬ (x.ret = SOCKET_ERROR ∧ x.errno = EINTR)) :
    (Socket.ReceiveLoop s n flags e p (x :: rest) tr).isSome = true := by
  by_cases h1 : x.ret = SOCKET_ERROR
  · have h2 : ¬ x.errno = EINTR := fun h => hx ⟨h1, h⟩
    simp [Socket.ReceiveLoop, SocketError.Interrupted, World.step, h1, h2]
  · simp [Socket.ReceiveLoop, h1]

/-- C4: an interrupted system call is never observable.  When the underlying
call fails with "interrupted" `k` times and then yields `x`, each of
`Socket::Send`, `Socket::Receive`, `Socket::Accept` and `Socket::Connect`
returns the value and the error output (and leaves the pending outcomes and
`errno`) it would have produced had the call yielded `x` at once; and when `x`
is not itself an interruption each of them does return. -/
theorem interrupted_syscalls_are_not_observable (s : Socket) (k : Nat) (x : SysRes)
    (rest : List SysRes) (e : Option Error) (en en' : Int) (tr tr' : List Event)
    (p : List Nat) (n : Nat) (flags : Int) (addr : SocketAddress) :
    ((Socket.Send s p n flags e
        { script := List.replicate k interruptedRes ++ x :: rest, errno := en, trace := tr }).map Res.observed
      = (Socket.Send s p n flags e { script := x :: rest, errno := en', trace := tr' }).map Res.observed) ∧
    ((Socket.Receive s p n flags e
        { script := List.replicate k interruptedRes ++ x :: rest, errno := en, trace := tr }).map Res.observed
      = (Socket.Receive s p n flags e { script := x :: rest, errno := en', trace := tr' }).map Res.observed) ∧
    ((Socket.Accept s e
        { script := List.replicate k interruptedRes ++ x :: rest, errno := en, trace := tr }).map Res.observed
      = (Socket.Accept s e { script := x :: rest, errno := en', trace := tr' }).map Res.observed) ∧
    ((Socket.Connect s addr e
        { script := List.replicate k interruptedRes ++ x :: rest, errno := en, trace := tr }).map Res.observed
      = (Socket.Connect s addr e { script := x :: rest, errno := en', trace := tr' }).map Res.observed) ∧
    (¬ (x.ret = SOCKET_ERROR ∧ x.errno = EINTR) →
      (Socket.Send s p n flags e
        { script := List.replicate k interruptedRes ++ x :: rest, errno := en, trace := tr }).isSome = true ∧
      (Socket.Receive s p n flags e
        { script := List.replicate k interruptedRes ++ x :: rest, errno := en, trace := tr }).isSome = true ∧
      (Socket.Accept s e
        { script := List.replicate k interruptedRes ++ x :: rest, errno := en, trace := tr }).isSome = true ∧
      (Socket.Connect s addr e
        { script := List.replicate k interruptedRes ++ x :: rest, errno := en, trace := tr }).isSome = true) := by
  have hs := Socket.SendLoop_skip s p n flags e k (x :: rest) tr tr'
  have hr := Socket.ReceiveLoop_skip s n flags e p k (x :: rest) tr tr'
  have ha := Socket.AcceptLoop_skip s e k (x :: rest) tr tr'
  have hc := Socket.ConnectLoop_skip s addr e k (x :: rest) tr tr'
  refine ⟨hs, hr, ha, hc, ?_⟩
  intro hx
  have some_of : ∀ {α β : Type} (f : α → β) (a b : Option α),
      a.map f = b.map f → b.isSome = true → a.isSome = true := by
    intro α β f a b h hb
    cases a with
    | none => cases b with
      | none => exact hb
      | some v => simp at h
    | some v => rfl
  exact ⟨some_of _ _ _ hs (Socket.SendLoop_final s p n flags e x rest tr' hx),
    some_of _ _ _ hr (Socket.ReceiveLoop_final s n flags e p x rest tr' hx),
    some_of _ _ _ ha (Socket.AcceptLoop_final s e x rest tr' hx),
    some_of _ _ _ hc (Socket.ConnectLoop_final s addr e x rest tr' hx)⟩
/-! ## Timeout-bounded transfers -/

theorem nonblock_bit_set (x : Int) : Int.testBit (Int.lor x O_NONBLOCK) 11 = true := by
  rw [Int.testBit_lor]
  have : Int.testBit O_NONBLOCK 11 = true := by decide
  simp [this]

theorem SocketSelector.Select_wait_shape (fd events timeout : Int) (e : Option Error) (w : World)
    (r : Res Int) (h : SocketSelector.Select fd events timeout e w = some r) :
    ∃ d last, r.world.trace = w.trace ++ d ∧ (∀ ev ∈ d, ev.call = Call.select fd events timeout) ∧
      d.getLast? = some last ∧ (last.ret ≤ 0 → r.val ≤ 0) ∧ (0 < last.ret → 0 < r.val ∧ r.err = e) :=
  SocketSelector.SelectLoop_shape fd events timeout e _ _ r h

theorem single_attempt_of_parts (fd timeout events : Int) (io : Call) (val : Int)
    (w wb wf : World) (g f : SysRes)
    (hb : wb.trace = w.trace ++
      [Event.of (Call.getfl fd) g, Event.of (Call.setfl fd (Int.lor g.ret O_NONBLOCK)) f])
    (hcase :
      (f.ret = SOCKET_ERROR ∧ wf = wb ∧ val = -1) ∨
      (f.ret ≠ SOCKET_ERROR ∧ timeout = 0 ∧
        ∃ tx, wf.trace = wb.trace ++ tx ∧ (∀ ev ∈ tx, ev.call = io) ∧ (completedTransfers tx).length = 1) ∨
      (f.ret ≠ SOCKET_ERROR ∧ 0 < timeout ∧
        ∃ sel last ws, ws.trace = wb.trace ++ sel ∧ (∀ ev ∈ sel, ev.call = Call.select fd events timeout) ∧
          sel.getLast? = some last ∧
          ((last.ret ≤ 0 ∧ wf = ws ∧ val = -1) ∨
           (0 < last.ret ∧ ∃ tx, wf.trace = ws.trace ++ tx ∧ (∀ ev ∈ tx, ev.call = io) ∧
              (completedTransfers tx).length = 1)))) :
    SingleAttempt fd timeout events io (issued w wf) val := by
  rcases hcase with ⟨hf, hw, hv⟩ | ⟨hf, ht0, tx, htx, hio, hc⟩ | ⟨hf, htp, sel, last, ws, hsel, hsc, hl, hrest⟩
  · subst hw
    refine ⟨g, f, [], [], ?_, nonblock_bit_set _, by simp, by simp, by simp [completedTransfers],
      fun _ => ⟨rfl, rfl, hv⟩, fun hne => absurd hf hne, fun hne => absurd hf hne⟩
    rw [issued_of_append w wf _ hb]; simp
  · refine ⟨g, f, [], tx, ?_, nonblock_bit_set _, by simp, hio, by omega,
      fun h => absurd h hf, fun _ h => by omega, fun _ _ => ⟨rfl, hc⟩⟩
    rw [issued_of_append w wf ([Event.of (Call.getfl fd) g,
      Event.of (Call.setfl fd (Int.lor g.ret O_NONBLOCK)) f] ++ [] ++ tx)]
    rw [htx, hb]; simp
  · rcases hrest with ⟨hl0, hw, hv⟩ | ⟨hlp, tx, htx, hio, hc⟩
    · subst hw
      refine ⟨g, f, sel, [], ?_, nonblock_bit_set _, hsc, by simp, by simp [completedTransfers],
        fun h => absurd h hf, fun _ _ => ⟨last, hl, fun _ => ⟨rfl, hv⟩, fun h => by omega⟩,
        fun _ h => by omega⟩
      rw [issued_of_append w wf ([Event.of (Call.getfl fd) g,
        Event.of (Call.setfl fd (Int.lor g.ret O_NONBLOCK)) f] ++ sel ++ [])]
      rw [hsel, hb]; simp
    · refine ⟨g, f, sel, tx, ?_, nonblock_bit_set _, hsc, hio, by omega,
        fun h => absurd h hf, fun _ _ => ⟨last, hl, fun h => by omega, fun _ => hc⟩,
        fun _ h => by omega⟩
      rw [issued_of_append w wf ([Event.of (Call.getfl fd) g,
        Event.of (Call.setfl fd (Int.lor g.ret O_NONBLOCK)) f] ++ sel ++ tx)]
      rw [htx, hsel, hb]; simp
theorem TcpSocket.SendTimeout_single_attempt (s : TcpSocket) (p : List Nat) (n : Nat) (timeout : Int)
    (e : Option Error) (w : World) (ht : 0 ≤ timeout) (r : Res Int)
    (h : TcpSocket.SendTimeout s p n timeout e w = some r) :
    SingleAttempt s._fd timeout SOCKET_EVENT_WRITE (Call.send s._fd (p.take n) 0) (issued w r.world)
      r.val := by
  unfold TcpSocket.SendTimeout at h
  rw [if_neg (by omega)] at h
  cases hb : Socket.Block s.toSocket false e w with
  | none => simp [hb] at h
  | some rb =>
    obtain ⟨g, f, htr, hfail, hok⟩ := Socket.Block_shape _ _ _ _ _ hb
    simp only [Bool.false_eq_true, if_false] at htr
    simp only [hb] at h
    apply single_attempt_of_parts s._fd timeout SOCKET_EVENT_WRITE _ r.val w rb.world r.world g f htr
    by_cases hf : f.ret = SOCKET_ERROR
    · left
      simp only [hfail hf, Bool.not_false, if_true, Option.some.injEq] at h
      subst h
      exact ⟨hf, rfl, rfl⟩
    · right
      have hv := (hok hf).1
      simp only [hv, Bool.not_true, Bool.false_eq_true, if_false] at h
      by_cases htp : 0 < timeout
      · right
        rw [if_pos htp] at h
        unfold Socket.WaitForWrite at h
        cases hs : SocketSelector.Select s._fd SOCKET_EVENT_WRITE timeout rb.err rb.world with
        | none => simp [hs] at h
        | some rs =>
          obtain ⟨sel, last, hsel, hsc, hl, hle, hpos⟩ := SocketSelector.Select_wait_shape _ _ _ _ _ _ hs
          simp only [hs] at h
          refine ⟨hf, htp, sel, last, rs.world, hsel, hsc, hl, ?_⟩
          by_cases hready : rs.val ≤ 0
          · left
            simp only [hready, if_true, Bool.not_false, Option.some.injEq] at h
            subst h
            refine ⟨?_, rfl, rfl⟩
            by_contra hc
            exact absurd (hpos (by omega)).1 (by omega)
          · right
            simp only [hready, if_false, Bool.not_true, Bool.false_eq_true] at h
            obtain ⟨tx, htx, hio, hc, _⟩ := Socket.SendLoop_shape _ _ _ _ _ _ _ _ h
            refine ⟨?_, tx, htx, hio, hc⟩
            by_contra hc'
            exact hready (hle (by omega))
      · left
        rw [if_neg htp] at h
        obtain ⟨tx, htx, hio, hc, _⟩ := Socket.SendLoop_shape _ _ _ _ _ _ _ _ h
        exact ⟨hf, by omega, tx, htx, hio, hc⟩

theorem TcpSocket.ReceiveTimeout_single_attempt (s : TcpSocket) (p : List Nat) (n : Nat) (timeout : Int)
    (e : Option Error) (w : World) (ht : 0 ≤ timeout) (r : Res (Int × List Nat))
    (h : TcpSocket.ReceiveTimeout s p n timeout e w = some r) :
    SingleAttempt s._fd timeout SOCKET_EVENT_READ (Call.recv s._fd n 0) (issued w r.world)
      r.val.1 := by
  unfold TcpSocket.ReceiveTimeout at h
  rw [if_neg (by omega)] at h
  cases hb : Socket.Block s.toSocket false e w with
  | none => simp [hb] at h
  | some rb =>
    obtain ⟨g, f, htr, hfail, hok⟩ := Socket.Block_shape _ _ _ _ _ hb
    simp only [Bool.false_eq_true, if_false] at htr
    simp only [hb] at h
    apply single_attempt_of_parts s._fd timeout SOCKET_EVENT_READ _ r.val.1 w rb.world r.world g f htr
    by_cases hf : f.ret = SOCKET_ERROR
    · left
      simp only [hfail hf, Bool.not_false, if_true, Option.some.injEq] at h
      subst h
      exact ⟨hf, rfl, rfl⟩
    · right
      have hv := (hok hf).1
      simp only [hv, Bool.not_true, Bool.false_eq_true, if_false] at h
      by_cases htp : 0 < timeout
      · right
        rw [if_pos htp] at h
        unfold Socket.WaitForRead at h
        cases hs : SocketSelector.Select s._fd SOCKET_EVENT_READ timeout rb.err rb.world with
        | none => simp [hs] at h
        | some rs =>
          obtain ⟨sel, last, hsel, hsc, hl, hle, hpos⟩ := SocketSelector.Select_wait_shape _ _ _ _ _ _ hs
          simp only [hs] at h
          refine ⟨hf, htp, sel, last, rs.world, hsel, hsc, hl, ?_⟩
          by_cases hready : rs.val ≤ 0
          · left
            simp only [hready, if_true, Bool.not_false, Option.some.injEq] at h
            subst h
            refine ⟨?_, rfl, rfl⟩
            by_contra hc
            exact absurd (hpos (by omega)).1 (by omega)
          · right
            simp only [hready, if_false, Bool.not_true, Bool.false_eq_true] at h
            obtain ⟨tx, htx, hio, hc, _⟩ := Socket.ReceiveLoop_shape _ _ _ _ _ _ _ _ h
            refine ⟨?_, tx, htx, hio, hc⟩
            by_contra hc'
            exact hready (hle (by omega))
      · left
        rw [if_neg htp] at h
        obtain ⟨tx, htx, hio, hc, _⟩ := Socket.ReceiveLoop_shape _ _ _ _ _ _ _ _ h
        exact ⟨hf, by omega, tx, htx, hio, hc⟩

/-! ## Enough pending outcomes give a result -/

theorem Socket.Block_returns (s : Socket) (block : Bool) (e : Option Error) (w : World)
    (a b : SysRes) (rest : List SysRes) (hs : w.script = a :: b :: rest) :
    ∃ rb, Socket.Block s block e w = some rb ∧ rb.world.script = rest := by
  simp only [Socket.Block, syscall, World.step, hs]
  split
  · exact ⟨_, rfl, rfl⟩
  · exact ⟨_, rfl, rfl⟩

theorem SocketSelector.Select_returns (fd events timeout : Int) (e : Option Error) (w : World)
    (c : SysRes) (rest : List SysRes) (hs : w.script = c :: rest) (hc : c.errno ≠ EINTR) :
    ∃ rs, SocketSelector.Select fd events timeout e w = some rs ∧ rs.world.script = rest := by
  simp only [SocketSelector.Select, SocketSelector.SelectLoop, SocketError.Interrupted, World.step, hs]
  split
  · simp [hc]
  · exact ⟨_, rfl, rfl⟩

theorem Socket.WaitForWrite_returns (s : Socket) (timeout : Int) (e : Option Error) (w : World)
    (c : SysRes) (rest : List SysRes) (hs : w.script = c :: rest) (hc : c.errno ≠ EINTR) :
    ∃ rw, Socket.WaitForWrite s timeout e w = some rw ∧ rw.world.script = rest := by
  obtain ⟨rs, hsel, hss⟩ := SocketSelector.Select_returns s._fd SOCKET_EVENT_WRITE timeout e w c rest hs hc
  unfold Socket.WaitForWrite
  rw [hsel]
  simp only
  split
  · exact ⟨_, rfl, hss⟩
  · exact ⟨_, rfl, hss⟩

theorem Socket.WaitForRead_returns (s : Socket) (timeout : Int) (e : Option Error) (w : World)
    (c : SysRes) (rest : List SysRes) (hs : w.script = c :: rest) (hc : c.errno ≠ EINTR) :
    ∃ rw, Socket.WaitForRead s timeout e w = some rw ∧ rw.world.script = rest := by
  obtain ⟨rs, hsel, hss⟩ := SocketSelector.Select_returns s._fd SOCKET_EVENT_READ timeout e w c rest hs hc
  unfold Socket.WaitForRead
  rw [hsel]
  simp only
  split
  · exact ⟨_, rfl, hss⟩
  · exact ⟨_, rfl, hss⟩

theorem Socket.Send_returns (s : Socket) (p : List Nat) (n : Nat) (flags : Int) (e : Option Error)
    (w : World) (c : SysRes) (rest : List SysRes) (hs : w.script = c :: rest) (hc : c.errno ≠ EINTR) :
    (Socket.Send s p n flags e w).isSome = true := by
  unfold Socket.Send
  rw [hs]
  exact Socket.SendLoop_final s p n flags e c rest w.trace (fun h => hc h.2)

theorem Socket.Receive_returns (s : Socket) (p : List Nat) (n : Nat) (flags : Int) (e : Option Error)
    (w : World) (c : SysRes) (rest : List SysRes) (hs : w.script = c :: rest) (hc : c.errno ≠ EINTR) :
    (Socket.Receive s p n flags e w).isSome = true := by
  unfold Socket.Receive
  rw [hs]
  exact Socket.ReceiveLoop_final s n flags e p c rest w.trace (fun h => hc h.2)

theorem TcpSocket.SendTimeout_returns (s : TcpSocket) (p : List Nat) (n : Nat) (timeout : Int)
    (e : Option Error) (w : World) (ht : 0 ≤ timeout) (hlen : 4 ≤ w.script.length)
    (hno : ∀ x ∈ w.script, x.errno ≠ EINTR) :
    (TcpSocket.SendTimeout s p n timeout e w).isSome = true := by
  match hscr : w.script, hlen with
  | a :: b :: c :: d :: rest, _ =>
    have hc : c.errno ≠ EINTR := hno c (by simp [hscr])
    have hd : d.errno ≠ EINTR := hno d (by simp [hscr])
    obtain ⟨rb, hb, hbs⟩ := Socket.Block_returns s.toSocket false e w a b (c :: d :: rest) hscr
    unfold TcpSocket.SendTimeout
    rw [if_neg (by omega), hb]
    simp only
    split
    · rfl
    · split
      · obtain ⟨rw, hw, hws⟩ := Socket.WaitForWrite_returns s.toSocket timeout rb.err rb.world c
          (d :: rest) hbs hc
        rw [hw]
        simp only
        split
        · rfl
        · exact Socket.Send_returns _ _ _ _ _ _ d rest hws hd
      · exact Socket.Send_returns _ _ _ _ _ _ c (d :: rest) hbs hc

theorem TcpSocket.ReceiveTimeout_returns (s : TcpSocket) (p : List Nat) (n : Nat) (timeout : Int)
    (e : Option Error) (w : World) (ht : 0 ≤ timeout) (hlen : 4 ≤ w.script.length)
    (hno : ∀ x ∈ w.script, x.errno ≠ EINTR) :
    (TcpSocket.ReceiveTimeout s p n timeout e w).isSome = true := by
  match hscr : w.script, hlen with
  | a :: b :: c :: d :: rest, _ =>
    have hc : c.errno ≠ EINTR := hno c (by simp [hscr])
    have hd : d.errno ≠ EINTR := hno d (by simp [hscr])
    obtain ⟨rb, hb, hbs⟩ := Socket.Block_returns s.toSocket false e w a b (c :: d :: rest) hscr
    unfold TcpSocket.ReceiveTimeout
    rw [if_neg (by omega), hb]
    simp only
    split
    · rfl
    · split
      · obtain ⟨rw, hw, hws⟩ := Socket.WaitForRead_returns s.toSocket timeout rb.err rb.world c
          (d :: rest) hbs hc
        rw [hw]
        simp only
        split
        · rfl
        · exact Socket.Receive_returns _ _ _ _ _ _ d rest hws hd
      · exact Socket.Receive_returns _ _ _ _ _ _ c (d :: rest) hbs hc

/-- C6 (as amended): for every timeout >= 0 the timeout-bounded pointer-level
send and receive first issue the switch to non-blocking mode; when that switch
fails they return -1 and issue neither a wait nor a transfer; otherwise a
readiness wait (write-readiness for send, read-readiness for receive) precedes
the transfer exactly when the timeout is positive, a wait that does not report
ready gives -1 without any transfer, and in every other case (in particular
for timeout 0, without a wait) exactly one transfer call runs to an outcome
other than "interrupted".  Both calls return whenever four outcomes, none of
them an interruption, are pending. -/
theorem timeout_transfer_is_single_attempt (s : TcpSocket) (p : List Nat) (n : Nat) (timeout : Int)
    (e : Option Error) (w : World) (ht : 0 ≤ timeout) :
    (∀ r : Res Int, TcpSocket.SendTimeout s p n timeout e w = some r →
      SingleAttempt s._fd timeout SOCKET_EVENT_WRITE (Call.send s._fd (p.take n) 0)
        (issued w r.world) r.val) ∧
    (∀ r : Res (Int × List Nat), TcpSocket.ReceiveTimeout s p n timeout e w = some r →
      SingleAttempt s._fd timeout SOCKET_EVENT_READ (Call.recv s._fd n 0)
        (issued w r.world) r.val.1) ∧
    ((∀ x ∈ w.script, x.errno ≠ EINTR) → 4 ≤ w.script.length →
      (TcpSocket.SendTimeout s p n timeout e w).isSome = true ∧
      (TcpSocket.ReceiveTimeout s p n timeout e w).isSome = true) :=
  ⟨TcpSocket.SendTimeout_single_attempt s p n timeout e w ht,
   TcpSocket.ReceiveTimeout_single_attempt s p n timeout e w ht,
   fun hno hlen => ⟨TcpSocket.SendTimeout_returns s p n timeout e w ht hlen hno,
     TcpSocket.ReceiveTimeout_returns s p n timeout e w ht hlen hno⟩⟩

/-- C6 (counterexample): with timeout 0, on a socket that was never opened, the
switch to non-blocking mode fails and the send returns -1 although no transfer
call was issued: the outcome the kernel held for it is still pending. -/
theorem timeout_zero_transfer_not_made :
    (TcpSocket.SendTimeout unopenedSocket [1, 2, 3] 3 0 (some Error.new)
        { script := [badfRes, badfRes, ⟨3, 0, []⟩], errno := 0, trace := [] }).map
        (fun r => (r.val, r.world.trace.filter (fun ev => ev.call.isTransfer), r.world.script))
      = some (-1, [], [⟨3, 0, []⟩]) := by
  decide
/-- C5 (the code at the failing input): a non-blocking send or receive that
fails with "would block" is returned by the timeout-bounded calls as -1 with a
socket error recorded, not as 0 with the error output unset. -/
theorem would_block_is_reported_as_error :
    (TcpSocket.SendTimeout sampleSocket [1, 2, 3] 3 0 (some Error.new)
        { script := [okRes, okRes, ⟨-1, EWOULDBLOCK, []⟩], errno := 0, trace := [] }).map
        (fun r => (r.val, r.err.map Error.Class, r.err.map (fun er => er._code)))
      = some (-1, some ErrorClassId.SocketError, some EWOULDBLOCK) ∧
    (TcpSocket.ReceiveTimeout sampleSocket [0, 0, 0] 3 0 (some Error.new)
        { script := [okRes, okRes, ⟨-1, EWOULDBLOCK, []⟩], errno := 0, trace := [] }).map
        (fun r => (r.val.1, r.err.map Error.Class, r.err.map (fun er => er._code)))
      = some (-1, some ErrorClassId.SocketError, some EWOULDBLOCK) := by
  decide

/-- C6 at a sample input: timeout 5, one wait that reports ready, one send. -/
theorem timeout_transfer_is_single_attempt_witness :
    (0 : Int) ≤ 5 ∧
    TcpSocket.SendTimeout sampleSocket [1, 2, 3] 3 5 (some Error.new)
        { script := [okRes, okRes, readyRes, ⟨3, 0, []⟩], errno := 0, trace := [] }
      = some { val := 3, err := some Error.new,
               world := { script := [], errno := 0,
                          trace := [Event.of (Call.getfl 3) okRes,
                                    Event.of (Call.setfl 3 (Int.lor 0 O_NONBLOCK)) okRes,
                                    Event.of (Call.select 3 SOCKET_EVENT_WRITE 5) readyRes,
                                    Event.of (Call.send 3 [1, 2, 3] 0) ⟨3, 0, []⟩] } } ∧
    SingleAttempt 3 5 SOCKET_EVENT_WRITE (Call.send 3 [1, 2, 3] 0)
      [Event.of (Call.getfl 3) okRes, Event.of (Call.setfl 3 (Int.lor 0 O_NONBLOCK)) okRes,
       Event.of (Call.select 3 SOCKET_EVENT_WRITE 5) readyRes,
       Event.of (Call.send 3 [1, 2, 3] 0) ⟨3, 0, []⟩] 3 :=
  ⟨by decide, rfl,
   (timeout_transfer_is_single_attempt sampleSocket [1, 2, 3] 3 5 (some Error.new)
      { script := [okRes, okRes, readyRes, ⟨3, 0, []⟩], errno := 0, trace := [] } (by decide)).1
      { val := 3, err := some Error.new,
        world := { script := [], errno := 0,
                   trace := [Event.of (Call.getfl 3) okRes,
                             Event.of (Call.setfl 3 (Int.lor 0 O_NONBLOCK)) okRes,
                             Event.of (Call.select 3 SOCKET_EVENT_WRITE 5) readyRes,
                             Event.of (Call.send 3 [1, 2, 3] 0) ⟨3, 0, []⟩] } } rfl⟩

/-! ## Connect -/

theorem Issues.refl (P : Event → Prop) (w : World) : Issues P w w :=
  ⟨[], by simp, by simp⟩

theorem Issues.trans {P : Event → Prop} {w1 w2 w3 : World} (h1 : Issues P w1 w2)
    (h2 : Issues P w2 w3) : Issues P w1 w3 := by
  obtain ⟨d1, e1, p1⟩ := h1
  obtain ⟨d2, e2, p2⟩ := h2
  refine ⟨d1 ++ d2, by rw [e2, e1, List.append_assoc], ?_⟩
  intro ev hev
  rcases List.mem_append.mp hev with h | h
  · exact p1 ev h
  · exact p2 ev h

theorem Issues.of_syscall {P : Event → Prop} {c : Call} {w w1 : World} {r : SysRes}
    (h : syscall c w = some (r, w1)) (hp : P (Event.of c r)) : Issues P w w1 := by
  unfold syscall at h
  cases hs : w.script with
  | nil => simp [hs] at h
  | cons x rest =>
    simp only [hs, Option.some.injEq, Prod.mk.injEq] at h
    obtain ⟨rfl, rfl⟩ := h
    exact ⟨[Event.of c x], rfl, by simpa using hp⟩

theorem Issues.issued {P : Event → Prop} {w w' : World} (h : Issues P w w') :
    ∀ ev ∈ issued w w', P ev := by
  obtain ⟨d, hd, hp⟩ := h
  rw [issued_of_append w w' d hd]
  exact hp

theorem block_bit_clear (x : Int) : Int.testBit (Int.land x (Int.lnot O_NONBLOCK)) 11 = false := by
  rw [Int.testBit_land, Int.testBit_lnot]
  have : Int.testBit O_NONBLOCK 11 = true := by decide
  simp [this]

theorem prelim_of_call (block : Bool) (c : Call) (r : SysRes) (h1 : c.isSelect = false)
    (h2 : c.isConnect = false) (h3 : ∀ fd flags, c ≠ Call.setfl fd flags) :
    Prelim block (Event.of c r) :=
  ⟨h1, h2, fun fd flags h => absurd h (h3 fd flags)⟩

theorem CloseSocket_prelim (block : Bool) (fd : Int) (e : Option Error) (w : World)
    (r : Res (Bool × Int)) (h : CloseSocket fd e w = some r) : Issues (Prelim block) w r.world := by
  unfold CloseSocket at h
  cases hs : syscall (Call.close fd) w with
  | none => simp [hs] at h
  | some v =>
    obtain ⟨x, w1⟩ := v
    have hi : Issues (Prelim block) w w1 :=
      Issues.of_syscall hs (prelim_of_call block _ _ rfl rfl (by intro fd flags h; cases h))
    simp only [hs] at h
    split at h <;> simp only [Option.some.injEq] at h <;> subst h <;> exact hi

theorem Socket.Close_prelim (block : Bool) (s : Socket) (e : Option Error) (w : World)
    (r : Res (Bool × Socket)) (h : Socket.Close s e w = some r) : Issues (Prelim block) w r.world := by
  unfold Socket.Close at h
  split at h
  · simp only [Option.some.injEq] at h; subst h; exact Issues.refl _ _
  · cases hc : CloseSocket s._fd e w with
    | none => simp [hc] at h
    | some rc =>
      simp only [hc, Option.some.injEq] at h
      subst h
      exact CloseSocket_prelim block _ _ _ _ hc

theorem Socket.InitSocket_prelim (block : Bool) (s : Socket) (domain type protocol : Int)
    (e : Option Error) (w : World) (r : Res (Bool × Socket))
    (h : Socket.InitSocket s domain type protocol e w = some r) :
    Issues (Prelim block) w r.world ∧ (r.val.1 = true → r.err = e) := by
  unfold Socket.InitSocket at h
  cases hs : syscall (Call.socket domain type protocol) w with
  | none => simp [hs] at h
  | some v =>
    obtain ⟨x, w1⟩ := v
    have hi : Issues (Prelim block) w w1 :=
      Issues.of_syscall hs (prelim_of_call block _ _ rfl rfl (by intro fd flags h; cases h))
    simp only [hs] at h
    split at h <;> simp only [Option.some.injEq] at h <;> subst h
    · exact ⟨hi, fun hv => by simp at hv⟩
    · exact ⟨hi, fun _ => rfl⟩

theorem Socket.Create_prelim (block : Bool) (s : Socket) (domain type protocol : Int)
    (e : Option Error) (w : World) (r : Res (Bool × Socket))
    (h : Socket.Create s domain type protocol e w = some r) :
    Issues (Prelim block) w r.world ∧ (r.val.1 = true → r.err = e) := by
  unfold Socket.Create at h
  split at h
  · cases hc : Socket.Close s none w with
    | none => simp [hc] at h
    | some rc =>
      simp only [hc] at h
      obtain ⟨hi, he⟩ := Socket.InitSocket_prelim block _ _ _ _ _ _ _ h
      exact ⟨(Socket.Close_prelim block _ _ _ _ hc).trans hi, he⟩
  · exact Socket.InitSocket_prelim block _ _ _ _ _ _ _ h

theorem Socket.Bind_prelim (block : Bool) (s : Socket) (addr : SocketAddress)
    (e : Option Error) (w : World) (r : Res Bool) (h : Socket.Bind s addr e w = some r) :
    Issues (Prelim block) w r.world ∧ (r.val = true → r.err = e) := by
  unfold Socket.Bind at h
  cases hs : syscall (Call.bind s._fd addr) w with
  | none => simp [hs] at h
  | some v =>
    obtain ⟨x, w1⟩ := v
    have hi : Issues (Prelim block) w w1 :=
      Issues.of_syscall hs (prelim_of_call block _ _ rfl rfl (by intro fd flags h; cases h))
    simp only [hs] at h
    split at h <;> simp only [Option.some.injEq] at h <;> subst h
    · exact ⟨hi, fun hv => by simp at hv⟩
    · exact ⟨hi, fun _ => rfl⟩

theorem Socket.Block_prelim (block : Bool) (s : Socket) (e : Option Error) (w : World)
    (r : Res Bool) (h : Socket.Block s block e w = some r) :
    Issues (Prelim block) w r.world ∧ (r.val = true → r.err = e) := by
  obtain ⟨g, f, htr, _, _⟩ := Socket.Block_shape s block e w r h
  refine ⟨⟨_, htr, ?_⟩, Socket.Block_ok s block e w r h⟩
  intro ev hev
  simp only [List.mem_cons, List.mem_singleton, List.not_mem_nil, or_false] at hev
  rcases hev with rfl | rfl
  · exact prelim_of_call block _ _ rfl rfl (by intro fd flags h; cases h)
  · refine ⟨rfl, rfl, ?_⟩
    intro fd flags hcall
    simp only [Event.of, Call.setfl.injEq] at hcall
    obtain ⟨_, rfl⟩ := hcall
    cases block
    · simpa using nonblock_bit_set g.ret
    · simpa using block_bit_clear g.ret
theorem Socket.ConnectLoop_shape (s : Socket) (addr : SocketAddress) (e : Option Error) :
    ∀ (script : List SysRes) (tr : List Event) (r : Res Bool),
      Socket.ConnectLoop s addr e script tr = some r →
      ∃ dc last, r.world.trace = tr ++ dc ∧ (∀ ev ∈ dc, ev.call = Call.connect s._fd addr) ∧
        dc.getLast? = some last ∧ r.world.errno = last.errno ∧
        (last.ret ≠ SOCKET_ERROR → r.val = true ∧ r.err = e) ∧
        (last.ret = SOCKET_ERROR → r.val = false ∧
          r.err = SET_SOCKET_ERROR e ("Socket::Connect [" ++ toString s._fd ++ "]") r.world) := by
  intro script
  induction script with
  | nil => intro tr r h; simp [Socket.ConnectLoop] at h
  | cons x rest ih =>
    intro tr r h
    simp only [Socket.ConnectLoop] at h
    split at h
    · split at h
      · simp only [Option.some.injEq] at h
        subst h
        rename_i h1 h2
        exact ⟨[Event.of (Call.connect s._fd addr) x], Event.of (Call.connect s._fd addr) x, rfl,
          by simp [Event.of], rfl, rfl, fun hne => absurd h1 hne, fun _ => ⟨rfl, rfl⟩⟩
      · obtain ⟨dc, last, hd1, hd2, hd3, hd4, hd5, hd6⟩ := ih _ r h
        refine ⟨Event.of (Call.connect s._fd addr) x :: dc, last, ?_, ?_, ?_, hd4, hd5, hd6⟩
        · rw [hd1]; simp [World.step]
        · intro ev hev
          rcases List.mem_cons.mp hev with rfl | hm
          · rfl
          · exact hd2 ev hm
        · cases dc with
          | nil => simp at hd3
          | cons a d' => simpa [List.getLast?_cons_cons] using hd3
    · simp only [Option.some.injEq] at h
      subst h
      rename_i h1
      exact ⟨[Event.of (Call.connect s._fd addr) x], Event.of (Call.connect s._fd addr) x, rfl,
        by simp [Event.of], rfl, rfl, fun _ => ⟨rfl, rfl⟩, fun heq => absurd heq h1⟩

theorem TcpSocket.DoConnect_cases (s : TcpSocket) (addr : SocketAddress) (block : Bool)
    (e : Option Error) (w : World) (r : Res (Bool × TcpSocket))
    (h : TcpSocket.DoConnect s addr block e w = some r) :
    (r.val.1 = false ∧ Issues (Prelim block) w r.world) ∨
    (∃ wp dc last, Issues (Prelim block) w wp ∧ r.world.trace = wp.trace ++ dc ∧
      (∀ ev ∈ dc, ev.call = Call.connect r.val.2._fd addr) ∧
      dc.getLast? = some last ∧ r.world.errno = last.errno ∧
      (last.ret ≠ SOCKET_ERROR → r.val.1 = true ∧ r.err = e) ∧
      (last.ret = SOCKET_ERROR → r.val.1 = false ∧
        r.err = SET_SOCKET_ERROR e ("Socket::Connect [" ++ toString r.val.2._fd ++ "]") r.world)) := by
  unfold TcpSocket.DoConnect at h
  -- step 1: create
  have step1 : ∀ r1 : Res (Bool × Socket),
      (if !s.toSocket.Valid then
         Socket.Create s.toSocket (if s._address.Empty then addr.Family else s._address.Family)
           SOCK_STREAM IPPROTO_TCP e w
       else some { val := (true, s.toSocket), err := e, world := w }) = some r1 →
      Issues (Prelim block) w r1.world ∧ (r1.val.1 = true → r1.err = e) := by
    intro r1 h1
    split at h1
    · exact Socket.Create_prelim block _ _ _ _ _ _ _ h1
    · simp only [Option.some.injEq] at h1; subst h1
      exact ⟨Issues.refl _ _, fun _ => rfl⟩
  split at h
  · exact absurd h (by simp)
  · rename_i r1 hr1
    obtain ⟨hi1, he1⟩ := step1 r1 hr1
    simp only at h
    split at h
    · simp only [Option.some.injEq] at h; subst h
      exact Or.inl ⟨rfl, hi1⟩
    · rename_i hv1
      have hv1' : r1.val.1 = true := by simpa using hv1
      have he1' := he1 hv1'
      -- step 2: bind
      have step2 : ∀ r2 : Res Bool,
          (if (!s._address.Empty && !s._address.Any) = true then
             Socket.Bind r1.val.2 s._address r1.err r1.world
           else some { val := true, err := r1.err, world := r1.world }) = some r2 →
          Issues (Prelim block) r1.world r2.world ∧ (r2.val = true → r2.err = r1.err) := by
        intro r2 h2
        split at h2
        · exact Socket.Bind_prelim block _ _ _ _ _ h2
        · simp only [Option.some.injEq] at h2; subst h2
          exact ⟨Issues.refl _ _, fun _ => rfl⟩
      split at h
      · exact absurd h (by simp)
      · rename_i r2 hr2
        obtain ⟨hi2, he2⟩ := step2 r2 hr2
        split at h
        · simp only [Option.some.injEq] at h; subst h
          exact Or.inl ⟨rfl, hi1.trans hi2⟩
        · rename_i hv2
          have hv2' : r2.val = true := by simpa using hv2
          have he2' := he2 hv2'
          split at h
          · exact absurd h (by simp)
          · rename_i r3 hr3
            obtain ⟨hi3, he3⟩ := Socket.Block_prelim block _ _ _ _ hr3
            split at h
            · simp only [Option.some.injEq] at h; subst h
              exact Or.inl ⟨rfl, (hi1.trans hi2).trans hi3⟩
            · rename_i hv3
              have hv3' : r3.val = true := by simpa using hv3
              have he3' := he3 hv3'
              split at h
              · exact absurd h (by simp)
              · rename_i r4 hr4
                simp only [Option.some.injEq] at h; subst h
                obtain ⟨dc, last, c1, c2, c3, c4, c5, c6⟩ :=
                  Socket.ConnectLoop_shape _ _ _ _ _ _ hr4
                have herr : r3.err = e := by rw [he3', he2', he1']
                rw [herr] at c5 c6
                exact Or.inr ⟨r3.world, dc, last, (hi1.trans hi2).trans hi3, c1, c2, c3, c4, c5, c6⟩
theorem TcpSocket.DoConnect_trace (s : TcpSocket) (addr : SocketAddress) (block : Bool)
    (e : Option Error) (w : World) (r : Res (Bool × TcpSocket))
    (h : TcpSocket.DoConnect s addr block e w = some r) :
    (∀ ev ∈ issued w r.world, ev.call.isSelect = false) ∧
    (∀ ev ∈ issued w r.world, ∀ fd flags, ev.call = Call.setfl fd flags →
      Int.testBit flags 11 = !block) ∧
    (∀ last, (issued w r.world).getLast? = some last → last.call.isConnect = true →
      last.call = Call.connect r.val.2._fd addr ∧ r.world.errno = last.errno ∧
      (last.ret ≠ SOCKET_ERROR → r.val.1 = true ∧ r.err = e) ∧
      (last.ret = SOCKET_ERROR → r.val.1 = false ∧
        r.err = SET_SOCKET_ERROR e ("Socket::Connect [" ++ toString r.val.2._fd ++ "]") r.world)) ∧
    (r.val.1 = true → ∃ last, (issued w r.world).getLast? = some last ∧
      last.call = Call.connect r.val.2._fd addr ∧ last.ret ≠ SOCKET_ERROR) := by
  rcases TcpSocket.DoConnect_cases s addr block e w r h with ⟨hv, hi⟩ | ⟨wp, dc, last, hi, htr, hdc, hl, hen, hok, hfail⟩
  · have hall := hi.issued
    refine ⟨fun ev hev => (hall ev hev).1, fun ev hev => (hall ev hev).2.2, ?_, ?_⟩
    · intro last hlast hc
      have hm : last ∈ issued w r.world := List.mem_of_getLast?_eq_some hlast
      rw [(hall last hm).2.1] at hc
      exact absurd hc (by decide)
    · intro ht; rw [hv] at ht; exact absurd ht (by decide)
  · obtain ⟨d, hd, hp⟩ := hi
    have hiss : issued w r.world = d ++ dc := by
      apply issued_of_append
      rw [htr, hd, List.append_assoc]
    have hne : dc ≠ [] := by
      intro h0; rw [h0] at hl; simp at hl
    have hlast : (issued w r.world).getLast? = some last := by
      rw [hiss, List.getLast?_append_of_ne_nil _ hne, hl]
    have hlc : last.call = Call.connect r.val.2._fd addr := hdc last (List.mem_of_getLast?_eq_some hl)
    refine ⟨?_, ?_, ?_, ?_⟩
    · intro ev hev
      rw [hiss] at hev
      rcases List.mem_append.mp hev with hm | hm
      · exact (hp ev hm).1
      · rw [hdc ev hm]; rfl
    · intro ev hev fd flags hcall
      rw [hiss] at hev
      rcases List.mem_append.mp hev with hm | hm
      · exact (hp ev hm).2.2 fd flags hcall
      · rw [hdc ev hm] at hcall; cases hcall
    · intro last' hlast' _
      rw [hlast] at hlast'
      simp only [Option.some.injEq] at hlast'
      subst hlast'
      exact ⟨hlc, hen, hok, hfail⟩
    · intro ht
      refine ⟨last, hlast, hlc, ?_⟩
      intro hse
      rw [(hfail hse).1] at ht
      exact absurd ht (by decide)
/-- C7 (the code at the failing input): the non-blocking connect reports "in
progress", the socket becomes writable within the timeout, and the socket has
the pending error "connection refused".  `Connect(addr, 1, e)` returns true
with the error output reset; the calls it issued contain no pending-error
query, and the outcome of such a query is still pending afterwards (a query
made then reports 111, "connection refused"). -/
theorem connect_timeout_skips_pending_error :
    (TcpSocket.ConnectTimeout sampleSocket sampleAddress 1 (some Error.new)
        { script := [okRes, okRes, inProgressRes, readyRes, refusedRes], errno := 0, trace := [] }).map
        (fun r => (r.val.1, r.err, r.world.trace.map (fun ev => ev.call), r.world.script))
      = some (true, some Error.new,
          [Call.getfl 3, Call.setfl 3 2048, Call.connect 3 sampleAddress,
           Call.select 3 SOCKET_EVENT_WRITE 1],
          [refusedRes]) ∧
    (Socket.GetOption sampleSocket.toSocket SOL_SOCKET SO_ERROR none
        { script := [refusedRes], errno := 0, trace := [] }).map (fun r => r.val)
      = some (true, [111]) := by
  decide

/-- C8: for every timeout < 0 the connect with timeout is the blocking connect:
same result, same error output, same world.  It issues no readiness wait,
every mode switch it issues asks for blocking mode (`O_NONBLOCK` cleared),
when it returns true the last call issued is the connect call on the socket,
which succeeded, and whenever the last call issued is the connect call the
result is true exactly when that call succeeded. -/
theorem negative_timeout_connect_is_blocking (s : TcpSocket) (addr : SocketAddress) (timeout : Int)
    (e : Option Error) (w : World) (ht : timeout < 0) :
    TcpSocket.ConnectTimeout s addr timeout e w = TcpSocket.Connect s addr e w ∧
    ∀ r : Res (Bool × TcpSocket), TcpSocket.ConnectTimeout s addr timeout e w = some r →
      (∀ ev ∈ issued w r.world, ev.call.isSelect = false) ∧
      (∀ ev ∈ issued w r.world, ∀ fd flags, ev.call = Call.setfl fd flags →
        Int.testBit flags 11 = false) ∧
      (r.val.1 = true → ∃ last, (issued w r.world).getLast? = some last ∧
        last.call = Call.connect r.val.2._fd addr ∧ last.ret ≠ SOCKET_ERROR) ∧
      (∀ last, (issued w r.world).getLast? = some last → last.call.isConnect = true →
        (last.ret ≠ SOCKET_ERROR → r.val.1 = true ∧ r.err = e) ∧
        (last.ret = SOCKET_ERROR → r.val.1 = false)) := by
  have heq : TcpSocket.ConnectTimeout s addr timeout e w = TcpSocket.Connect s addr e w := by
    unfold TcpSocket.ConnectTimeout
    rw [if_pos ht]
  refine ⟨heq, ?_⟩
  intro r hr
  rw [heq] at hr
  obtain ⟨h1, h2, h3, h4⟩ := TcpSocket.DoConnect_trace s addr true e w r hr
  refine ⟨h1, fun ev hev fd flags hc => by simpa using h2 ev hev fd flags hc, h4, ?_⟩
  intro last hl hc
  obtain ⟨_, _, hok, hfail⟩ := h3 last hl hc
  exact ⟨hok, fun hse => (hfail hse).1⟩

/-- C8 at a sample input: timeout -1 on an open socket, the connect succeeds. -/
theorem negative_timeout_connect_is_blocking_witness :
    (-1 : Int) < 0 ∧
    TcpSocket.ConnectTimeout sampleSocket sampleAddress (-1) (some Error.new)
        { script := [okRes, okRes, okRes], errno := 0, trace := [] }
      = some { val := (true, sampleSocket), err := some Error.new,
               world := { script := [], errno := 0,
                          trace := [Event.of (Call.getfl 3) okRes,
                                    Event.of (Call.setfl 3 (Int.land 0 (Int.lnot O_NONBLOCK))) okRes,
                                    Event.of (Call.connect 3 sampleAddress) okRes] } } ∧
    TcpSocket.ConnectTimeout sampleSocket sampleAddress (-1) (some Error.new)
        { script := [okRes, okRes, okRes], errno := 0, trace := [] }
      = TcpSocket.Connect sampleSocket sampleAddress (some Error.new)
        { script := [okRes, okRes, okRes], errno := 0, trace := [] } :=
  ⟨by decide, rfl,
   (negative_timeout_connect_is_blocking sampleSocket sampleAddress (-1) (some Error.new)
      { script := [okRes, okRes, okRes], errno := 0, trace := [] } (by decide)).1⟩

/-- C9: with timeout 0 the connect with timeout is exactly the non-blocking
connect attempt: same result, same error output, same world.  It issues no
readiness wait; and when the attempt ended with a connect call that reported
"in progress", the result is false and the error output holds the connect
error with code `EINPROGRESS`. -/
theorem zero_timeout_connect_reports_attempt (s : TcpSocket) (addr : SocketAddress)
    (e : Option Error) (w : World) :
    TcpSocket.ConnectTimeout s addr 0 e w = TcpSocket.DoConnect s addr false e w ∧
    ∀ r : Res (Bool × TcpSocket), TcpSocket.ConnectTimeout s addr 0 e w = some r →
      (∀ ev ∈ issued w r.world, ev.call.isSelect = false) ∧
      (∀ last, (issued w r.world).getLast? = some last → last.call.isConnect = true →
        last.ret = SOCKET_ERROR → last.errno = EINPROGRESS →
        r.val.1 = false ∧ r.world.errno = EINPROGRESS ∧
        r.err = SET_SOCKET_ERROR e ("Socket::Connect [" ++ toString r.val.2._fd ++ "]") r.world) := by
  have heq : TcpSocket.ConnectTimeout s addr 0 e w = TcpSocket.DoConnect s addr false e w := by
    unfold TcpSocket.ConnectTimeout
    rw [if_neg (by decide)]
    cases hd : TcpSocket.DoConnect s addr false e w with
    | none => rfl
    | some r =>
      obtain ⟨⟨v, s1⟩, er, w1⟩ := r
      cases v <;> simp
  refine ⟨heq, ?_⟩
  intro r hr
  rw [heq] at hr
  obtain ⟨h1, _, h3, _⟩ := TcpSocket.DoConnect_trace s addr false e w r hr
  refine ⟨h1, ?_⟩
  intro last hl hc hret herrno
  obtain ⟨_, hen, _, hfail⟩ := h3 last hl hc
  exact ⟨(hfail hret).1, by rw [hen, herrno], (hfail hret).2⟩

/-- C10: for timeout > 0, when the non-blocking connect attempt fails and the
failed step left anything other than "in progress", the connect with timeout
returns what the attempt returned (false, the error output of the failed step,
the same world) and no readiness wait is issued. -/
theorem positive_timeout_connect_fails_fast (s : TcpSocket) (addr : SocketAddress) (timeout : Int)
    (e : Option Error) (w : World) (r : Res (Bool × TcpSocket)) (ht : 0 < timeout)
    (h : TcpSocket.DoConnect s addr false e w = some r) (hf : r.val.1 = false)
    (hne : r.world.errno ≠ EINPROGRESS) :
    TcpSocket.ConnectTimeout s addr timeout e w = some r ∧
    ∀ ev ∈ issued w r.world, ev.call.isSelect = false := by
  refine ⟨?_, (TcpSocket.DoConnect_trace s addr false e w r h).1⟩
  unfold TcpSocket.ConnectTimeout
  rw [if_neg (by omega), h]
  obtain ⟨⟨v, s1⟩, er, w1⟩ := r
  simp only at hf hne
  subst hf
  simp [ht, SocketError.InProgress, hne]

/-- C10 at a sample input: timeout 5, the connect call fails with "connection
refused"; no wait follows. -/
theorem positive_timeout_connect_fails_fast_witness :
    (0 : Int) < 5 ∧
    TcpSocket.DoConnect sampleSocket sampleAddress false (some Error.new)
        { script := [okRes, okRes, ⟨-1, ECONNREFUSED, []⟩], errno := 0, trace := [] }
      = some { val := (false, sampleSocket),
               err := some (Error.new.Set ErrorClassId.SocketError
                 ("Socket::Connect [" ++ toString (3 : Int) ++ "]") ECONNREFUSED),
               world := { script := [], errno := ECONNREFUSED,
                          trace := [Event.of (Call.getfl 3) okRes,
                                    Event.of (Call.setfl 3 (Int.lor 0 O_NONBLOCK)) okRes,
                                    Event.of (Call.connect 3 sampleAddress) ⟨-1, ECONNREFUSED, []⟩] } } ∧
    TcpSocket.ConnectTimeout sampleSocket sampleAddress 5 (some Error.new)
        { script := [okRes, okRes, ⟨-1, ECONNREFUSED, []⟩], errno := 0, trace := [] }
      = some { val := (false, sampleSocket),
               err := some (Error.new.Set ErrorClassId.SocketError
                 ("Socket::Connect [" ++ toString (3 : Int) ++ "]") ECONNREFUSED),
               world := { script := [], errno := ECONNREFUSED,
                          trace := [Event.of (Call.getfl 3) okRes,
                                    Event.of (Call.setfl 3 (Int.lor 0 O_NONBLOCK)) okRes,
                                    Event.of (Call.connect 3 sampleAddress) ⟨-1, ECONNREFUSED, []⟩] } } :=
  ⟨by decide, rfl,
   (positive_timeout_connect_fails_fast sampleSocket sampleAddress 5 (some Error.new)
      { script := [okRes, okRes, ⟨-1, ECONNREFUSED, []⟩], errno := 0, trace := [] }
      { val := (false, sampleSocket),
        err := some (Error.new.Set ErrorClassId.SocketError
          ("Socket::Connect [" ++ toString (3 : Int) ++ "]") ECONNREFUSED),
        world := { script := [], errno := ECONNREFUSED,
                   trace := [Event.of (Call.getfl 3) okRes,
                             Event.of (Call.setfl 3 (Int.lor 0 O_NONBLOCK)) okRes,
                             Event.of (Call.connect 3 sampleAddress) ⟨-1, ECONNREFUSED, []⟩] } }
      (by decide) rfl rfl (by decide)).1⟩
/-! ## Connect: the wait elapses -/

theorem SocketSelector.SelectLoop_quiet (fd events timeout : Int) (e : Option Error) :
    ∀ (script : List SysRes) (tr : List Event) (r : Res Int),
      SocketSelector.SelectLoop fd events timeout e script tr = some r → 0 ≤ r.val → r.err = e := by
  intro script
  induction script with
  | nil => intro tr r h; simp [SocketSelector.SelectLoop] at h
  | cons x rest ih =>
    intro tr r h hv
    simp only [SocketSelector.SelectLoop] at h
    split at h
    · split at h
      · simp only [Option.some.injEq] at h
        subst h
        have hv' : (0 : Int) ≤ -1 := hv
        omega
      · exact ih _ r h hv
    · simp only [Option.some.injEq] at h
      subst h
      rfl

/-- C11: for timeout > 0, when the non-blocking connect attempt ends with a
connect call that reports "in progress" and the write-readiness wait then
elapses (the selector returns 0), the connect with timeout returns false; the
error output is the connect error recorded by the attempt, so a non-null
output holds an error of the socket class with code `EINPROGRESS`. -/
theorem connect_timeout_elapsed_fails (s : TcpSocket) (addr : SocketAddress) (timeout : Int)
    (e : Option Error) (w : World) (r : Res (Bool × TcpSocket)) (last : Event) (rs : Res Int)
    (ht : 0 < timeout) (h : TcpSocket.DoConnect s addr false e w = some r)
    (hl : (issued w r.world).getLast? = some last) (hc : last.call.isConnect = true)
    (hret : last.ret = SOCKET_ERROR) (herrno : last.errno = EINPROGRESS)
    (hsel : SocketSelector.Select r.val.2._fd SOCKET_EVENT_WRITE timeout r.err r.world = some rs)
    (h0 : rs.val = 0) :
    TcpSocket.ConnectTimeout s addr timeout e w
      = some { val := (false, r.val.2),
               err := SET_SOCKET_ERROR e ("Socket::Connect [" ++ toString r.val.2._fd ++ "]") r.world,
               world := rs.world } ∧
    r.world.errno = EINPROGRESS ∧
    (∀ er, e = some er →
      SET_SOCKET_ERROR e ("Socket::Connect [" ++ toString r.val.2._fd ++ "]") r.world
        = some { _class := some ErrorClassId.SocketError,
                 _message := "Socket::Connect [" ++ toString r.val.2._fd ++ "]",
                 _code := EINPROGRESS }) := by
  obtain ⟨_, _, h3, _⟩ := TcpSocket.DoConnect_trace s addr false e w r h
  obtain ⟨_, hen, _, hfail⟩ := h3 last hl hc
  obtain ⟨hv, herr⟩ := hfail hret
  have herrno' : r.world.errno = EINPROGRESS := by rw [hen, herrno]
  have hquiet : rs.err = r.err :=
    SocketSelector.SelectLoop_quiet _ _ _ _ _ _ rs hsel (by omega)
  refine ⟨?_, herrno', ?_⟩
  · unfold TcpSocket.ConnectTimeout
    rw [if_neg (by omega), h]
    simp only [hv, Bool.not_false, if_true, gt_iff_lt, ht, SocketError.InProgress, herrno',
      beq_self_eq_true, Socket.WaitForWrite, hsel, h0, le_refl, Bool.false_eq_true, if_false]
    rw [hquiet, herr]
  · intro er he
    subst he
    simp [SET_SOCKET_ERROR, Error.Set, herrno']

/-- C11 at a sample input: the connect reports "in progress" and the wait of
timeout 5 returns 0. -/
theorem connect_timeout_elapsed_fails_witness :
    TcpSocket.ConnectTimeout sampleSocket sampleAddress 5 (some Error.new)
        { script := [okRes, okRes, inProgressRes, okRes], errno := 0, trace := [] }
      = some { val := (false, sampleSocket),
               err := SET_SOCKET_ERROR (some Error.new) ("Socket::Connect [" ++ toString (3 : Int) ++ "]")
                 { script := [okRes], errno := EINPROGRESS,
                   trace := [Event.of (Call.getfl 3) okRes,
                             Event.of (Call.setfl 3 (Int.lor 0 O_NONBLOCK)) okRes,
                             Event.of (Call.connect 3 sampleAddress) inProgressRes] },
               world := { script := [], errno := 0,
                          trace := [Event.of (Call.getfl 3) okRes,
                                    Event.of (Call.setfl 3 (Int.lor 0 O_NONBLOCK)) okRes,
                                    Event.of (Call.connect 3 sampleAddress) inProgressRes,
                                    Event.of (Call.select 3 SOCKET_EVENT_WRITE 5) okRes] } } :=
  (connect_timeout_elapsed_fails sampleSocket sampleAddress 5 (some Error.new)
    { script := [okRes, okRes, inProgressRes, okRes], errno := 0, trace := [] }
    { val := (false, sampleSocket),
      err := SET_SOCKET_ERROR (some Error.new) ("Socket::Connect [" ++ toString (3 : Int) ++ "]")
        { script := [okRes], errno := EINPROGRESS,
          trace := [Event.of (Call.getfl 3) okRes,
                    Event.of (Call.setfl 3 (Int.lor 0 O_NONBLOCK)) okRes,
                    Event.of (Call.connect 3 sampleAddress) inProgressRes] },
      world := { script := [okRes], errno := EINPROGRESS,
                 trace := [Event.of (Call.getfl 3) okRes,
                           Event.of (Call.setfl 3 (Int.lor 0 O_NONBLOCK)) okRes,
                           Event.of (Call.connect 3 sampleAddress) inProgressRes] } }
    (Event.of (Call.connect 3 sampleAddress) inProgressRes)
    { val := 0,
      err := SET_SOCKET_ERROR (some Error.new) ("Socket::Connect [" ++ toString (3 : Int) ++ "]")
        { script := [okRes], errno := EINPROGRESS,
          trace := [Event.of (Call.getfl 3) okRes,
                    Event.of (Call.setfl 3 (Int.lor 0 O_NONBLOCK)) okRes,
                    Event.of (Call.connect 3 sampleAddress) inProgressRes] },
      world := { script := [], errno := 0,
                 trace := [Event.of (Call.getfl 3) okRes,
                           Event.of (Call.setfl 3 (Int.lor 0 O_NONBLOCK)) okRes,
                           Event.of (Call.connect 3 sampleAddress) inProgressRes,
                           Event.of (Call.select 3 SOCKET_EVENT_WRITE 5) okRes] } }
    (by decide) rfl rfl rfl rfl rfl rfl rfl).1
/-! ## Ownership of the descriptor -/

theorem Socket.Close_result (s : Socket) (e : Option Error) (w : World) (r : Res (Bool × Socket))
    (h : Socket.Close s e w = some r) : r.val.2._fd = INVALID_SOCKET := by
  unfold Socket.Close at h
  split at h
  · rename_i hfd
    simp only [Option.some.injEq] at h; subst h; exact hfd
  · unfold CloseSocket at h
    cases hs : syscall (Call.close s._fd) w with
    | none => simp [hs] at h
    | some v =>
      obtain ⟨x, w1⟩ := v
      simp only [hs] at h
      split at h
      · rename_i r1 hr1
        split at hr1 <;> simp at hr1
      · rename_i r1 hr1
        simp only [Option.some.injEq] at h; subst h
        split at hr1 <;> simp only [Option.some.injEq] at hr1 <;> subst hr1 <;> rfl

theorem Socket.Close_closed (s : Socket) (e : Option Error) (w : World)
    (h : s._fd = INVALID_SOCKET) :
    Socket.Close s e w = some { val := (true, s), err := e, world := w } := by
  simp [Socket.Close, h]

/-- C12: Close is idempotent.  On a handle that is already closed, `Socket::Close`
and `TcpSocket::Close` return true and leave the error output, the world (no
system call is issued) and the handle as they were; and after any first Close,
whatever it returned, the handle is closed, so a second Close is that no-op.
A first Close returns as soon as one outcome is pending. -/
theorem close_is_idempotent (s : Socket) (ts : TcpSocket) (e e2 : Option Error) (w : World) :
    (s._fd = INVALID_SOCKET →
      Socket.Close s e w = some { val := (true, s), err := e, world := w }) ∧
    (ts._fd = INVALID_SOCKET →
      TcpSocket.Close ts e w = some { val := (true, ts), err := e, world := w }) ∧
    (∀ r : Res (Bool × Socket), Socket.Close s e w = some r →
      r.val.2._fd = INVALID_SOCKET ∧
      Socket.Close r.val.2 e2 r.world = some { val := (true, r.val.2), err := e2, world := r.world }) ∧
    (∀ r : Res (Bool × TcpSocket), TcpSocket.Close ts e w = some r →
      r.val.2._fd = INVALID_SOCKET ∧
      TcpSocket.Close r.val.2 e2 r.world = some { val := (true, r.val.2), err := e2, world := r.world }) ∧
    (w.script ≠ [] → (Socket.Close s e w).isSome = true ∧ (TcpSocket.Close ts e w).isSome = true) := by
  have tclosed : ∀ (t : TcpSocket) (e' : Option Error) (w' : World), t._fd = INVALID_SOCKET →
      TcpSocket.Close t e' w' = some { val := (true, t), err := e', world := w' } := by
    intro t e' w' ht
    simp [TcpSocket.Close, Socket.Close_closed t.toSocket e' w' ht]
  refine ⟨Socket.Close_closed s e w, tclosed ts e w, ?_, ?_, ?_⟩
  · intro r hr
    have hfd := Socket.Close_result s e w r hr
    exact ⟨hfd, Socket.Close_closed _ _ _ hfd⟩
  · intro r hr
    unfold TcpSocket.Close at hr
    cases hc : Socket.Close ts.toSocket e w with
    | none => simp [hc] at hr
    | some rc =>
      simp only [hc, Option.some.injEq] at hr
      subst hr
      have hfd := Socket.Close_result _ e w rc hc
      exact ⟨hfd, tclosed _ _ _ hfd⟩
  · intro hne
    have hsome : ∀ (x : Socket), (Socket.Close x e w).isSome = true := by
      intro x
      cases hs : w.script with
      | nil => exact absurd hs hne
      | cons a rest =>
        by_cases hx : x._fd = INVALID_SOCKET
        · simp [Socket.Close, hx]
        · by_cases ha : a.ret = SOCKET_ERROR <;>
            simp [Socket.Close, CloseSocket, syscall, hs, hx, ha]
    refine ⟨hsome s, ?_⟩
    unfold TcpSocket.Close
    have := hsome ts.toSocket
    cases hc : Socket.Close ts.toSocket e w with
    | none => simp [hc] at this
    | some rc => rfl

/-- C13: `Socket::Close` on an open handle issues one `close`; afterwards the
handle holds `INVALID_SOCKET` whatever the call returned; the result is false
with the close error recorded exactly when the call returned `SOCKET_ERROR`,
and true with the error output untouched otherwise.  `TcpSocket::Close` does
the same, and the destructor closes an open handle once, ignoring the result. -/
theorem close_invalidates_handle (s : Socket) (ts : TcpSocket) (e : Option Error) (w : World)
    (x : SysRes) (rest : List SysRes) (hs : w.script = x :: rest) :
    (s._fd ≠ INVALID_SOCKET →
      Socket.Close s e w
        = some { val := (decide (x.ret ≠ SOCKET_ERROR), { _fd := INVALID_SOCKET }),
                 err := if x.ret = SOCKET_ERROR then
                          SET_SOCKET_ERROR e ("ClsoeSocket [" ++ toString INVALID_SOCKET ++ "]")
                            (World.step (Call.close s._fd) x w.trace rest)
                        else e,
                 world := World.step (Call.close s._fd) x w.trace rest } ∧
      Socket.Destroy s w = some (World.step (Call.close s._fd) x w.trace rest)) ∧
    (ts._fd ≠ INVALID_SOCKET →
      TcpSocket.Close ts e w
        = some { val := (decide (x.ret ≠ SOCKET_ERROR), { ts with _fd := INVALID_SOCKET }),
                 err := if x.ret = SOCKET_ERROR then
                          SET_SOCKET_ERROR e ("ClsoeSocket [" ++ toString INVALID_SOCKET ++ "]")
                            (World.step (Call.close ts._fd) x w.trace rest)
                        else e,
                 world := World.step (Call.close ts._fd) x w.trace rest }) := by
  have key : ∀ (k : Socket), k._fd ≠ INVALID_SOCKET →
      Socket.Close k e w
        = some { val := (decide (x.ret ≠ SOCKET_ERROR), { _fd := INVALID_SOCKET }),
                 err := if x.ret = SOCKET_ERROR then
                          SET_SOCKET_ERROR e ("ClsoeSocket [" ++ toString INVALID_SOCKET ++ "]")
                            (World.step (Call.close k._fd) x w.trace rest)
                        else e,
                 world := World.step (Call.close k._fd) x w.trace rest } := by
    intro k hk
    simp only [Socket.Close, hk, if_false, CloseSocket, syscall, hs]
    by_cases hx : x.ret = SOCKET_ERROR <;> simp [hx]
  have keyd : ∀ (en : Option Error) (k : Socket), k._fd ≠ INVALID_SOCKET →
      ∃ rr, Socket.Close k en w = some rr ∧ rr.world = World.step (Call.close k._fd) x w.trace rest := by
    intro en k hk
    simp only [Socket.Close, hk, if_false, CloseSocket, syscall, hs]
    by_cases hx : x.ret = SOCKET_ERROR <;> simp [hx]
  refine ⟨fun hopen => ⟨key s hopen, ?_⟩, fun hopen => ?_⟩
  · obtain ⟨rr, h1, h2⟩ := keyd none s hopen
    simp [Socket.Destroy, hopen, h1, h2]
  · simp [TcpSocket.Close, key ts.toSocket hopen]
/-- C13 at a sample input: the `close` call on descriptor 3 fails with `EBADF`;
the handle is invalid afterwards, the result is false and the error is recorded. -/
theorem close_invalidates_handle_witness :
    Socket.Close sampleSocket.toSocket (some Error.new)
        { script := [badfRes], errno := 0, trace := [] }
      = some { val := (false, { _fd := INVALID_SOCKET }),
               err := SET_SOCKET_ERROR (some Error.new) ("ClsoeSocket [" ++ toString INVALID_SOCKET ++ "]")
                 (World.step (Call.close 3) badfRes [] []),
               world := World.step (Call.close 3) badfRes [] [] } ∧
    Socket.Close sampleSocket.toSocket (some Error.new)
        { script := [okRes], errno := 0, trace := [] }
      = some { val := (true, { _fd := INVALID_SOCKET }), err := some Error.new,
               world := World.step (Call.close 3) okRes [] [] } :=
  ⟨((close_invalidates_handle sampleSocket.toSocket sampleSocket (some Error.new)
      { script := [badfRes], errno := 0, trace := [] } badfRes [] rfl).1 (by decide)).1,
   ((close_invalidates_handle sampleSocket.toSocket sampleSocket (some Error.new)
      { script := [okRes], errno := 0, trace := [] } okRes [] rfl).1 (by decide)).1⟩

/-- C14: after `Socket::Attach(fd)` the handle owns exactly `fd` and the result
is true exactly when `fd` is not `INVALID_SOCKET`.  When the handle owned a
descriptor other than `fd`, exactly one `close` of that descriptor is issued
and its outcome does not matter; otherwise the world is unchanged: no system
call is issued. -/
theorem attach_takes_ownership (s : Socket) (fd : Int) (w : World) :
    (s._fd ≠ INVALID_SOCKET ∧ s._fd ≠ fd →
      ∀ (x : SysRes) (rest : List SysRes), w.script = x :: rest →
        Socket.Attach s fd w
          = some ((fd != INVALID_SOCKET, { _fd := fd }),
                  World.step (Call.close s._fd) x w.trace rest)) ∧
    (¬ (s._fd ≠ INVALID_SOCKET ∧ s._fd ≠ fd) →
      Socket.Attach s fd w = some ((fd != INVALID_SOCKET, { _fd := fd }), w)) ∧
    (∀ r, Socket.Attach s fd w = some r →
      r.1.2._fd = fd ∧ (r.1.1 = true ↔ fd ≠ INVALID_SOCKET)) := by
  refine ⟨?_, ?_, ?_⟩
  · intro hc x rest hs
    by_cases hx : x.ret = SOCKET_ERROR <;>
      simp [Socket.Attach, hc, Socket.Close, CloseSocket, syscall, hs, hx]
  · intro hc
    simp only [Socket.Attach, if_neg hc]
  · intro r hr
    unfold Socket.Attach at hr
    split at hr
    · cases hcl : Socket.Close s none w with
      | none => simp [hcl] at hr
      | some rc =>
        simp only [hcl, Option.some.injEq] at hr
        subst hr
        simp
    · simp only [Option.some.injEq] at hr
      subst hr
      simp

/-- C15: `Socket::Detach` returns the descriptor the handle owned and leaves the
handle holding `INVALID_SOCKET`; the world passes through unchanged (no close,
no shutdown, no system call at all).  Attaching the returned descriptor to the
detached handle gives back the original handle, again with the world
unchanged, so nothing is closed. -/
theorem detach_then_attach_restores (s : Socket) (w : World) :
    Socket.Detach s w = ((s._fd, { _fd := INVALID_SOCKET }), w) ∧
    issued w (Socket.Detach s w).2 = [] ∧
    Socket.Attach (Socket.Detach s w).1.2 (Socket.Detach s w).1.1 (Socket.Detach s w).2
      = some ((s._fd != INVALID_SOCKET, s), w) := by
  refine ⟨rfl, by simp [Socket.Detach, issued], ?_⟩
  simp [Socket.Detach, Socket.Attach]

/-- C16: `Socket::Listen(backlog, e)` issues one `listen` call whose backlog is
`SOMAXCONN` for every backlog < 0 and the given backlog for every
backlog >= 0; the result is false with the listen error recorded exactly when
the call returns a negative value, and true with the error output untouched
otherwise. -/
theorem listen_maps_negative_backlog (s : Socket) (backlog : Int) (e : Option Error) (w : World)
    (x : SysRes) (rest : List SysRes) (hs : w.script = x :: rest) :
    Socket.Listen s backlog e w
      = some { val := decide (¬ x.ret < 0),
               err := if x.ret < 0 then
                        SET_SOCKET_ERROR e ("Socket::Listen [" ++ toString s._fd ++ "]")
                          (World.step (Call.listen s._fd (if backlog < 0 then SOMAXCONN else backlog))
                            x w.trace rest)
                      else e,
               world := World.step (Call.listen s._fd (if backlog < 0 then SOMAXCONN else backlog))
                 x w.trace rest } ∧
    issued w (World.step (Call.listen s._fd (if backlog < 0 then SOMAXCONN else backlog)) x w.trace rest)
      = [Event.of (Call.listen s._fd (if backlog < 0 then SOMAXCONN else backlog)) x] ∧
    (backlog < 0 → (if backlog < 0 then SOMAXCONN else backlog) = SOMAXCONN) ∧
    (0 ≤ backlog → (if backlog < 0 then SOMAXCONN else backlog) = backlog) := by
  refine ⟨?_, ?_, ?_, ?_⟩
  · by_cases hx : x.ret < 0 <;> simp [Socket.Listen, syscall, hs, hx]
  · simp [issued, World.step]
  · intro h; rw [if_pos h]
  · intro h; rw [if_neg (by omega)]

/-- C16 at sample inputs: backlog -1 reaches the kernel as `SOMAXCONN`, backlog
16 as 16, and a failing call gives false. -/
theorem listen_maps_negative_backlog_witness :
    (Socket.Listen sampleSocket.toSocket (-1) (some Error.new)
        { script := [okRes], errno := 0, trace := [] }).map
        (fun r => (r.val, r.err, r.world.trace.map (fun ev => ev.call)))
      = some (true, some Error.new, [Call.listen 3 SOMAXCONN]) ∧
    (Socket.Listen sampleSocket.toSocket 16 (some Error.new)
        { script := [badfRes], errno := 0, trace := [] }).map
        (fun r => (r.val, r.err.map Error.Class, r.world.trace.map (fun ev => ev.call)))
      = some (false, some ErrorClassId.SocketError, [Call.listen 3 16]) := by
  constructor
  · rw [(listen_maps_negative_backlog sampleSocket.toSocket (-1) (some Error.new)
      { script := [okRes], errno := 0, trace := [] } okRes [] rfl).1]
    decide
  · rw [(listen_maps_negative_backlog sampleSocket.toSocket 16 (some Error.new)
      { script := [badfRes], errno := 0, trace := [] } badfRes [] rfl).1]
    decide
/-! ## The error value and its sentinel -/

theorem Error.calls_append (e : Error) (cs : List ErrorCall) (c : ErrorCall) :
    Error.calls e (cs ++ [c]) = (Error.calls e cs).call c := by
  simp [Error.calls, List.foldl_append]

theorem Error.call_keeps_class (e : Error) (c : ErrorCall)
    (he : e._class ≠ some ErrorClassId.NoError) (hc : c.passesNoError = false) :
    (e.call c)._class ≠ some ErrorClassId.NoError := by
  cases c with
  | Reset => simp [Error.call, Error.Reset]
  | Set cls msg code =>
    simp only [ErrorCall.passesNoError, beq_eq_false_iff_ne, ne_eq] at hc
    simpa [Error.call, Error.Set] using hc
  | SetMsgCode msg code =>
    simp only [Error.call, Error.SetMsgCode]
    split
    · simp
    · exact he
  | SetClass cls =>
    simp only [ErrorCall.passesNoError, beq_eq_false_iff_ne, ne_eq] at hc
    simpa [Error.call, Error.SetClass] using hc
  | SetMessage msg =>
    simp only [Error.call, Error.SetMessage]
    split
    · simp
    · exact he
  | SetCode code =>
    simp only [Error.call, Error.SetCode]
    split
    · simp
    · exact he

theorem Error.calls_keep_class :
    ∀ (cs : List ErrorCall) (e : Error), e._class ≠ some ErrorClassId.NoError →
      (∀ c ∈ cs, c.passesNoError = false) →
      (Error.calls e cs)._class ≠ some ErrorClassId.NoError := by
  intro cs
  induction cs with
  | nil => intro e he _; exact he
  | cons c cs ih =>
    intro e he hcs
    have h1 := Error.call_keeps_class e c he (hcs c (List.mem_cons_self _ _))
    exact ih (e.call c) h1 (fun x hx => hcs x (List.mem_cons_of_mem _ hx))

theorem Error.setter_sets_class (e : Error) (c : ErrorCall) (hc : c.isSetter = true) :
    (e.call c)._class ≠ none := by
  cases c with
  | Reset => simp [ErrorCall.isSetter] at hc
  | Set cls msg code => simp [Error.call, Error.Set]
  | SetMsgCode msg code =>
    simp only [Error.call, Error.SetMsgCode]
    split
    · simp
    · assumption
  | SetClass cls => simp [Error.call, Error.SetClass]
  | SetMessage msg =>
    simp only [Error.call, Error.SetMessage]
    split
    · simp
    · assumption
  | SetCode code =>
    simp only [Error.call, Error.SetCode]
    split
    · simp
    · assumption

/-- C21 (as amended): a default-constructed Error is the "no error" sentinel
(`Class()` is `NoError`, the message is empty, the code is 0) and `Reset()`
returns every Error, whatever sequence of calls preceded it, to exactly that
state.  After `Set(cls, msg, code)` or `SetClass(cls)` the class is `cls`, so
the Error is not the sentinel exactly when `cls` is not the `NoError` class.
After `Set(msg, code)`, `SetMessage` or `SetCode`, `Class()` is the base class
`ErrorClass` if no class was set and the previously set class otherwise.  Each
setter stores its arguments and leaves the other fields as they were.  After
any sequence of calls that never passes the `NoError` class and ends with a
setter (`Set`, `SetClass`, `SetMessage`, `SetCode`), on an Error whose class
pointer did not point to `NoError`, `Class()` is not `NoError`. -/
theorem reset_restores_no_error_sentinel :
    (Error.new.Class = ErrorClassId.NoError ∧ Error.new._message = "" ∧ Error.new._code = 0) ∧
    (∀ (e : Error) (cs : List ErrorCall),
      (Error.calls e cs).Reset = Error.new ∧
      Error.calls e (cs ++ [ErrorCall.Reset]) = Error.new) ∧
    (∀ (e : Error) (cls : ErrorClassId) (msg : String) (code : Int),
      (e.Set cls msg code).Class = cls ∧ (e.SetClass cls).Class = cls ∧
      ((e.Set cls msg code).Class ≠ ErrorClassId.NoError ↔ cls ≠ ErrorClassId.NoError) ∧
      ((e.SetClass cls).Class ≠ ErrorClassId.NoError ↔ cls ≠ ErrorClassId.NoError) ∧
      e.Set cls msg code = { _class := some cls, _message := msg, _code := code } ∧
      e.SetClass cls = { _class := some cls, _message := e._message, _code := e._code }) ∧
    (∀ (e : Error) (msg : String) (code : Int),
      (e._class = none →
        (e.SetMsgCode msg code).Class = ErrorClassId.ErrorClass ∧
        (e.SetMessage msg).Class = ErrorClassId.ErrorClass ∧
        (e.SetCode code).Class = ErrorClassId.ErrorClass) ∧
      (∀ cls : ErrorClassId, e._class = some cls →
        (e.SetMsgCode msg code).Class = cls ∧
        (e.SetMessage msg).Class = cls ∧
        (e.SetCode code).Class = cls) ∧
      ((e.SetMsgCode msg code)._message = msg ∧ (e.SetMsgCode msg code)._code = code) ∧
      ((e.SetMessage msg)._message = msg ∧ (e.SetMessage msg)._code = e._code) ∧
      ((e.SetCode code)._message = e._message ∧ (e.SetCode code)._code = code)) ∧
    (∀ (e : Error) (cs : List ErrorCall) (c : ErrorCall),
      e._class ≠ some ErrorClassId.NoError →
      (∀ x ∈ cs ++ [c], x.passesNoError = false) →
      c.isSetter = true →
      (Error.calls e (cs ++ [c])).Class ≠ ErrorClassId.NoError) := by
  refine ⟨⟨rfl, rfl, rfl⟩, ?_, ?_, ?_, ?_⟩
  · intro e cs
    refine ⟨rfl, ?_⟩
    rw [Error.calls_append]
    rfl
  · intro e cls msg code
    exact ⟨rfl, rfl, Iff.rfl, Iff.rfl, rfl, rfl⟩
  · intro e msg code
    refine ⟨?_, ?_, ⟨rfl, rfl⟩, ⟨rfl, rfl⟩, ⟨rfl, rfl⟩⟩
    · intro hn
      simp [Error.SetMsgCode, Error.SetMessage, Error.SetCode, Error.Class, hn]
    · intro cls hc
      simp [Error.SetMsgCode, Error.SetMessage, Error.SetCode, Error.Class, hc]
  · intro e cs c he hno hset
    have hkeep := Error.calls_keep_class (cs ++ [c]) e he hno
    have hsome : (Error.calls e (cs ++ [c]))._class ≠ none := by
      rw [Error.calls_append]
      exact Error.setter_sets_class _ c hset
    unfold Error.Class
    cases hcl : (Error.calls e (cs ++ [c]))._class with
    | none => exact absurd hcl hsome
    | some k =>
      intro hk
      apply hkeep
      rw [hcl]
      simpa using hk

/-- C21 (counterexample): `SetClass(NoError())` on a default-constructed Error
leaves `Class()` the `NoError` class with an empty message and code 0;
`Set(NoError(), "failed", 5)` gives an Error whose `Class()` is `NoError`; and
once the `NoError` class was passed, `Set("failed", 5)`, `SetMessage` and
`SetCode` keep it. -/
theorem set_class_no_error_is_sentinel :
    (Error.new.SetClass ErrorClassId.NoError).Class = ErrorClassId.NoError ∧
    (Error.new.SetClass ErrorClassId.NoError)._message = "" ∧
    (Error.new.SetClass ErrorClassId.NoError)._code = 0 ∧
    (Error.new.Set ErrorClassId.NoError "failed" 5).Class = ErrorClassId.NoError ∧
    (Error.calls Error.new [ErrorCall.SetClass ErrorClassId.NoError,
        ErrorCall.SetMsgCode "failed" 5]).Class = ErrorClassId.NoError ∧
    (Error.calls Error.new [ErrorCall.SetClass ErrorClassId.NoError,
        ErrorCall.SetMessage "failed"]).Class = ErrorClassId.NoError ∧
    (Error.calls Error.new [ErrorCall.SetClass ErrorClassId.NoError,
        ErrorCall.SetCode 5]).Class = ErrorClassId.NoError := by
  refine ⟨rfl, rfl, rfl, rfl, rfl, rfl, rfl⟩

/-! ## The connected status of a TCP socket -/

/-- C22 (the code at the failing input): an open stream socket without a
given connected address whose peer address cannot be obtained (`getpeername`
fails with `ENOTCONN`, the address stays empty).  With a null error output
`Connected` returns true; with a non-null error output the same call returns
false with the socket error recorded.  `Connected(3, NULL, NULL)` on a socket
that was not open attaches the descriptor and returns true in the same way. -/
theorem connected_without_peer_needs_error_output :
    sampleSocket._connected_address.Empty = true ∧
    (Socket.ConnectedAddress sampleSocket.toSocket none
        { script := [notConnectedRes], errno := 0, trace := [] }).map
        (fun r => r.val.Empty) = some true ∧
    TcpSocket.Connected sampleSocket none
        { script := [streamTypeRes, notConnectedRes], errno := 0, trace := [] }
      = some { val := true, err := none,
               world := { script := [], errno := ENOTCONN,
                          trace := [Event.of (Call.getsockopt 3 SOL_SOCKET SO_TYPE) streamTypeRes,
                                    Event.of (Call.getpeername 3) notConnectedRes] } } ∧
    (TcpSocket.Connected sampleSocket (some Error.new)
        { script := [streamTypeRes, notConnectedRes], errno := 0, trace := [] }).map
        (fun r => (r.val, r.err.map Error.Class, r.err.map (fun er => er._code)))
      = some (false, some ErrorClassId.SocketError, some ENOTCONN) ∧
    (TcpSocket.ConnectedTo unopenedSocket 3 none none
        { script := [streamTypeRes, notConnectedRes], errno := 0, trace := [] }).map
        (fun r => (r.val.1, r.val.2._fd, r.err))
      = some (true, 3, none) := by
  decide

end netb

namespace netbase

open netb (World SysRes Event Call syscall issued INVALID_SOCKET SOCKET_ERROR SOMAXCONN SHUT_RDWR)

/-! ## The listener accepts -/

theorem TcpListener.OnRead_step (l : TcpListener) (w : World) (x : SysRes) (rest : List SysRes)
    (hs : w.script = x :: rest)
    (hx : ¬ (x.ret = INVALID_SOCKET ∧ x.errno = netb.EINTR)) :
    TcpListener.OnRead l w
      = some (⟨x.ret, ConnectionState.Connecting⟩,
              World.step (Call.accept l.mSocket.mSocket) x w.trace rest,
              (vectorStore l.mConnections x.ret ⟨x.ret, ConnectionState.Connected⟩).map
                (fun v => ({ l with mConnections := v }, [⟨x.ret, ConnectionState.Connected⟩]))) := by
  by_cases h1 : x.ret = INVALID_SOCKET
  · have h2 : ¬ x.errno = netb.EINTR := fun h => hx ⟨h1, h⟩
    simp [TcpListener.OnRead, Socket.Accept, netb.Socket.Accept, netb.Socket.AcceptLoop, hs, h1, h2,
      netb.SocketError.Interrupted, netb.World.step, TcpConnection.new, TcpConnection.Connected]
  · simp [TcpListener.OnRead, Socket.Accept, netb.Socket.Accept, netb.Socket.AcceptLoop, hs, h1,
      TcpConnection.new, TcpConnection.Connected]

/-- C17 (as amended): one read-readiness notification makes exactly one accept
call and constructs exactly one Connection.  With `k >= 1` connections pending
(the accepts `x :: xs` succeed, `rest` follows), a single notification issues
the one accept call that returns the first descriptor, constructs one
Connection, around that descriptor, and leaves the other `k - 1` outcomes
pending, untouched. -/
theorem one_connection_per_notification (l : TcpListener) (w : World) (x : SysRes)
    (xs rest : List SysRes) (hs : w.script = (x :: xs) ++ rest)
    (hvalid : ∀ y ∈ x :: xs, y.ret ≠ INVALID_SOCKET) :
    ∃ (w1 : World) (after : Option (TcpListener × List TcpConnection)),
      TcpListener.OnRead l w = some (⟨x.ret, ConnectionState.Connecting⟩, w1, after) ∧
      issued w w1 = [Event.of (Call.accept l.mSocket.mSocket) x] ∧
      w1.script = xs ++ rest := by
  have hx : x.ret ≠ INVALID_SOCKET := hvalid x (by simp)
  have hstep := TcpListener.OnRead_step l w x (xs ++ rest) (by simpa using hs) (fun h => hx h.1)
  exact ⟨_, _, hstep, netb.issued_of_append w _ _ rfl, rfl⟩

/-- C17 (counterexample): two connections are pending (accept would return 5,
then 6, then "would block").  One read-readiness notification issues one
accept call and constructs one Connection, around 5; the second accepted
descriptor is still pending. -/
theorem notification_accepts_once :
    (TcpListener.OnRead sampleListener
        { script := [acceptedRes 5, acceptedRes 6, wouldBlockRes], errno := 0, trace := [] }).map
        (fun r => (r.1, r.2.1.trace.map (fun ev => ev.call), r.2.1.script))
      = some (⟨5, ConnectionState.Connecting⟩, [Call.accept 3], [acceptedRes 6, wouldBlockRes]) := by
  decide

/-- C17 at a sample input: two pending connections, descriptors 5 and 6; the
notification accepts 5 and leaves 6 pending.  The owned vector of the sample
listener is empty, so the index write that follows is outside it. -/
theorem one_connection_per_notification_witness :
    TcpListener.OnRead sampleListener
        { script := [acceptedRes 5, acceptedRes 6, wouldBlockRes], errno := 0, trace := [] }
      = some (⟨5, ConnectionState.Connecting⟩,
              { script := [acceptedRes 6, wouldBlockRes], errno := 0,
                trace := [Event.of (Call.accept 3) (acceptedRes 5)] },
              none) ∧
    ∃ (w1 : World) (after : Option (TcpListener × List TcpConnection)),
      TcpListener.OnRead sampleListener
          { script := [acceptedRes 5, acceptedRes 6, wouldBlockRes], errno := 0, trace := [] }
        = some (⟨5, ConnectionState.Connecting⟩, w1, after) ∧
      issued { script := [acceptedRes 5, acceptedRes 6, wouldBlockRes], errno := 0, trace := [] } w1
        = [Event.of (Call.accept 3) (acceptedRes 5)] ∧
      w1.script = [acceptedRes 6] ++ [wouldBlockRes] :=
  ⟨by decide,
   one_connection_per_notification sampleListener
     { script := [acceptedRes 5, acceptedRes 6, wouldBlockRes], errno := 0, trace := [] }
     (acceptedRes 5) [acceptedRes 6] [wouldBlockRes] rfl (by decide)⟩

/-- C18 (the code at the failing input): the accept call fails (`EMFILE`) and
returns `INVALID_SOCKET`.  `OnRead` still constructs a Connection around the
invalid descriptor and goes on to write it to the slot `INVALID_SOCKET` of the
owned vector, an index outside every vector. -/
theorem failed_accept_creates_connection :
    TcpListener.OnRead sampleListener { script := [emfileRes], errno := 0, trace := [] }
      = some (⟨INVALID_SOCKET, ConnectionState.Connecting⟩,
              { script := [], errno := 24, trace := [Event.of (Call.accept 3) emfileRes] },
              none) ∧
    (∀ (v : List TcpConnection) (conn : TcpConnection), vectorStore v INVALID_SOCKET conn = none) := by
  refine ⟨by decide, ?_⟩
  intro v conn
  simp [vectorStore, INVALID_SOCKET]

/-! ## The listener listens -/

theorem Socket.Bind_shape (s : Socket) (addr : List Nat) (len : Nat) (w : World) (ok : Bool)
    (w1 : World) (h : Socket.Bind s addr len w = some (ok, w1)) :
    ∃ b : SysRes, w1.trace = w.trace ++ [Event.of (Call.bindRaw s.mSocket addr len) b] ∧
      w.script = b :: w1.script ∧ ok = (b.ret != SOCKET_ERROR) := by
  unfold Socket.Bind syscall at h
  cases hs : w.script with
  | nil => simp [hs] at h
  | cons b rest =>
    simp only [hs, Option.some.injEq, Prod.mk.injEq] at h
    obtain ⟨rfl, rfl⟩ := h
    exact ⟨b, rfl, rfl, rfl⟩

theorem Socket.Listen_shape (s : Socket) (backlog : Int) (w : World) (ok : Bool)
    (w1 : World) (h : Socket.Listen s backlog w = some (ok, w1)) :
    ∃ x : SysRes, w1.trace = w.trace ++
        [Event.of (Call.listen s.mSocket (if backlog < 0 then SOMAXCONN else backlog)) x] ∧
      w.script = x :: w1.script ∧ ok = (x.ret != SOCKET_ERROR) := by
  unfold Socket.Listen syscall at h
  cases hs : w.script with
  | nil => simp [hs] at h
  | cons b rest =>
    simp only [hs, Option.some.injEq, Prod.mk.injEq] at h
    obtain ⟨rfl, rfl⟩ := h
    exact ⟨b, rfl, rfl, rfl⟩

theorem Socket.Block_events (s : Socket) (block : Bool) (w : World) (ok : Bool)
    (w1 : World) (h : Socket.Block s block w = some (ok, w1)) :
    ∃ d : List Event, w1.trace = w.trace ++ d ∧ ∀ ev ∈ d, isBind ev.call = false := by
  unfold Socket.Block at h
  cases hb : netb.Socket.Block { _fd := s.mSocket } block none w with
  | none => simp [hb] at h
  | some r =>
    simp only [hb, Option.some.injEq, Prod.mk.injEq] at h
    obtain ⟨_, rfl⟩ := h
    obtain ⟨g, f, htr, _, _⟩ := netb.Socket.Block_shape _ _ _ _ _ hb
    refine ⟨_, htr, ?_⟩
    intro ev hev
    simp only [List.mem_cons, List.mem_singleton, List.not_mem_nil, or_false] at hev
    rcases hev with rfl | rfl <;> rfl

theorem TcpListener.Listen_returns (l : TcpListener) (backlog : Int) (w : World)
    (hlen : 4 ≤ w.script.length) : (TcpListener.Listen l backlog w).isSome = true := by
  match hscr : w.script, hlen with
  | a :: b :: c :: d :: rest, _ =>
    cases hE : l.mAddress.Empty <;>
    by_cases ha : a.ret = SOCKET_ERROR <;>
    by_cases hb : b.ret = SOCKET_ERROR <;>
    by_cases hc : c.ret = SOCKET_ERROR <;>
    by_cases hd : d.ret = SOCKET_ERROR <;>
    simp [TcpListener.Listen, Socket.Bind, Socket.Listen, Socket.Block, netb.Socket.Block,
      syscall, netb.World.step, hscr, hE, ha, hb, hc, hd]

/-- C19 (as amended): `TcpListener::Listen(backlog)` issues a bind before the
listen exactly when an address was supplied (the address is not empty),
whether or not that address is the wildcard: for a non-empty address the first
call issued is the bind of that address, for an empty address no bind is
issued and the first call is the listen.  If the bind fails the result is
false, the listener is unchanged and no listen (nothing else) is issued.  The
call returns whenever four outcomes are pending. -/
theorem listen_binds_supplied_address (l : TcpListener) (backlog : Int) (w : World) :
    (∀ r, TcpListener.Listen l backlog w = some r →
      (l.mAddress.Empty = true →
        (∀ ev ∈ issued w r.2, isBind ev.call = false) ∧
        ∃ x, (issued w r.2).head? = some x ∧
          x.call = Call.listen l.mSocket.mSocket (if backlog < 0 then SOMAXCONN else backlog)) ∧
      (l.mAddress.Empty = false →
        ∃ (b : SysRes) (tail : List Event),
          issued w r.2
            = Event.of (Call.bindRaw l.mSocket.mSocket l.mAddress.SockAddr l.mAddress.SockAddrLen) b
                :: tail ∧
          (∀ ev ∈ tail, isBind ev.call = false) ∧
          (b.ret = SOCKET_ERROR → r.1.1 = false ∧ r.1.2 = l ∧ tail = []) ∧
          (b.ret ≠ SOCKET_ERROR → ∃ x, tail.head? = some x ∧
            x.call = Call.listen l.mSocket.mSocket (if backlog < 0 then SOMAXCONN else backlog)))) ∧
    (4 ≤ w.script.length → (TcpListener.Listen l backlog w).isSome = true) := by
  -- the part after the bind
  have after : ∀ (w1 : World) (r : (Bool × TcpListener) × World),
      (match Socket.Listen l.mSocket backlog w1 with
       | none => none
       | some (listening, w2) =>
         if !listening then some ((false, l), w2)
         else
           match Socket.Block l.mSocket false w2 with
           | none => none
           | some (_, w3) => some ((true, { l with mReading := true, mListening := true }), w3)) = some r →
      ∃ x d, r.2.trace = w1.trace ++
          Event.of (Call.listen l.mSocket.mSocket (if backlog < 0 then SOMAXCONN else backlog)) x :: d ∧
        ∀ ev ∈ d, isBind ev.call = false := by
    intro w1 r hr
    cases hl : Socket.Listen l.mSocket backlog w1 with
    | none => simp [hl] at hr
    | some v =>
      obtain ⟨listening, w2⟩ := v
      obtain ⟨x, htr, _, _⟩ := Socket.Listen_shape _ _ _ _ _ hl
      simp only [hl] at hr
      split at hr
      · simp only [Option.some.injEq] at hr; subst hr
        exact ⟨x, [], htr, by simp⟩
      · cases hb : Socket.Block l.mSocket false w2 with
        | none => simp [hb] at hr
        | some v3 =>
          obtain ⟨ok3, w3⟩ := v3
          obtain ⟨d, hd, hnb⟩ := Socket.Block_events _ _ _ _ _ hb
          simp only [hb, Option.some.injEq] at hr; subst hr
          exact ⟨x, d, by rw [hd, htr]; simp, hnb⟩
  constructor
  · intro r hr
    unfold TcpListener.Listen at hr
    constructor
    · intro hempty
      simp only [hempty, Bool.not_true, Bool.false_eq_true, if_false] at hr
      obtain ⟨x, d, htr, hnb⟩ := after w r hr
      rw [netb.issued_of_append w r.2 _ htr]
      refine ⟨?_, _, rfl, rfl⟩
      intro ev hev
      rcases List.mem_cons.mp hev with rfl | hm
      · rfl
      · exact hnb ev hm
    · intro hne
      simp only [hne, Bool.not_false, if_true] at hr
      cases hb : Socket.Bind l.mSocket l.mAddress.SockAddr l.mAddress.SockAddrLen w with
      | none => simp [hb] at hr
      | some v =>
        obtain ⟨bound, w1⟩ := v
        obtain ⟨b, htr, _, hok⟩ := Socket.Bind_shape _ _ _ _ _ _ hb
        simp only [hb] at hr
        by_cases hbr : b.ret = SOCKET_ERROR
        · have hbound : bound = false := by rw [hok]; simp [hbr]
          subst hbound
          simp only [Bool.not_false, if_true, Option.some.injEq] at hr
          subst hr
          refine ⟨b, [], ?_, by simp, fun _ => ⟨rfl, rfl, rfl⟩, fun h => absurd hbr h⟩
          exact netb.issued_of_append w w1 _ htr
        · have hbound : bound = true := by rw [hok]; simpa using hbr
          subst hbound
          simp only [Bool.not_true, Bool.false_eq_true, if_false] at hr
          obtain ⟨x, d, htr2, hnb⟩ := after w1 r hr
          refine ⟨b, Event.of (Call.listen l.mSocket.mSocket
            (if backlog < 0 then SOMAXCONN else backlog)) x :: d, ?_, ?_,
            fun h => absurd h hbr, fun _ => ⟨_, rfl, rfl⟩⟩
          · apply netb.issued_of_append
            rw [htr2, htr]; simp
          · intro ev hev
            rcases List.mem_cons.mp hev with rfl | hm
            · rfl
            · exact hnb ev hm
  · exact TcpListener.Listen_returns l backlog w

/-- C19 (counterexample): the listener was given the IPv4 wildcard address with
port 8080.  The address is the wildcard and is not empty, and `Listen(16)`
issues a bind of it before the listen. -/
theorem listen_binds_wildcard_address :
    wildcardAddress.Wildcard = true ∧ wildcardAddress.Empty = false ∧
    (TcpListener.Listen { sampleListener with mAddress := wildcardAddress } 16
        { script := [netb.okRes, netb.okRes, netb.okRes, netb.okRes], errno := 0, trace := [] }).map
        (fun r => (r.1.1, r.2.trace.map (fun ev => isBind ev.call),
          (r.2.trace.head?).map (fun ev => ev.call)))
      = some (true, [true, false, false, false],
          some (Call.bindRaw 3 wildcardAddress.mAddress 16)) := by
  decide

/-! ## The listener is destroyed -/

theorem TcpListener.closeAll_runs :
    ∀ (cs : List TcpConnection) (w : World),
      (cs.filter (fun c => c.isOpen)).length ≤ w.script.length →
      ∃ oks w' d, TcpListener.closeAll cs w = some (oks, w') ∧ oks.length = cs.length ∧
        w'.trace = w.trace ++ d ∧
        d.map (fun ev => ev.call)
          = (cs.filter (fun c => c.isOpen)).map (fun c => Call.close c.mSocket) ∧
        w'.script = w.script.drop (cs.filter (fun c => c.isOpen)).length := by
  intro cs
  induction cs with
  | nil =>
    intro w _
    exact ⟨[], w, [], rfl, rfl, by simp, by simp, by simp⟩
  | cons c rest ih =>
    intro w hlen
    by_cases hopen : c.mSocket = INVALID_SOCKET
    · have hno : c.isOpen = false := by simp [TcpConnection.isOpen, hopen]
      simp only [List.filter_cons, hno, Bool.false_eq_true, if_false] at hlen ⊢
      obtain ⟨oks, w', d, h1, h2, h3, h4, h5⟩ := ih w hlen
      refine ⟨true :: oks, w', d, ?_, by simp [h2], h3, h4, h5⟩
      simp [TcpListener.closeAll, TcpConnection.Close, netb.Socket.Close, hopen,
        TcpConnection.Destroy, h1]
    · have hyes : c.isOpen = true := by simp [TcpConnection.isOpen, hopen]
      simp only [List.filter_cons, hyes, if_true, List.length_cons] at hlen ⊢
      cases hs : w.script with
      | nil => rw [hs] at hlen; simp at hlen
      | cons x xs =>
        have hlen' : (rest.filter (fun c => c.isOpen)).length
            ≤ (netb.World.step (Call.close c.mSocket) x w.trace xs).script.length := by
          rw [hs] at hlen
          simpa [netb.World.step] using hlen
        obtain ⟨oks, w', d, h1, h2, h3, h4, h5⟩ :=
          ih (netb.World.step (Call.close c.mSocket) x w.trace xs) hlen'
        refine ⟨(x.ret != SOCKET_ERROR) :: oks, w', Event.of (Call.close c.mSocket) x :: d,
          ?_, by simp [h2], ?_, ?_, ?_⟩
        · by_cases hx : x.ret = SOCKET_ERROR <;>
            simp [TcpListener.closeAll, TcpConnection.Close, netb.Socket.Close, netb.CloseSocket,
              syscall, hs, hopen, hx, TcpConnection.Destroy, h1]
        · rw [h3]; simp [netb.World.step]
        · simp [h4, netb.Event.of]
        · rw [h5]; simp [netb.World.step]

/-- C20: the body of the listener's destructor issues the shutdown of the
listening socket first and never a close of it, then closes every owned
connection in turn: one `close` call per connection that holds a descriptor,
one Close result per connection, whatever the outcomes of the calls are (no
outcome stops the loop).  It returns whenever one outcome per call is pending. -/
theorem listener_destruction_closes_all (l : TcpListener) (w : World)
    (hlen : 1 + (l.mConnections.filter (fun c => c.isOpen)).length ≤ w.script.length) :
    ∃ (oks : List Bool) (w' : World),
      TcpListener.Destroy l w = some (oks, w') ∧
      oks.length = l.mConnections.length ∧
      (issued w w').map (fun ev => ev.call)
        = Call.shutdown l.mSocket.mSocket SHUT_RDWR ::
            (l.mConnections.filter (fun c => c.isOpen)).map (fun c => Call.close c.mSocket) ∧
      w'.script = w.script.drop (1 + (l.mConnections.filter (fun c => c.isOpen)).length) := by
  cases hs : w.script with
  | nil => rw [hs] at hlen; simp at hlen
  | cons x xs =>
    have hlen' : (l.mConnections.filter (fun c => c.isOpen)).length
        ≤ (netb.World.step (Call.shutdown l.mSocket.mSocket SHUT_RDWR) x w.trace xs).script.length := by
      rw [hs] at hlen
      simp only [netb.World.step, List.length_cons] at hlen ⊢
      omega
    obtain ⟨oks, w', d, h1, h2, h3, h4, h5⟩ := TcpListener.closeAll_runs l.mConnections
      (netb.World.step (Call.shutdown l.mSocket.mSocket SHUT_RDWR) x w.trace xs) hlen'
    refine ⟨oks, w', ?_, h2, ?_, ?_⟩
    · simp [TcpListener.Destroy, Socket.Shutdown, syscall, hs, h1]
    · rw [netb.issued_of_append w w' (Event.of (Call.shutdown l.mSocket.mSocket SHUT_RDWR) x :: d)
        (by rw [h3]; simp [netb.World.step])]
      simp [h4, netb.Event.of]
    · rw [h5]
      simp only [netb.World.step]
      rw [Nat.add_comm, List.drop_succ_cons]

/-- C20 at a sample input: a listener on descriptor 3 owning the connections 5
and 6; the close of 5 fails, the close of 6 is still issued. -/
theorem listener_destruction_closes_all_witness :
    TcpListener.Destroy busyListener
        { script := [netb.okRes, netb.badfRes, netb.okRes], errno := 0, trace := [] }
      = some ([false, true],
              { script := [], errno := 0,
                trace := [Event.of (Call.shutdown 3 SHUT_RDWR) netb.okRes,
                          Event.of (Call.close 5) netb.badfRes,
                          Event.of (Call.close 6) netb.okRes] }) ∧
    ∃ (oks : List Bool) (w' : World),
      TcpListener.Destroy busyListener
          { script := [netb.okRes, netb.badfRes, netb.okRes], errno := 0, trace := [] }
        = some (oks, w') ∧
      oks.length = 2 ∧
      (issued { script := [netb.okRes, netb.badfRes, netb.okRes], errno := 0, trace := [] } w').map
          (fun ev => ev.call)
        = [Call.shutdown 3 SHUT_RDWR, Call.close 5, Call.close 6] ∧
      w'.script = [] :=
  ⟨by decide,
   listener_destruction_closes_all busyListener
     { script := [netb.okRes, netb.badfRes, netb.okRes], errno := 0, trace := [] } (by decide)⟩

/-! ## Listening on a given address -/

theorem Socket.Family_shape (s : Socket) (w : World) (fam : Int) (w1 : World)
    (h : Socket.Family s w = some (fam, w1)) :
    ∃ x : SysRes, w1.trace = w.trace ++ [Event.of (Call.getsockname s.mSocket) x] ∧
      w.script = x :: w1.script := by
  unfold Socket.Family netb.Socket.Family netb.Socket.Address syscall at h
  cases hs : w.script with
  | nil => simp [hs] at h
  | cons x rest =>
    by_cases hx : x.ret = SOCKET_ERROR
    · simp only [hs, hx, if_true, Option.some.injEq, Prod.mk.injEq] at h
      obtain ⟨_, rfl⟩ := h
      exact ⟨x, rfl, rfl⟩
    · simp only [hs, hx, if_false, Option.some.injEq, Prod.mk.injEq] at h
      obtain ⟨_, rfl⟩ := h
      exact ⟨x, rfl, rfl⟩

theorem Socket.Family_returns (s : Socket) (w : World) (h : w.script ≠ []) :
    (Socket.Family s w).isSome = true := by
  cases hs : w.script with
  | nil => exact absurd hs h
  | cons x rest =>
    by_cases hx : x.ret = SOCKET_ERROR <;>
      simp [Socket.Family, netb.Socket.Family, netb.Socket.Address, syscall, hs, hx]

/-- C23: `TcpListener::Listen(addr, backlog)` with a non-empty `addr` whose
family differs from the family the listening socket reports returns false and
changes nothing: the listener (stored address, read interest, listening flag,
connections) is exactly as before, and the only system call issued is the
family query, so no bind and no listen is issued.  The family query, and with
it the call, returns whenever one outcome is pending. -/
theorem listen_rejects_family_mismatch (l : TcpListener) (addr : SocketAddress) (backlog : Int)
    (w w1 : World) (fam : Int)
    (hne : addr.Empty = false)
    (hq : Socket.Family l.mSocket w = some (fam, w1))
    (hfam : (addr.Family : Int) ≠ fam) :
    TcpListener.ListenAddr l addr backlog w = some ((false, l), w1) ∧
    (∀ ev ∈ issued w w1, isBind ev.call = false ∧ isListen ev.call = false) ∧
    (∃ x : SysRes, issued w w1 = [Event.of (Call.getsockname l.mSocket.mSocket) x]) ∧
    (∀ w2 : World, w2.script ≠ [] → (Socket.Family l.mSocket w2).isSome = true) := by
  obtain ⟨x, htr, _⟩ := Socket.Family_shape _ _ _ _ hq
  have hi := netb.issued_of_append w w1 _ htr
  refine ⟨?_, ?_, ⟨x, hi⟩, fun w2 h2 => Socket.Family_returns _ _ h2⟩
  · unfold TcpListener.ListenAddr
    simp [hne, hq, hfam]
  · intro ev hev
    rw [hi] at hev
    simp only [List.mem_singleton] at hev
    subst hev
    exact ⟨rfl, rfl⟩

/-- C23 at a sample input: the listener on an IPv4 socket is asked to listen
on the IPv6 loopback address. -/
theorem listen_rejects_family_mismatch_witness :
    loopback6Address.Empty = false ∧
    TcpListener.ListenAddr sampleListener loopback6Address 16
        { script := [inetNameRes, netb.okRes, netb.okRes], errno := 0, trace := [] }
      = some ((false, sampleListener),
              { script := [netb.okRes, netb.okRes], errno := 0,
                trace := [Event.of (Call.getsockname 3) inetNameRes] }) :=
  ⟨by decide,
   (listen_rejects_family_mismatch sampleListener loopback6Address 16
      { script := [inetNameRes, netb.okRes, netb.okRes], errno := 0, trace := [] }
      { script := [netb.okRes, netb.okRes], errno := 0,
        trace := [Event.of (Call.getsockname 3) inetNameRes] }
      2 (by decide) (by decide) (by decide)).1⟩

/-! ## Assignment from a `sockaddr` -/

theorem memcpy_zeroed (sa : List Nat) (n : Nat) (hn : n ≤ sa.length) (hs : n ≤ STORAGE_SIZE) :
    memcpy (List.replicate STORAGE_SIZE 0) sa n
      = sa.take n ++ List.replicate (STORAGE_SIZE - n) 0 ∧
    (memcpy (List.replicate STORAGE_SIZE 0) sa n).length = STORAGE_SIZE := by
  constructor
  · simp [memcpy, List.drop_replicate]
  · simp only [memcpy, List.length_append, List.length_take, List.length_drop,
      List.length_replicate]
    omega

theorem getD_take_append (sa r : List Nat) (n i : Nat) (hi : i < n) (hn : n ≤ sa.length) :
    (sa.take n ++ r).getD i 0 = sa.getD i 0 := by
  have h1 : i < (sa.take n).length := by
    rw [List.length_take]; omega
  rw [List.getD_eq_getElem?_getD, List.getD_eq_getElem?_getD,
    List.getElem?_append_left h1, List.getElem?_take_of_lt hi]

theorem family_of_copy (sa : List Nat) (n k : Nat) (hn : n ≤ sa.length) (h2 : 2 ≤ n) :
    SocketAddress.Family { mAddress := sa.take n ++ List.replicate k 0 } = sa_family sa := by
  unfold SocketAddress.Family sa_family
  rw [getD_take_append sa _ n 0 (by omega) hn, getD_take_append sa _ n 1 (by omega) hn]

/-- C24: assigning a generic `sockaddr` held in a distinct object gives a value
that depends on the source only, not on the previous content.  For the family
`AF_INET` the leading `sizeof(sockaddr_in)` (16) bytes of the source are
copied, for `AF_INET6` the leading `sizeof(sockaddr_in6)` (28) bytes, and every
remaining byte of the 128-byte storage is zero; for any other family the
result is the all-zero address: it is empty and equal to a default-constructed
address and to any address after `Reset()`. -/
theorem sockaddr_assignment_is_canonical (a b : SocketAddress) (sa : List Nat) :
    SocketAddress.assign a sa false = SocketAddress.assign b sa false ∧
    (sa_family sa = AF_INET → SOCKADDR_IN_SIZE ≤ sa.length →
      (SocketAddress.assign a sa false).mAddress
        = sa.take SOCKADDR_IN_SIZE ++ List.replicate (STORAGE_SIZE - SOCKADDR_IN_SIZE) 0 ∧
      (SocketAddress.assign a sa false).mAddress.length = STORAGE_SIZE ∧
      (SocketAddress.assign a sa false).Family = AF_INET) ∧
    (sa_family sa = AF_INET6 → SOCKADDR_IN6_SIZE ≤ sa.length →
      (SocketAddress.assign a sa false).mAddress
        = sa.take SOCKADDR_IN6_SIZE ++ List.replicate (STORAGE_SIZE - SOCKADDR_IN6_SIZE) 0 ∧
      (SocketAddress.assign a sa false).mAddress.length = STORAGE_SIZE ∧
      (SocketAddress.assign a sa false).Family = AF_INET6) ∧
    (sa_family sa ≠ AF_INET → sa_family sa ≠ AF_INET6 →
      (SocketAddress.assign a sa false).mAddress = List.replicate STORAGE_SIZE 0 ∧
      (SocketAddress.assign a sa false).Empty = true ∧
      SocketAddress.assign a sa false = SocketAddress.new ∧
      SocketAddress.assign a sa false = b.Reset) := by
  refine ⟨rfl, ?_, ?_, ?_⟩
  · intro hf hlen
    have h := memcpy_zeroed sa SOCKADDR_IN_SIZE hlen (by decide)
    have hm : (SocketAddress.assign a sa false).mAddress
        = memcpy (List.replicate STORAGE_SIZE 0) sa SOCKADDR_IN_SIZE := by
      simp [SocketAddress.assign, hf]
    refine ⟨by rw [hm]; exact h.1, by rw [hm]; exact h.2, ?_⟩
    have hv : SocketAddress.assign a sa false
        = { mAddress := sa.take SOCKADDR_IN_SIZE
              ++ List.replicate (STORAGE_SIZE - SOCKADDR_IN_SIZE) 0 } := by
      rw [← h.1, ← hm]
    rw [hv, family_of_copy sa SOCKADDR_IN_SIZE _ hlen (by decide), hf]
  · intro hf hlen
    have h := memcpy_zeroed sa SOCKADDR_IN6_SIZE hlen (by decide)
    have hm : (SocketAddress.assign a sa false).mAddress
        = memcpy (List.replicate STORAGE_SIZE 0) sa SOCKADDR_IN6_SIZE := by
      have h64 : ¬ (AF_INET6 = AF_INET) := by decide
      simp [SocketAddress.assign, hf, h64]
    refine ⟨by rw [hm]; exact h.1, by rw [hm]; exact h.2, ?_⟩
    have hv : SocketAddress.assign a sa false
        = { mAddress := sa.take SOCKADDR_IN6_SIZE
              ++ List.replicate (STORAGE_SIZE - SOCKADDR_IN6_SIZE) 0 } := by
      rw [← h.1, ← hm]
    rw [hv, family_of_copy sa SOCKADDR_IN6_SIZE _ hlen (by decide), hf]
  · intro h4 h6
    have hm : SocketAddress.assign a sa false = { mAddress := List.replicate STORAGE_SIZE 0 } := by
      simp [SocketAddress.assign, h4, h6]
    refine ⟨by rw [hm], ?_, by rw [hm]; rfl, by rw [hm]; rfl⟩
    rw [hm]
    decide

/-- C24 at sample inputs: a `sockaddr_in` for 192.168.1.2:8080 assigned to an
address that held the wildcard with port 8080 gives its 16 bytes followed by
112 zero bytes (the two bytes behind the source are not copied); a `sockaddr`
of the family `AF_UNIX` gives the empty address. -/
theorem sockaddr_assignment_is_canonical_witness :
    (SocketAddress.assign wildcardAddress inetSockaddr false).mAddress
      = [2, 0, 31, 144, 192, 168, 1, 2, 0, 0, 0, 0, 0, 0, 0, 0] ++ List.replicate 112 0 ∧
    SocketAddress.assign wildcardAddress unixSockaddr false = SocketAddress.new :=
  ⟨((sockaddr_assignment_is_canonical wildcardAddress wildcardAddress inetSockaddr).2.1
      (by decide) (by decide)).1,
   ((sockaddr_assignment_is_canonical wildcardAddress wildcardAddress unixSockaddr).2.2.2
      (by decide) (by decide)).2.2.1⟩

end netbase
